import Mathlib

/-!
# A shallow embedding of `tcp.c`

The definitions below follow `src/tcp.c` function by function.  Machine integers
are natural numbers reduced explicitly modulo `2^16`, `2^32` or `2^64` where the
C code can wrap.  The connection table `cb_table[128]` is a function from slot
index to control block, pointers to control blocks are slot indices, the
malloc-linked transmit queue is a list in queue order, and the collaborators
the file calls (`gettimeofday`, `time`, `random`, `malloc`, `ip_tx`,
`ip_netif_by_peer`) are oracles consulted in call order.
-/

namespace TcpStack

/-! ## Constants of `tcp.c` -/

abbrev USER_TIMEOUT : Int := 20
abbrev TIME_WAIT_TIMEOUT : Int := 2 * 10
abbrev TCP_SND_BUF_SIZE : Nat := 10 * 1024

abbrev TCP_CB_TABLE_SIZE : Nat := 128
abbrev TCP_SOURCE_PORT_MIN : Nat := 49152
abbrev TCP_SOURCE_PORT_MAX : Nat := 65535

abbrev TCP_CB_STATE_CLOSED : Nat := 0
abbrev TCP_CB_STATE_LISTEN : Nat := 1
abbrev TCP_CB_STATE_SYN_SENT : Nat := 2
abbrev TCP_CB_STATE_SYN_RCVD : Nat := 3
abbrev TCP_CB_STATE_ESTABLISHED : Nat := 4
abbrev TCP_CB_STATE_FIN_WAIT1 : Nat := 5
abbrev TCP_CB_STATE_FIN_WAIT2 : Nat := 6
abbrev TCP_CB_STATE_CLOSING : Nat := 7
abbrev TCP_CB_STATE_TIME_WAIT : Nat := 8
abbrev TCP_CB_STATE_CLOSE_WAIT : Nat := 9
abbrev TCP_CB_STATE_LAST_ACK : Nat := 10

abbrev TCP_FLG_FIN : Nat := 0x01
abbrev TCP_FLG_SYN : Nat := 0x02
abbrev TCP_FLG_RST : Nat := 0x04
abbrev TCP_FLG_PSH : Nat := 0x08
abbrev TCP_FLG_ACK : Nat := 0x10
abbrev TCP_FLG_URG : Nat := 0x20

/-- An index into `cb_table`; a pointer to a control block is the index of its slot. -/
abbrev Slot : Type := Fin TCP_CB_TABLE_SIZE

/-- The size of `struct tcp_hdr`: ten fields, twenty bytes, no padding. -/
abbrev TCP_HDR_SIZE : Nat := 20

/-- The size of `cb->window`. -/
abbrev WINDOW_SIZE : Nat := 65535

/-- Modelled from the spec: `IP_HDR_SIZE_MAX` comes from `ip.h`, which is not part of the
sources; the spec calls it `ip_hdr_max`, the largest IPv4 header (15 words). -/
abbrev IP_HDR_SIZE_MAX : Nat := 60

/-- Modelled from the spec: `IP_PROTOCOL_TCP` comes from `ip.h`; the spec gives protocol 6. -/
abbrev IP_PROTOCOL_TCP : Nat := 6

/-! ## Machine arithmetic -/

/-- Truncation to `uint8_t`. -/
def u8 (x : Nat) : Nat := x % 256

/-- Truncation to `uint16_t`. -/
def u16 (x : Nat) : Nat := x % 65536

/-- Truncation to `uint32_t`. -/
def u32 (x : Nat) : Nat := x % 4294967296

/-- Truncation to `size_t` (64 bits). -/
def u64 (x : Nat) : Nat := x % 18446744073709551616

/-- Unsigned 16-bit subtraction `a - b`. -/
def sub16 (a b : Nat) : Nat := (a + (65536 - b % 65536)) % 65536

/-- Unsigned 32-bit subtraction `a - b`. -/
def sub32 (a b : Nat) : Nat := (a + (4294967296 - b % 4294967296)) % 4294967296

/-- Unsigned 64-bit subtraction `a - b`. -/
def sub64 (a b : Nat) : Nat :=
  (a + (18446744073709551616 - b % 18446744073709551616)) % 18446744073709551616

/-- Modelled from the spec: `hton16` comes from `util.h`, which is not part of the sources;
it converts a 16-bit value to network byte order, here on a little-endian host. -/
def hton16 (x : Nat) : Nat := (x % 256) * 256 + (x / 256) % 256

/-- Modelled from the spec: `ntoh16` comes from `util.h`; the inverse byte swap. -/
def ntoh16 (x : Nat) : Nat := hton16 x

/-- Modelled from the spec: `hton32` comes from `util.h`, which is not part of the sources;
it converts a 32-bit value to network byte order, here on a little-endian host. -/
def hton32 (x : Nat) : Nat :=
  (x % 256) * 16777216 + ((x / 256) % 256) * 65536 + ((x / 65536) % 256) * 256
    + (x / 16777216) % 256

/-- Modelled from the spec: `ntoh32` comes from `util.h`; the inverse byte swap. -/
def ntoh32 (x : Nat) : Nat := hton32 x

/-- The macro `TCP_FLG_IS(x, y)`. -/
def TCP_FLG_IS (x y : Nat) : Bool := (x &&& 0x3f) == y

/-- The macro `TCP_FLG_ISSET(x, y)`, read as a C truth value. -/
def TCP_FLG_ISSET (x y : Nat) : Bool := ((x &&& 0x3f) &&& y) != 0

/-! ## Data model -/

/-- A `struct timeval`. -/
structure timeval where
  tv_sec : Int
  tv_usec : Int
deriving DecidableEq

/-- Modelled from the spec: `struct netif` / `struct netif_ip` / `struct netdev` come from
`ip.h` and `net.h`, which are not part of the sources.  Only the members `tcp.c` reads
are kept: the unicast address and the device MTU; `id` stands for the pointer value. -/
structure netif where
  id : Nat
  unicast : Nat
  mtu : Nat
deriving DecidableEq

/-- The fields of `struct tcp_hdr` as the 16- and 32-bit words the host reads from
memory; `seq`, `ack`, `win`, `urg` are used through `ntoh32` / `ntoh16` as in the source. -/
structure tcp_hdr where
  src : Nat
  dst : Nat
  seq : Nat
  ack : Nat
  off : Nat
  flg : Nat
  win : Nat
  sum : Nat
  urg : Nat
deriving DecidableEq

/-- The two bytes of a 16-bit word in host memory (little-endian). -/
def bytes16 (x : Nat) : List Nat := [x % 256, (x / 256) % 256]

/-- The four bytes of a 32-bit word in host memory (little-endian). -/
def bytes32 (x : Nat) : List Nat :=
  [x % 256, (x / 256) % 256, (x / 65536) % 256, (x / 16777216) % 256]

/-- The 16-bit word at byte offset `i` of a buffer. -/
def word16 (s : List Nat) (i : Nat) : Nat := s.getD i 0 + 256 * s.getD (i + 1) 0

/-- The 32-bit word at byte offset `i` of a buffer. -/
def word32 (s : List Nat) (i : Nat) : Nat :=
  s.getD i 0 + 256 * s.getD (i + 1) 0 + 65536 * s.getD (i + 2) 0 + 16777216 * s.getD (i + 3) 0

/-- The cast `(struct tcp_hdr *)segment`: the header read off the first twenty bytes. -/
def tcp_hdr.ofBytes (s : List Nat) : tcp_hdr :=
  { src := word16 s 0, dst := word16 s 2, seq := word32 s 4, ack := word32 s 8,
    off := s.getD 12 0, flg := s.getD 13 0, win := word16 s 14, sum := word16 s 16,
    urg := word16 s 18 }

/-- The twenty bytes a header occupies in memory. -/
def tcp_hdr.bytes (h : tcp_hdr) : List Nat :=
  bytes16 h.src ++ bytes16 h.dst ++ bytes32 h.seq ++ bytes32 h.ack ++ [h.off % 256, h.flg % 256]
    ++ bytes16 h.win ++ bytes16 h.sum ++ bytes16 h.urg

/-- The macro `TCP_HDR_LEN(hdr)`. -/
def TCP_HDR_LEN (hdr : tcp_hdr) : Nat := (hdr.off >>> 4) <<< 2

/-- The macro `TCP_DATA_LEN(hdr, len)` with `len` a `size_t`: the subtraction wraps at 64 bits. -/
def TCP_DATA_LEN (hdr : tcp_hdr) (len : Nat) : Nat := sub64 len (TCP_HDR_LEN hdr)

/-- A `struct tcp_txq_entry`: the malloced segment (header and payload), its length and
the time it was handed to IP (`tv_sec = 0`: not yet).  The `next` pointer is the list
order of the queue. -/
structure tcp_txq_entry where
  segment : tcp_hdr
  data : List Nat
  len : Nat
  timestamp : timeval
deriving DecidableEq

/-- A `struct tcp_txq_head`.  `entries` is the chain from `head`; `head == NULL` is
`entries = []` and `tail` is the last element.  `tcp_txq_add`, `tcp_txq_clear_all` and
the timer keep `head`/`tail` consistent with the chain, which is why the list suffices. -/
structure tcp_txq_head where
  entries : List tcp_txq_entry
  snt : Nat
deriving DecidableEq

/-- The member `peer` of `struct tcp_cb`. -/
structure tcp_peer where
  addr : Nat
  port : Nat
deriving DecidableEq

/-- The member `snd` of `struct tcp_cb`. -/
structure tcp_snd where
  nxt : Nat
  una : Nat
  up : Nat
  wl1 : Nat
  wl2 : Nat
  wnd : Nat
deriving DecidableEq

/-- The member `rcv` of `struct tcp_cb`. -/
structure tcp_rcv where
  nxt : Nat
  up : Nat
  wnd : Nat
deriving DecidableEq

/-- A `struct tcp_cb`.  `window` maps a byte offset below `WINDOW_SIZE` to the byte stored
there; `parent` and the members of `backlog` are slot indices of `cb_table`; the condition
variable carries no data and is left out. -/
structure tcp_cb where
  used : Bool
  state : Nat
  iface : Option netif
  port : Nat
  peer : tcp_peer
  snd : tcp_snd
  iss : Nat
  rcv : tcp_rcv
  irs : Nat
  txq : tcp_txq_head
  window : Nat → Nat
  parent : Option Slot
  backlog : List Slot
  timeout : Int

/-- A zero-initialised control block, as in the static `cb_table`. -/
def tcp_cb.zero : tcp_cb :=
  { used := false, state := 0, iface := none, port := 0, peer := { addr := 0, port := 0 },
    snd := { nxt := 0, una := 0, up := 0, wl1 := 0, wl2 := 0, wnd := 0 }, iss := 0,
    rcv := { nxt := 0, up := 0, wnd := 0 }, irs := 0, txq := { entries := [], snt := 0 },
    window := fun _ => 0, parent := none, backlog := [], timeout := 0 }

/-- The macro `IS_FREE_CB(cb)`. -/
def IS_FREE_CB (cb : tcp_cb) : Bool := !cb.used && cb.state == TCP_CB_STATE_CLOSED

/-- The macro `TCP_SOCKET_INVALID(x)`. -/
def TCP_SOCKET_INVALID (x : Int) : Bool := decide (x < 0) || decide (x ≥ 128)

/-- The collaborators of `tcp.c`, each answering its `n`-th consultation. -/
structure Env where
  gettimeofday : Nat → Option timeval
  time : Nat → Nat
  random : Nat → Nat
  malloc : Nat → Bool
  ip_tx : Nat → Bool
  ip_netif_by_peer : Nat → Option netif

/-- One call of `tcp_tx`, as seen by the caller. -/
structure tx_call where
  cb : Slot
  seq : Nat
  ack : Nat
  flg : Nat
  buf : List Nat
deriving DecidableEq

/-- One call of `ip_tx`: the interface, the bytes and the destination address. -/
structure ip_call where
  iface : Option netif
  segment : List Nat
  peer : Nat
deriving DecidableEq

/-- The state of the module: the table, the number of oracle consultations made so far,
and the record of the calls of `tcp_tx` and of `ip_tx` in the order they were made. -/
structure World where
  cb_table : Slot → tcp_cb
  tick : Nat
  tx_log : List tx_call
  ip_log : List ip_call

/-- The module state at program start: all static storage zero. -/
def World.zero : World :=
  { cb_table := fun _ => tcp_cb.zero, tick := 0, tx_log := [], ip_log := [] }

/-- Store `cb` in slot `i`. -/
def World.set (w : World) (i : Slot) (cb : tcp_cb) : World :=
  { w with cb_table := fun j => if j = i then cb else w.cb_table j }

/-! ## Checksum -/

/-- The sum of the 16-bit words of a buffer, an odd last byte counted as a word of its own. -/
def sum16 : List Nat → Nat
  | [] => 0
  | [b] => b
  | b0 :: b1 :: rest => (b0 + 256 * b1) + sum16 rest

/-- One end-around-carry step of the one's-complement sum. -/
def fold16 (x : Nat) : Nat := x % 65536 + x / 65536

/-- Modelled from the spec: `cksum16` comes from `util.h`, which is not part of the sources;
the spec describes the 16-bit one's-complement of the one's-complement sum of the
buffer's 16-bit words (a zero byte added to an odd length), started from `init`. -/
def cksum16 (data : List Nat) (len : Nat) (init : Nat) : Nat :=
  65535 - (fold16 (fold16 (u32 (init + sum16 (data.take len))))) % 65536

/-- The pseudo-header accumulator built by `tcp_checksum` (a `uint32_t`). -/
def tcp_pseudo (self peer : Nat) (len : Nat) : Nat :=
  u32 (((self >>> 16) &&& 0xffff)
    + (self &&& 0xffff)
    + ((peer >>> 16) &&& 0xffff)
    + (self &&& 0xffff)
    + hton16 (u16 IP_PROTOCOL_TCP)
    + hton16 (u16 len))

/-- The function `tcp_checksum`. -/
def tcp_checksum (self peer : Nat) (segment : List Nat) (len : Nat) : Nat :=
  cksum16 segment len (tcp_pseudo self peer len)

/-! ## Segment queue -/

/-- Apply `f` to the last element of a list (the entry `txq.tail` points to). -/
def update_tail (f : tcp_txq_entry → tcp_txq_entry) : List tcp_txq_entry → List tcp_txq_entry
  | [] => []
  | [e] => [f e]
  | e :: e2 :: es => e :: update_tail f (e2 :: es)

/-- The function `tcp_txq_add`; `ok` is the outcome of its `malloc`.  On failure the queue
is untouched and `NULL` is returned. -/
def tcp_txq_add (ok : Bool) (cb : tcp_cb) (hdr : tcp_hdr) (data : List Nat) (len : Nat) :
    Option tcp_cb :=
  if !ok then none
  else
    some { cb with
      txq := { cb.txq with
        entries := cb.txq.entries ++
          [{ segment := hdr, data := data, len := u16 len,
             timestamp := { tv_sec := 0, tv_usec := 0 } }] } }

/-- The function `tcp_txq_clear_all`: every entry is freed, `head = tail = NULL`; `snt` is
not written. -/
def tcp_txq_clear_all (cb : tcp_cb) : tcp_cb :=
  { cb with txq := { cb.txq with entries := [] } }

/-- The function `tcp_close_cb`. -/
def tcp_close_cb (cb : tcp_cb) : tcp_cb :=
  tcp_txq_clear_all
    { cb with
      state := TCP_CB_STATE_CLOSED
      snd := { nxt := 0, una := 0, up := 0, wl1 := 0, wl2 := 0, wnd := 0 }
      iss := 0
      rcv := { nxt := 0, up := 0, wnd := 0 }
      irs := 0 }

/-! ## Transmit path -/

/-- The unicast address read through `cb->iface`.  With `iface == NULL` the C code
dereferences a null pointer; the model reads address 0 there. -/
def iface_unicast (cb : tcp_cb) : Nat :=
  match cb.iface with
  | some n => n.unicast
  | none => 0

/-- The second half of `tcp_tx`, from "calculate checksum" on.  `queued` says whether
`txq` is non-NULL, in which case the segment is the tail entry of the queue. -/
def tcp_tx_send (env : Env) (w : World) (i : Slot) (hdr : tcp_hdr) (buf : List Nat)
    (now : timeval) (queued : Bool) : Int × World :=
  let len := buf.length
  let cb := w.cb_table i
  let self := iface_unicast cb
  let peer := cb.peer.addr
  let sum := tcp_checksum self peer (hdr.bytes ++ buf) (TCP_HDR_SIZE + len)
  let hdr1 := { hdr with sum := sum }
  let cb1 :=
    if queued then
      { cb with txq := { cb.txq with
          entries := update_tail (fun e => { e with segment := hdr1 }) cb.txq.entries } }
    else cb
  let sent := env.ip_tx w.tick
  let w1 : World :=
    { (w.set i cb1) with
      tick := w.tick + 1
      ip_log := w.ip_log ++ [{ iface := cb.iface, segment := hdr1.bytes ++ buf, peer := peer }] }
  if !sent then (-1, w1)
  else if queued then
    let cb2 :=
      { cb1 with txq :=
          { entries := update_tail (fun e => { e with timestamp := now }) cb1.txq.entries
            snt := u16 (cb1.txq.snt + len) } }
    (Int.ofNat len, w1.set i cb2)
  else (Int.ofNat len, w1)

/-- The function `tcp_tx`; `buf` is the `len` bytes at the C pointer `buf` (`NULL`, 0 is the
empty list). -/
def tcp_tx (env : Env) (w : World) (i : Slot) (seq ack flg : Nat) (now : timeval)
    (buf : List Nat) : Int × World :=
  let len := buf.length
  let w0 : World :=
    { w with
      tick := w.tick + 1
      tx_log := w.tx_log ++ [{ cb := i, seq := seq, ack := ack, flg := flg, buf := buf }] }
  if !env.malloc w.tick then (-1, w0)
  else
    let cb := w0.cb_table i
    let hdr : tcp_hdr :=
      { src := cb.port, dst := cb.peer.port, seq := hton32 seq, ack := hton32 ack,
        off := (TCP_HDR_SIZE >>> 2) <<< 4, flg := flg, win := hton16 cb.rcv.wnd,
        sum := 0, urg := 0 }
    if len > 0 ∨ flg &&& (TCP_FLG_SYN ||| TCP_FLG_FIN) ≠ 0 then
      let have_unsent :=
        match cb.txq.entries.getLast? with
        | some t => t.timestamp.tv_sec == 0
        | none => false
      let w1 : World := { w0 with tick := w0.tick + 1 }
      match tcp_txq_add (env.malloc w0.tick) cb hdr buf (TCP_HDR_SIZE + len) with
      | none => (-1, w1)
      | some cb1 =>
        let w2 := w1.set i cb1
        if have_unsent || (!TCP_FLG_ISSET hdr.flg TCP_FLG_SYN
            && decide (cb1.txq.snt + len > cb1.snd.wnd)) then
          (0, w2)
        else tcp_tx_send env w2 i hdr buf now true
    else tcp_tx_send env w0 i hdr buf now false

/-! ## Event processing: SEGMENT ARRIVES -/

/-- Apply `f` to the control block in slot `i`. -/
def World.modify (w : World) (i : Slot) (f : tcp_cb → tcp_cb) : World :=
  w.set i (f (w.cb_table i))

/-- The call `memcpy(cb->window + off, src, n)`.  Only offsets inside `window` are part of
the model: a byte the C code would store past the end of the array is not recorded, and a
byte it would read past the end of `src` reads as 0.  `text_in_window` says that the call
of the text step stores no such byte, and `window_overrun` lists the bytes it stores past
the end. -/
def window_write (window : Nat → Nat) (off : Nat) (src : List Nat) (n : Nat) : Nat → Nat :=
  fun j => if off ≤ j ∧ j < off + n ∧ j < WINDOW_SIZE then src.getD (j - off) 0 else window j

/-- Modelled from the spec: `queue_push` comes from `util.h`, which is not part of the
sources; the spec describes `backlog` as a FIFO, so a push appends at the tail. -/
def queue_push (q : List Slot) (x : Slot) : List Slot := q ++ [x]

/-- Modelled from the spec: `queue_pop` comes from `util.h`; it takes the oldest element
of the FIFO, or reports `-1` (here `none`) on an empty queue. -/
def queue_pop (q : List Slot) : Option (Slot × List Slot) :=
  match q with
  | [] => none
  | x :: rest => some (x, rest)

/-- The code of `tcp_event_segment_arrives` from the label `CHECK_URG` to the end:
the URG bit, the segment text and the FIN bit. -/
def segment_check_urg (env : Env) (w : World) (i : Slot) (hdr : tcp_hdr) (segment : List Nat)
    (plen : Nat) (now : timeval) : World :=
  -- sixth, check the URG bit
  let w1 : World :=
    if TCP_FLG_ISSET hdr.flg TCP_FLG_URG then
      match (w.cb_table i).state with
      | 4 | 5 | 6 =>
        w.modify i (fun cb => { cb with rcv := { cb.rcv with up := max cb.rcv.up (ntoh16 hdr.urg) } })
      | _ => w
    else w
  -- seventh, process the segment text
  let w2 : World :=
    match (w1.cb_table i).state with
    | 4 | 5 | 6 =>
      let cb := w1.cb_table i
      if plen > 0 ∧ cb.rcv.nxt = ntoh32 hdr.seq then
        let cb1 :=
          { cb with
            window := window_write cb.window (WINDOW_SIZE - cb.rcv.wnd)
              (segment.drop (TCP_HDR_LEN hdr)) plen
            rcv := { cb.rcv with
              nxt := u32 (ntoh32 hdr.seq + plen)
              wnd := sub16 cb.rcv.wnd plen } }
        (tcp_tx env (w1.set i cb1) i cb1.snd.nxt cb1.rcv.nxt TCP_FLG_ACK now []).2
      else if TCP_FLG_ISSET hdr.flg TCP_FLG_PSH then
        (tcp_tx env w1 i cb.snd.nxt cb.rcv.nxt TCP_FLG_ACK now []).2
      else w1
    | _ => w1
  -- eighth, check the FIN bit
  if TCP_FLG_ISSET hdr.flg TCP_FLG_FIN then
    let w3 := w2.modify i (fun cb => { cb with rcv := { cb.rcv with nxt := u32 (ntoh32 hdr.seq + 1) } })
    let cb := w3.cb_table i
    let w4 := (tcp_tx env w3 i cb.snd.nxt cb.rcv.nxt TCP_FLG_ACK now []).2
    match (w4.cb_table i).state with
    | 3 | 4 => w4.modify i (fun cb => { cb with state := TCP_CB_STATE_CLOSE_WAIT })
    | 5 => w4.modify i (fun cb => { cb with state := TCP_CB_STATE_CLOSING })
    | 6 =>
      w4.modify i (fun cb =>
        { cb with state := TCP_CB_STATE_TIME_WAIT, timeout := now.tv_sec + TIME_WAIT_TIMEOUT })
    | 8 => w4.modify i (fun cb => { cb with timeout := now.tv_sec + TIME_WAIT_TIMEOUT })
    | _ => w4
  else w2

/-- The case `TCP_CB_STATE_CLOSED` of `tcp_event_segment_arrives`. -/
def segment_arrives_closed (env : Env) (w : World) (i : Slot) (hdr : tcp_hdr) (plen : Nat)
    (now : timeval) : World :=
  if !TCP_FLG_ISSET hdr.flg TCP_FLG_RST then
    if TCP_FLG_ISSET hdr.flg TCP_FLG_ACK then
      (tcp_tx env w i (ntoh32 hdr.ack) 0 TCP_FLG_RST now []).2
    else
      (tcp_tx env w i 0 (u32 (ntoh32 hdr.seq + plen)) (TCP_FLG_RST ||| TCP_FLG_ACK) now []).2
  else w

/-- The label `ERROR_RX_LISTEN`: the block goes back to CLOSED and forgets its parent. -/
def error_rx_listen (w : World) (i : Slot) : World :=
  w.modify i (fun cb => { tcp_close_cb cb with parent := none })

/-- The case `TCP_CB_STATE_LISTEN` of `tcp_event_segment_arrives`. -/
def segment_arrives_listen (env : Env) (w : World) (i : Slot) (hdr : tcp_hdr)
    (segment : List Nat) (plen : Nat) (now : timeval) : World :=
  if TCP_FLG_ISSET hdr.flg TCP_FLG_RST then error_rx_listen w i
  else if TCP_FLG_ISSET hdr.flg TCP_FLG_ACK then
    error_rx_listen (tcp_tx env w i (ntoh32 hdr.ack) 0 TCP_FLG_RST now []).2 i
  else if TCP_FLG_ISSET hdr.flg TCP_FLG_SYN then
    let iss := u32 (env.random w.tick)
    let w1 : World :=
      { (w.modify i (fun cb =>
          { cb with
            rcv := { cb.rcv with wnd := WINDOW_SIZE, nxt := u32 (ntoh32 hdr.seq + 1) }
            irs := ntoh32 hdr.seq
            iss := iss })) with tick := w.tick + 1 }
    let w2 := (tcp_tx env w1 i iss (w1.cb_table i).rcv.nxt (TCP_FLG_SYN ||| TCP_FLG_ACK) now []).2
    let w3 := w2.modify i (fun cb =>
      { cb with
        snd := { cb.snd with nxt := u32 (cb.iss + 1), una := cb.iss }
        timeout := now.tv_sec + USER_TIMEOUT
        state := TCP_CB_STATE_SYN_RCVD })
    segment_check_urg env w3 i hdr segment plen now
  else error_rx_listen w i

/-- The case `TCP_CB_STATE_SYN_SENT` of `tcp_event_segment_arrives`, from the RST check on;
`acceptable` is the local variable set by the ACK check. -/
def segment_arrives_syn_sent_rest (env : Env) (w : World) (i : Slot) (hdr : tcp_hdr)
    (segment : List Nat) (plen : Nat) (now : timeval) (acceptable : Bool) : World :=
  -- second check the RST bit
  if TCP_FLG_ISSET hdr.flg TCP_FLG_RST then
    if !acceptable then w else w.modify i tcp_close_cb
  -- fourth check the SYN bit
  else if TCP_FLG_ISSET hdr.flg TCP_FLG_SYN then
    let w1 := w.modify i (fun cb =>
      { cb with rcv := { cb.rcv with nxt := u32 (ntoh32 hdr.seq + 1) }, irs := ntoh32 hdr.seq })
    let w2 :=
      if (w1.cb_table i).snd.una < ntoh32 hdr.ack then
        w1.modify i (fun cb =>
          { cb with
            snd := { cb.snd with una := ntoh32 hdr.ack }
            timeout := now.tv_sec + USER_TIMEOUT })
      else w1
    if (w2.cb_table i).snd.una > (w2.cb_table i).iss then
      let w3 := w2.modify i (fun cb => { cb with state := TCP_CB_STATE_ESTABLISHED })
      let cb := w3.cb_table i
      let w4 := (tcp_tx env w3 i cb.snd.nxt cb.rcv.nxt TCP_FLG_ACK now []).2
      if plen > 0 ∨ TCP_FLG_ISSET hdr.flg TCP_FLG_URG then
        segment_check_urg env w4 i hdr segment plen now
      else w4
    else
      let w3 := w2.modify i (fun cb => { cb with state := TCP_CB_STATE_SYN_RCVD })
      let cb := w3.cb_table i
      (tcp_tx env w3 i cb.iss cb.rcv.nxt (TCP_FLG_SYN ||| TCP_FLG_ACK) now []).2
  else w

/-- The case `TCP_CB_STATE_SYN_SENT` of `tcp_event_segment_arrives`. -/
def segment_arrives_syn_sent (env : Env) (w : World) (i : Slot) (hdr : tcp_hdr)
    (segment : List Nat) (plen : Nat) (now : timeval) : World :=
  let cb := w.cb_table i
  -- first check the ACK bit
  if TCP_FLG_ISSET hdr.flg TCP_FLG_ACK then
    if ntoh32 hdr.ack ≤ cb.iss ∨ ntoh32 hdr.ack > cb.snd.nxt then
      (tcp_tx env w i (ntoh32 hdr.ack) 0 TCP_FLG_RST now []).2
    else if cb.snd.una ≤ ntoh32 hdr.ack ∧ ntoh32 hdr.ack ≤ cb.snd.nxt then
      segment_arrives_syn_sent_rest env w i hdr segment plen now true
    else w
  else segment_arrives_syn_sent_rest env w i hdr segment plen now false

/-- The value of `acceptable` after "first check sequence number".  `rcv.nxt + rcv.wnd` is
a 32-bit sum; `seq + plen - 1` is computed in `size_t`. -/
def segment_acceptable (cb : tcp_cb) (hdr : tcp_hdr) (plen : Nat) : Bool :=
  if plen > 0 then
    if cb.rcv.wnd > 0 then
      (decide (cb.rcv.nxt ≤ ntoh32 hdr.seq)
          && decide (ntoh32 hdr.seq < u32 (cb.rcv.nxt + cb.rcv.wnd)))
        || (decide (cb.rcv.nxt ≤ ntoh32 hdr.seq)
          && decide (u64 (ntoh32 hdr.seq + plen - 1) < u32 (cb.rcv.nxt + cb.rcv.wnd)))
    else false
  else
    if cb.rcv.wnd > 0 then
      decide (cb.rcv.nxt ≤ ntoh32 hdr.seq)
        && decide (ntoh32 hdr.seq < u32 (cb.rcv.nxt + cb.rcv.wnd))
    else decide (ntoh32 hdr.seq = cb.rcv.nxt)

/-- The ACK processing shared by ESTABLISHED, FIN_WAIT1, FIN_WAIT2, CLOSE_WAIT and CLOSING
(and reached from SYN_RCVD by fall-through).  The flag is `false` when the C code returns
from `tcp_event_segment_arrives` here and `true` when it goes on to `CHECK_URG`. -/
def segment_ack_established (env : Env) (w : World) (i : Slot) (hdr : tcp_hdr)
    (now : timeval) : World × Bool :=
  let cb := w.cb_table i
  let fin_acked (w : World) : World :=
    let cb := w.cb_table i
    if cb.state = TCP_CB_STATE_FIN_WAIT1 then
      if u32 (ntoh32 hdr.ack + 1) = cb.snd.nxt then
        w.set i { cb with state := TCP_CB_STATE_FIN_WAIT2 }
      else w
    else if cb.state = TCP_CB_STATE_FIN_WAIT2 then w
    else if cb.state = TCP_CB_STATE_CLOSING then
      if u32 (ntoh32 hdr.ack + 1) = cb.snd.nxt then
        w.set i { cb with state := TCP_CB_STATE_TIME_WAIT }
      else w
    else w
  if cb.snd.una ≤ ntoh32 hdr.ack ∧ ntoh32 hdr.ack ≤ cb.snd.nxt then
    let cb1 :=
      if cb.snd.una < ntoh32 hdr.ack then
        { cb with
          snd := { cb.snd with una := ntoh32 hdr.ack }
          timeout := now.tv_sec + USER_TIMEOUT }
      else cb
    let cb2 :=
      if cb1.snd.wl1 < ntoh32 hdr.seq
          ∨ (cb1.snd.wl1 = ntoh32 hdr.seq ∧ cb1.snd.wl2 ≤ ntoh32 hdr.ack) then
        { cb1 with
          snd := { cb1.snd with
            wnd := ntoh16 hdr.win, wl1 := ntoh32 hdr.seq, wl2 := ntoh32 hdr.ack } }
      else cb1
    (fin_acked (w.set i cb2), true)
  else if ntoh32 hdr.ack > cb.snd.nxt then
    ((tcp_tx env w i cb.snd.nxt cb.rcv.nxt TCP_FLG_ACK now []).2, false)
  else (fin_acked w, true)

/-- The step "fifth check the ACK field" when the ACK bit is set. -/
def segment_ack (env : Env) (w : World) (i : Slot) (hdr : tcp_hdr) (now : timeval) :
    World × Bool :=
  let cb := w.cb_table i
  match cb.state with
  | 3 =>
    if ¬ (cb.snd.una ≤ ntoh32 hdr.ack ∧ ntoh32 hdr.ack ≤ cb.snd.nxt) then
      ((tcp_tx env w i (ntoh32 hdr.ack) cb.rcv.nxt TCP_FLG_RST now []).2, true)
    else
      let w1 := w.set i { cb with state := TCP_CB_STATE_ESTABLISHED }
      let w2 :=
        match cb.parent with
        | some p => w1.modify p (fun pcb => { pcb with backlog := queue_push pcb.backlog i })
        | none => w1
      segment_ack_established env w2 i hdr now
  | 4 | 5 | 6 | 9 | 7 => segment_ack_established env w i hdr now
  | 10 =>
    if ntoh32 hdr.ack = cb.snd.nxt then (w.modify i tcp_close_cb, false) else (w, true)
  | _ => (w, true)

/-- The part of `tcp_event_segment_arrives` common to the synchronized states SYN_RCVD to
LAST_ACK: sequence check, RST, SYN and ACK, then on to `CHECK_URG`. -/
def segment_arrives_synchronized (env : Env) (w : World) (i : Slot) (hdr : tcp_hdr)
    (segment : List Nat) (plen : Nat) (now : timeval) : World :=
  let cb := w.cb_table i
  -- first check sequence number
  if !segment_acceptable cb hdr plen then
    if !TCP_FLG_ISSET hdr.flg TCP_FLG_RST then
      (tcp_tx env w i cb.snd.nxt cb.rcv.nxt TCP_FLG_ACK now []).2
    else w
  -- second check the RST bit
  else if TCP_FLG_ISSET hdr.flg TCP_FLG_RST then w.modify i tcp_close_cb
  -- fourth, check the SYN bit
  else if TCP_FLG_ISSET hdr.flg TCP_FLG_SYN then
    (tcp_tx env w i 0 cb.rcv.nxt TCP_FLG_RST now []).2.modify i tcp_close_cb
  -- fifth check the ACK field
  else
    let r := if TCP_FLG_ISSET hdr.flg TCP_FLG_ACK then segment_ack env w i hdr now else (w, true)
    if r.2 then segment_check_urg env r.1 i hdr segment plen now else r.1

/-- The function `tcp_event_segment_arrives(cb, hdr, len)` on slot `i`, with `hdr` the
cast of the `len = segment.length` bytes of `segment`. -/
def tcp_event_segment_arrives (env : Env) (w : World) (i : Slot) (segment : List Nat) : World :=
  let hdr := tcp_hdr.ofBytes segment
  let plen := TCP_DATA_LEN hdr segment.length
  match env.gettimeofday w.tick with
  | none => { w with tick := w.tick + 1 }
  | some now =>
    let w0 : World := { w with tick := w.tick + 1 }
    match (w0.cb_table i).state with
    | 0 => segment_arrives_closed env w0 i hdr plen now
    | 1 => segment_arrives_listen env w0 i hdr segment plen now
    | 2 => segment_arrives_syn_sent env w0 i hdr segment plen now
    | 3 | 4 | 5 | 6 | 7 | 8 | 9 | 10 => segment_arrives_synchronized env w0 i hdr segment plen now
    | _ => w0

/-! ## Receive entry point -/

/-- The loop variables of the table scan of `tcp_rx`: the slot at which the loop broke off
(`none`: it ran to the end), the first free slot `fcb` and the first listener `lcb`. -/
structure rx_scan where
  found : Option Slot
  fcb : Option Slot
  lcb : Option Slot
deriving DecidableEq

/-- One iteration of the scan of `tcp_rx`, at slot `i`. -/
def tcp_rx_step (w : World) (hdr : tcp_hdr) (src : Nat) (iface : netif) (s : rx_scan)
    (i : Slot) : rx_scan :=
  match s.found with
  | some _ => s
  | none =>
    let cb := w.cb_table i
    if IS_FREE_CB cb then
      if s.fcb.isNone then { s with fcb := some i } else s
    else if (cb.iface.isNone || cb.iface == some iface) && cb.port == hdr.dst then
      if cb.peer.addr == src && cb.peer.port == hdr.src then { s with found := some i }
      else if cb.state == TCP_CB_STATE_LISTEN && s.lcb.isNone then { s with lcb := some i }
      else s
    else s

/-- The function `tcp_rx(segment, len, src, dst, iface)` with `len = segment.length`. -/
def tcp_rx (env : Env) (w : World) (segment : List Nat) (src dst : Nat) (iface : netif) :
    World :=
  if dst ≠ iface.unicast then w
  else if segment.length < TCP_HDR_SIZE then w
  else if tcp_checksum src dst segment segment.length ≠ 0 then w
  else
    let hdr := tcp_hdr.ofBytes segment
    let s := (List.finRange TCP_CB_TABLE_SIZE).foldl (tcp_rx_step w hdr src iface)
      { found := none, fcb := none, lcb := none }
    match s.found with
    | some i => tcp_event_segment_arrives env w i segment
    | none =>
      match s.fcb with
      | none => w
      | some f =>
        let w1 := w.modify f (fun cb => { cb with iface := some iface })
        let w2 :=
          match s.lcb with
          | some l =>
            w1.modify f (fun cb =>
              { cb with state := (w1.cb_table l).state, port := (w1.cb_table l).port,
                        parent := some l })
          | none => w1.modify f (fun cb => { cb with port := 0 })
        let w3 := w2.modify f (fun cb => { cb with peer := { addr := src, port := hdr.src } })
        tcp_event_segment_arrives env w3 f segment

/-! ## Application interface -/

/-- An application call either returns a value or is left suspended in
`pthread_cond_wait`, waiting for another thread to change the control block. -/
inductive api_result where
  | ret (v : Int)
  | blocked
deriving DecidableEq

/-- The slot a valid socket handle designates (`none` when `TCP_SOCKET_INVALID`). -/
def socket_slot (soc : Int) : Option Slot :=
  if h : 0 ≤ soc ∧ soc < 128 then some ⟨soc.toNat, by show soc.toNat < 128; omega⟩ else none

/-- The function `tcp_api_open`. -/
def tcp_api_open (w : World) : Int × World :=
  match (List.finRange TCP_CB_TABLE_SIZE).find? (fun i => IS_FREE_CB (w.cb_table i)) with
  | some i => (Int.ofNat i.val, w.modify i (fun cb => { cb with used := true }))
  | none => (-1, w)

/-- The statement `switch (cb->state)` of `tcp_close`.  `close_children` is the loop of the
LISTEN case, which calls `tcp_close` again for every child in the backlog. -/
def tcp_close_switch (env : Env) (close_children : World → Option World) (w : World)
    (i : Slot) (now : timeval) : Option (Int × World) :=
  let cb := w.cb_table i
  match cb.state with
  | 0 => some (0, w)
  | 1 =>
    match close_children w with
    | none => none
    | some w3 => some (0, w3.modify i tcp_close_cb)
  | 2 => some (0, w.modify i tcp_close_cb)
  | 3 | 4 =>
    let w3 := (tcp_tx env w i cb.snd.nxt cb.rcv.nxt (TCP_FLG_FIN ||| TCP_FLG_ACK) now []).2
    some (0, w3.modify i (fun cb =>
      { cb with snd := { cb.snd with nxt := u32 (cb.snd.nxt + 1) }
                state := TCP_CB_STATE_FIN_WAIT1 }))
  | 5 | 6 | 7 | 8 | 10 => some (-1, w)
  | 9 =>
    let w3 := (tcp_tx env w i cb.snd.nxt cb.rcv.nxt (TCP_FLG_FIN ||| TCP_FLG_ACK) now []).2
    some (0, w3.modify i (fun cb =>
      { cb with snd := { cb.snd with nxt := u32 (cb.snd.nxt + 1) }
                state := TCP_CB_STATE_CLOSING }))
  | _ => some (0, w)

mutual

/-- The function `tcp_close`.  `fuel` bounds the nesting of the calls made for the
children of a listener; `none` means the bound was reached. -/
def tcp_close (env : Env) (fuel : Nat) (w : World) (i : Slot) : Option (Int × World) :=
  if !(w.cb_table i).used then some (-1, w)
  else
    let w1 : World := { (w.set i { w.cb_table i with used := false }) with tick := w.tick + 1 }
    match env.gettimeofday w.tick with
    | none => some (-1, w1)
    | some now =>
      tcp_close_switch env
        (fun w2 =>
          match fuel with
          | 0 => none
          | f + 1 => tcp_close_backlog env f w2 i)
        w1 i now

/-- The loop `while (queue_pop(&cb->backlog, ...) != -1) tcp_close(backlog);` of the LISTEN
case of `tcp_close`, on the listener in slot `i`. -/
def tcp_close_backlog (env : Env) (fuel : Nat) (w : World) (i : Slot) : Option World :=
  match queue_pop (w.cb_table i).backlog with
  | none => some w
  | some (c, rest) =>
    match fuel with
    | 0 => none
    | f + 1 =>
      match tcp_close env f (w.modify i (fun cb => { cb with backlog := rest })) c with
      | none => none
      | some r => tcp_close_backlog env f r.2 i

end

/-- The function `tcp_api_close`. -/
def tcp_api_close (env : Env) (fuel : Nat) (w : World) (soc : Int) : Option (Int × World) :=
  match socket_slot soc with
  | none => some (-1, w)
  | some i => tcp_close env fuel w i

/-- The function `tcp_api_bind`. -/
def tcp_api_bind (w : World) (soc : Int) (port : Nat) : Int × World :=
  match socket_slot soc with
  | none => (-1, w)
  | some i =>
    if (List.finRange TCP_CB_TABLE_SIZE).any (fun j => (w.cb_table j).port == hton16 port) then
      (-1, w)
    else
      let cb := w.cb_table i
      if !cb.used || cb.state != TCP_CB_STATE_CLOSED then (-1, w)
      else (0, w.set i { cb with port := hton16 port })

/-- The function `tcp_api_listen`. -/
def tcp_api_listen (w : World) (soc : Int) : Int × World :=
  match socket_slot soc with
  | none => (-1, w)
  | some i =>
    let cb := w.cb_table i
    if !cb.used || cb.state != TCP_CB_STATE_CLOSED || cb.port == 0 then (-1, w)
    else (0, w.set i { cb with state := TCP_CB_STATE_LISTEN })

/-- The function `tcp_api_accept`.  With an empty backlog the caller waits on the
listener's condition variable. -/
def tcp_api_accept (w : World) (soc : Int) : api_result × World :=
  match socket_slot soc with
  | none => (api_result.ret (-1), w)
  | some i =>
    let cb := w.cb_table i
    if !cb.used || cb.state != TCP_CB_STATE_LISTEN then (api_result.ret (-1), w)
    else
      match queue_pop cb.backlog with
      | none => (api_result.blocked, w)
      | some (c, rest) =>
        let w1 := w.set i { cb with backlog := rest }
        (api_result.ret (Int.ofNat c.val), w1.modify c (fun ccb => { ccb with used := true }))

/-- The call `memmove(cb->window, cb->window + len, n)`. -/
def window_shift (window : Nat → Nat) (len n : Nat) : Nat → Nat :=
  fun j => if j < n then window (j + len) else window j

/-- The function `tcp_api_recv(soc, buf, size)`; the bytes copied to `buf` are returned
next to the return value.  With nothing buffered on an open connection the caller waits. -/
def tcp_api_recv (w : World) (soc : Int) (size : Nat) : api_result × List Nat × World :=
  match socket_slot soc with
  | none => (api_result.ret (-1), [], w)
  | some i =>
    let cb := w.cb_table i
    if !cb.used then (api_result.ret (-1), [], w)
    else
      match cb.state with
      | 9 | 4 | 5 | 6 =>
        let total := WINDOW_SIZE - cb.rcv.wnd
        if total = 0 then
          if cb.state = TCP_CB_STATE_CLOSE_WAIT then (api_result.ret (-1), [], w)
          else (api_result.blocked, [], w)
        else
          let len := if total > size then size else total
          let buf := (List.range len).map cb.window
          let cb1 :=
            { cb with
              window := window_shift cb.window len (total - len)
              rcv := { cb.rcv with wnd := u16 (cb.rcv.wnd + len) } }
          (api_result.ret (Int.ofNat len), buf, w.set i cb1)
      | _ => (api_result.ret (-1), [], w)

/-- The inner loop of the ephemeral-port scan: does a non-free block hold port `p`? -/
def source_port_taken (w : World) (p : Nat) : Bool :=
  (List.finRange TCP_CB_TABLE_SIZE).any
    (fun j => !IS_FREE_CB (w.cb_table j) && (w.cb_table j).port == hton16 (u16 p))

/-- The outer loop of the ephemeral-port scan, with `n` candidates left starting at `p`. -/
def find_source_port_from (w : World) : Nat → Nat → Option Nat
  | 0, _ => none
  | n + 1, p => if source_port_taken w p then find_source_port_from w n (p + 1) else some p

/-- The ephemeral-port scan of `tcp_api_connect`: the first `p` from
`TCP_SOURCE_PORT_MIN + offset` to `TCP_SOURCE_PORT_MAX` that no non-free block holds. -/
def find_source_port (w : World) (offset : Nat) : Option Nat :=
  find_source_port_from w (TCP_SOURCE_PORT_MAX + 1 - (TCP_SOURCE_PORT_MIN + offset))
    (TCP_SOURCE_PORT_MIN + offset)

/-- The function `tcp_api_connect(soc, addr, port)` up to its wait loop: once the SYN is
out and the block is in SYN_SENT the caller waits for the state to change. -/
def tcp_api_connect (env : Env) (w : World) (soc : Int) (addr : Nat) (port : Nat) :
    api_result × World :=
  match socket_slot soc with
  | none => (api_result.ret (-1), w)
  | some i =>
    let cb := w.cb_table i
    if !cb.used || cb.state != TCP_CB_STATE_CLOSED then (api_result.ret (-1), w)
    else
      match env.gettimeofday w.tick with
      | none => (api_result.ret (-1), { w with tick := w.tick + 1 })
      | some now =>
        let w0 : World := { w with tick := w.tick + 1 }
        -- if port number is not specified then generate nice port
        let w1 : World :=
          if cb.port = 0 then
            let offset := env.time w0.tick % 1024
            let w0a : World := { w0 with tick := w0.tick + 1 }
            match find_source_port w0a offset with
            | some p => w0a.modify i (fun cb => { cb with port := hton16 (u16 p) })
            | none => w0a
          else w0
        if (w1.cb_table i).port = 0 then (api_result.ret (-1), w1)
        else
          -- initalize cb
          let w2 := w1.modify i (fun cb =>
            { cb with
              peer := { addr := addr, port := hton16 port }
              iface := env.ip_netif_by_peer addr })
          if (w2.cb_table i).iface.isNone then (api_result.ret (-1), w2)
          else
            let iss := u32 (env.random w2.tick)
            let w3 : World :=
              { (w2.modify i (fun cb =>
                  { cb with rcv := { cb.rcv with wnd := WINDOW_SIZE }, iss := iss })) with
                tick := w2.tick + 1 }
            -- send SYN packet
            let r := tcp_tx env w3 i iss 0 TCP_FLG_SYN now []
            if r.1 = -1 then (api_result.ret (-1), r.2)
            else
              (api_result.blocked, r.2.modify i (fun cb =>
                { cb with
                  snd := { cb.snd with una := cb.iss, nxt := u32 (cb.iss + 1) }
                  timeout := now.tv_sec + USER_TIMEOUT
                  state := TCP_CB_STATE_SYN_SENT }))

/-- The MTU read through `cb->iface->dev->mtu`.  With `iface == NULL` the C code
dereferences a null pointer; the model reads 0 there. -/
def iface_mtu (cb : tcp_cb) : Nat :=
  match cb.iface with
  | some n => n.mtu
  | none => 0

/-- The body of `tcp_api_send` from the label `TCP_API_SEND_NEXT`, with `buf` the bytes
not yet sent (`buf + snt`, `len` of them) and `snt` the count already sent.  `fuel` bounds
the number of jumps back to the label; `none` means the bound was reached. -/
def tcp_api_send_next (env : Env) (fuel : Nat) (w : World) (i : Slot) (buf : List Nat)
    (snt : Nat) : Option (api_result × World) :=
  let cb := w.cb_table i
  match cb.state with
  | 9 | 4 =>
    match env.gettimeofday w.tick with
    | none =>
      some (api_result.ret (if snt = 0 then -1 else Int.ofNat snt), { w with tick := w.tick + 1 })
    | some now =>
      let w0 : World := { w with tick := w.tick + 1 }
      let len := buf.length
      if len > 0 then
        -- mtu may changes, so calc size each time
        let size0 := sub64 (sub64 (iface_mtu cb) IP_HDR_SIZE_MAX) TCP_HDR_SIZE
        -- check data size
        let size1 := if len < size0 then len else size0
        -- check send buffer size
        let wnd := u16 (sub32 TCP_SND_BUF_SIZE (sub32 cb.snd.nxt cb.snd.una))
        let size := if wnd < size1 then wnd else size1
        if wnd < size1 ∧ size = 0 then some (api_result.blocked, w0)
        else
          let r := tcp_tx env w0 i cb.snd.nxt cb.rcv.nxt (TCP_FLG_PSH ||| TCP_FLG_ACK) now
            (buf.take size)
          if r.1 = -1 then some (api_result.ret (Int.ofNat snt), r.2)
          else
            let w1 := r.2.modify i (fun cb =>
              { cb with
                timeout := now.tv_sec + USER_TIMEOUT
                snd := { cb.snd with nxt := u32 (cb.snd.nxt + size) } })
            if len - size > 0 then
              match fuel with
              | 0 => none
              | f + 1 => tcp_api_send_next env f w1 i (buf.drop size) (snt + size)
            else some (api_result.ret (Int.ofNat (snt + size)), w1)
      else some (api_result.ret (Int.ofNat snt), w0)
  | _ => some (api_result.ret (-1), w)

/-- The function `tcp_api_send(soc, buf, len)` with `len = buf.length`.  Every jump back
to `TCP_API_SEND_NEXT` that sent at least one byte shortens the rest, so `buf.length`
jumps are enough unless the chunk size is 0, in which case the C loop does not end. -/
def tcp_api_send (env : Env) (w : World) (soc : Int) (buf : List Nat) :
    Option (api_result × World) :=
  match socket_slot soc with
  | none => some (api_result.ret (-1), w)
  | some i =>
    if !(w.cb_table i).used then some (api_result.ret (-1), w)
    else tcp_api_send_next env buf.length w i buf 0

/-! ## Timer -/

/-- The (re)transmission of a queued entry by the timer: the ack field and the checksum
are rewritten, the segment goes to `ip_tx` and the entry is stamped. -/
def timer_resend (cb : tcp_cb) (timestamp : timeval) (e : tcp_txq_entry) :
    tcp_txq_entry × ip_call :=
  let hdr0 := { e.segment with ack := hton32 cb.rcv.nxt, sum := 0 }
  let hdr1 := { hdr0 with
    sum := tcp_checksum (iface_unicast cb) cb.peer.addr (hdr0.bytes ++ e.data) e.len }
  ({ e with segment := hdr1, timestamp := timestamp },
   { iface := cb.iface, segment := (hdr1.bytes ++ e.data).take e.len, peer := cb.peer.addr })

/-- The `while (txq)` loop of `tcp_timer_thread` over the rest of the queue, with the
running values of `sum` and `cb->txq.snt`; it yields the entries kept, the final `snt`
and the calls of `ip_tx` made. -/
def tcp_timer_txq (cb : tcp_cb) (timestamp : timeval) :
    List tcp_txq_entry → Nat → Nat → List tcp_txq_entry × Nat × List ip_call
  | [], _, snt => ([], snt, [])
  | e :: es, sum, snt =>
    if ntoh32 e.segment.seq ≥ cb.snd.una then
      let r : tcp_txq_entry × List ip_call :=
        if sum < cb.snd.wnd then
          if e.timestamp.tv_sec = 0 then
            ((timer_resend cb timestamp e).1, [(timer_resend cb timestamp e).2])
          else if timestamp.tv_sec - e.timestamp.tv_sec > 3 then
            ((timer_resend cb timestamp e).1, [(timer_resend cb timestamp e).2])
          else (e, [])
        else (e, [])
      let rest := tcp_timer_txq cb timestamp es (sub64 (sum + e.len) (TCP_HDR_LEN e.segment)) snt
      (r.1 :: rest.1, rest.2.1, r.2 ++ rest.2.2)
    else
      tcp_timer_txq cb timestamp es sum (sub16 (snt + TCP_HDR_LEN e.segment) e.len)

/-- One iteration of the `for` loop of `tcp_timer_thread`, on slot `i`. -/
def tcp_timer_cb (w : World) (timestamp : timeval) (i : Slot) : World :=
  let cb := w.cb_table i
  if cb.state = TCP_CB_STATE_CLOSED then w
  else if (cb.snd.una ≠ cb.snd.nxt ∨ cb.state = TCP_CB_STATE_TIME_WAIT)
      ∧ cb.timeout < timestamp.tv_sec then
    w.set i (tcp_close_cb cb)
  else
    let r := tcp_timer_txq cb timestamp cb.txq.entries 0 cb.txq.snt
    { (w.set i { cb with txq := { entries := r.1, snt := r.2.1 } }) with
      tick := w.tick + r.2.2.length
      ip_log := w.ip_log ++ r.2.2 }

/-- One pass of the `while (1)` loop of `tcp_timer_thread`.  `gettimeofday` is not checked
there: on failure the local `timestamp` keeps the value `prev` it had. -/
def tcp_timer_tick (env : Env) (w : World) (prev : timeval) : World :=
  let timestamp :=
    match env.gettimeofday w.tick with
    | some now => now
    | none => prev
  (List.finRange TCP_CB_TABLE_SIZE).foldl (fun w i => tcp_timer_cb w timestamp i)
    { w with tick := w.tick + 1 }

/-! ## Auxiliary notions for the properties -/

/-- Two control blocks that agree on every member but `txq`. -/
def same_but_txq (a b : tcp_cb) : Prop := b = { a with txq := b.txq }

/-- The ordering `snd.una <= snd.nxt` in modular 32-bit arithmetic. -/
def snd_una_le_nxt (cb : tcp_cb) : Prop := sub32 cb.snd.nxt cb.snd.una < 2 ^ 31

instance (cb : tcp_cb) : Decidable (snd_una_le_nxt cb) := by
  unfold snd_una_le_nxt; infer_instance

/-- The bytes of a segment with a twenty-byte header (`off = 0x50`) whose fields are given
in host order, followed by `data`. -/
def segment_bytes (src dst seq ack flg win sum : Nat) (data : List Nat) : List Nat :=
  tcp_hdr.bytes
    { src := hton16 src, dst := hton16 dst, seq := hton32 seq, ack := hton32 ack, off := 0x50,
      flg := flg, win := hton16 win, sum := sum, urg := 0 } ++ data

/-- An environment in which every collaborator succeeds: the clock reads 1000 s, `random`
yields 7000, the peer is reached through an interface with MTU 1500. -/
def env_ok : Env :=
  { gettimeofday := fun _ => some { tv_sec := 1000, tv_usec := 0 }
    time := fun _ => 0
    random := fun _ => 7000
    malloc := fun _ => true
    ip_tx := fun _ => true
    ip_netif_by_peer := fun _ => some { id := 1, unicast := 167772161, mtu := 1500 } }

/-- The environment `env_ok` except that every `ip_tx` fails. -/
def env_ip_down : Env := { env_ok with ip_tx := fun _ => false }

/-- A table whose slot 0 is an application-owned ESTABLISHED connection with nothing in
flight (`snd.una = snd.nxt = 100`), `rcv.nxt = 500` and an empty receive buffer. -/
def world_established : World :=
  World.zero.set 0
    { tcp_cb.zero with
      used := true, state := TCP_CB_STATE_ESTABLISHED
      iface := some { id := 1, unicast := 167772161, mtu := 1500 }
      port := hton16 7, peer := { addr := 167772162, port := hton16 40000 }
      snd := { nxt := 100, una := 100, up := 0, wl1 := 0, wl2 := 0, wnd := 65535 }
      iss := 99, rcv := { nxt := 500, up := 0, wnd := 65535 }, irs := 499 }

/-- What a control block contributes to the work `tcp_close` can still do: one unit per
queued child and one for a set `used` flag. -/
def cb_weight (cb : tcp_cb) : Nat := cb.backlog.length + (if cb.used then 1 else 0)

/-- A bound on the nesting of `tcp_close`: every nested call that gets past the `used`
check clears one flag and every turn of the backlog loop pops one child. -/
def close_measure (w : World) : Nat := ∑ j : Slot, cb_weight (w.cb_table j)

/-- The table after the statement `cb->used = 0;` of `tcp_close` and the reading of the
clock that follows it. -/
def close_entered (w : World) (i : Slot) : World :=
  { (w.set i { w.cb_table i with used := false }) with tick := w.tick + 1 }

/-- The loop over the children as `tcp_close` with fuel `fuel` runs it for slot `i`. -/
def close_children (env : Env) (fuel : Nat) (i : Slot) (w : World) : Option World :=
  match fuel with
  | 0 => none
  | f + 1 => tcp_close_backlog env f w i

/-- The table `world_established` with slot 0 moved to `state`. -/
def world_in_state (state : Nat) : World :=
  world_established.modify 0 (fun cb => { cb with state := state })

/-- The table after `tcp_api_open()` and `tcp_api_connect(0, 10.0.0.2, 80)` on the zeroed
table, every collaborator succeeding: slot 0 is in SYN_SENT with `iss = 7000`. -/
def world_syn_sent : World :=
  (tcp_api_connect env_ok (tcp_api_open World.zero).2 0 167772162 80).2

/-- A segment from port 80 to port 49152 with `seq = 5000`, the SYN bit alone (no ACK bit),
and 7002 in the ack field. -/
def segment_syn_noack : List Nat := segment_bytes 80 49152 5000 7002 TCP_FLG_SYN 65535 0 []

/-- The segment of `segment_bytes` with its checksum field filled in the way `tcp_rx`
verifies it for a datagram from address `src` to address `dst`. -/
def segment_checksummed (src dst : Nat) (sport dport seq ack flg win : Nat) (data : List Nat) :
    List Nat :=
  segment_bytes sport dport seq ack flg win
    (tcp_checksum src dst (segment_bytes sport dport seq ack flg win 0 data)
      (TCP_HDR_SIZE + data.length)) data

/-- The interface 10.0.0.1 of the examples. -/
def netif0 : netif := { id := 1, unicast := 167772161, mtu := 1500 }

/-- The table after `open(); bind(0, 7); listen(0)` on the zeroed table: slot 0 listens on
port 7. -/
def world_listening : World :=
  (tcp_api_listen (tcp_api_bind (tcp_api_open World.zero).2 0 7).2 0).2

/-- A lone RST from 10.0.0.2:40000 to port 7, with a valid checksum. -/
def segment_rst : List Nat :=
  segment_checksummed 167772162 167772161 40000 7 3000 0 TCP_FLG_RST 0 []

/-- A SYN from 10.0.0.2:40000 to port 7 with `seq = 3000`, with a valid checksum. -/
def segment_syn : List Nat :=
  segment_checksummed 167772162 167772161 40000 7 3000 0 TCP_FLG_SYN 65535 []

/-- The ACK completing the handshake started by `segment_syn` (`seq = 3001`,
`ack = 7001`), with a valid checksum. -/
def segment_handshake_ack : List Nat :=
  segment_checksummed 167772162 167772161 40000 7 3001 7001 TCP_FLG_ACK 65535 []

/-- The table after a peer has completed a handshake with the listener of
`world_listening`: the child in slot 1 is ESTABLISHED and waits in the backlog of slot 0. -/
def world_child_pending : World :=
  tcp_rx env_ok (tcp_rx env_ok world_listening segment_syn 167772162 167772161 netif0)
    segment_handshake_ack 167772162 167772161 netif0

/-- The table after a stray RST has reached the listener of `world_listening`, the
application has opened another socket (it gets slot 1) and called `listen` on it. -/
def world_two_listeners : World :=
  (tcp_api_listen
    (tcp_api_open (tcp_rx env_ok world_listening segment_rst 167772162 167772161 netif0)).2 1).2

/-- The table after `open()`, then `connect(0, 10.0.0.2, 80)` failing because `ip_tx` fails
on the SYN. -/
def world_connect_failed : World :=
  (tcp_api_connect env_ip_down (tcp_api_open World.zero).2 0 167772162 80).2

/-- A bare ACK from the peer of `world_established`: `seq = 500 = rcv.nxt`, `ack = 101`, no
payload. -/
def segment_ack_of_fin : List Nat := segment_bytes 40000 7 500 101 TCP_FLG_ACK 65535 0 []

/-- The FIN of the peer of `world_established`: `seq = 500 = rcv.nxt`, `ack = 101`, FIN|ACK,
no payload. -/
def segment_fin : List Nat :=
  segment_bytes 40000 7 500 101 (TCP_FLG_FIN ||| TCP_FLG_ACK) 65535 0 []

/-- The table after `tcp_close` on the connection of `world_established`
(`none` if `tcp_close` did not end). -/
def world_closed_first : Option World :=
  (tcp_close env_ok 0 world_established 0).map (fun r => r.2)

/-- Three data segments for the connection of `world_established`, each starting at the
`rcv.nxt` of its arrival: 65495 bytes `0xAA` at `seq = 500`, 41 bytes `0xBB` at
`seq = 65995` and one byte `0xCC` at `seq = 66036`. -/
def segment_data1 : List Nat :=
  segment_bytes 40000 7 500 100 TCP_FLG_ACK 65535 0 (List.replicate 65495 170)

/-- The second data segment: 41 bytes `0xBB` at `seq = 65995`. -/
def segment_data2 : List Nat :=
  segment_bytes 40000 7 65995 100 TCP_FLG_ACK 65535 0 (List.replicate 41 187)

/-- The third data segment: the byte `0xCC` at `seq = 66036`. -/
def segment_data3 : List Nat := segment_bytes 40000 7 66036 100 TCP_FLG_ACK 65535 0 [204]

/-- The table after `segment_data1` has arrived on the connection of `world_established`. -/
def world_data1 : World := tcp_event_segment_arrives env_ok world_established 0 segment_data1

/-- The table after `segment_data2` has arrived next. -/
def world_data2 : World := tcp_event_segment_arrives env_ok world_data1 0 segment_data2

/-- The table after `segment_data3` has arrived next. -/
def world_data3 : World := tcp_event_segment_arrives env_ok world_data2 0 segment_data3

/-- The connection of `world_established` with three bytes 1, 2, 3 buffered
(`rcv.wnd = 65532`), the window holding byte `j + 1` at offset `j`. -/
def world_buffered : World :=
  world_established.modify 0 (fun cb =>
    { cb with window := fun j => j + 1, rcv := { cb.rcv with wnd := 65532 } })

/-- The sequence numbers of the queue entries `es` run consecutively from `start`: each
entry starts where the payload of the one before it ended (modulo `2^32`). -/
def txq_consecutive (start : Nat) : List tcp_txq_entry → Prop
  | [] => True
  | e :: es => ntoh32 e.segment.seq = start ∧ txq_consecutive (u32 (start + e.data.length)) es

/-- The table after one turn of the sending loop of `tcp_api_send` that sends the first
`size` bytes of `buf` from slot `i` at time `now`. -/
def send_chunk (env : Env) (w : World) (i : Slot) (now : timeval) (buf : List Nat)
    (size : Nat) : World :=
  (tcp_tx env { w with tick := w.tick + 1 } i (w.cb_table i).snd.nxt (w.cb_table i).rcv.nxt
      (TCP_FLG_PSH ||| TCP_FLG_ACK) now (buf.take size)).2.modify i (fun cb =>
    { cb with
      timeout := now.tv_sec + USER_TIMEOUT
      snd := { cb.snd with nxt := u32 (cb.snd.nxt + size) } })

/-- The table after `tcp_api_accept(0)` on `world_child_pending`: the child in slot 1 has
been handed to the application as socket 1. -/
def world_accepted : World := (tcp_api_accept world_child_pending 0).2

/-- A RST from the peer 10.0.0.2:40000 of the accepted connection, `seq = 3001`, with a
valid checksum. -/
def segment_rst_child : List Nat :=
  segment_checksummed 167772162 167772161 40000 7 3001 0 TCP_FLG_RST 0 []

/-- The table after the peer has reset the accepted connection: slot 1 is CLOSED and still
owned by the application. -/
def world_child_reset : World :=
  tcp_rx env_ok world_accepted segment_rst_child 167772162 167772161 netif0

/-- The table after the application has closed socket 1, opened a socket again (it gets
slot 1) and started `tcp_api_connect(1, 10.0.0.3, 80)`: slot 1 is in SYN_SENT
(`none` if `tcp_close` did not end). -/
def world_reconnecting : Option World :=
  (tcp_api_close env_ok 0 world_child_reset 1).map (fun r =>
    (tcp_api_connect env_ok (tcp_api_open r.2).2 1 167772163 80).2)

/-- The SYN of a simultaneous open by 10.0.0.3:80 towards port 7: `seq = 9000`, no ACK bit,
with a valid checksum. -/
def segment_syn_peer3 : List Nat :=
  segment_checksummed 167772163 167772161 80 7 9000 0 TCP_FLG_SYN 65535 []

/-- The ACK of 10.0.0.3:80 for the SYN of slot 1 (`seq = 9001`, `ack = 7001`), with a valid
checksum. -/
def segment_ack_peer3 : List Nat :=
  segment_checksummed 167772163 167772161 80 7 9001 7001 TCP_FLG_ACK 65535 []

/-- The table after `segment_syn_peer3` and `segment_ack_peer3` have arrived for the
connecting socket of `world_reconnecting`. -/
def world_requeued : Option World :=
  world_reconnecting.map (fun w =>
    tcp_rx env_ok (tcp_rx env_ok w segment_syn_peer3 167772163 167772161 netif0)
      segment_ack_peer3 167772163 167772161 netif0)
/-- A SYN from 10.0.0.2:40000 to port 7 whose sequence number 4294967285 is eleven below
`2^32`, with a valid checksum. -/
def segment_syn_high : List Nat :=
  segment_checksummed 167772162 167772161 40000 7 4294967285 0 TCP_FLG_SYN 65535 []

/-- The table after `segment_syn_high` has reached the listener of `world_listening`: the
child in slot 1 is in SYN_RCVD with `rcv.nxt = 4294967286` and `rcv.wnd = 65535`. -/
def world_syn_rcvd_high : World :=
  tcp_rx env_ok world_listening segment_syn_high 167772162 167772161 netif0

/-- The segment that follows `segment_syn_high` in the peer's numbering: `seq = 4294967286`,
`ack = 7001`, the ACK bit and ten bytes of text, with a valid checksum. -/
def segment_text_high : List Nat :=
  segment_checksummed 167772162 167772161 40000 7 4294967286 7001 TCP_FLG_ACK 65535
    (List.replicate 10 170)

/-- The acceptability test of RFC 793 in the four cases the specification lists, on
sequence numbers that do not wrap: with no text and no window `seq = nxt`; with no text and
a window `nxt <= seq < nxt + wnd`; with text and no window never; with text and a window
`nxt <= seq < nxt + wnd` or `nxt <= seq + plen - 1 < nxt + wnd`. -/
def rfc793_acceptable (nxt wnd seq plen : Nat) : Bool :=
  if plen = 0 then
    if wnd = 0 then decide (seq = nxt)
    else decide (nxt ≤ seq ∧ seq < nxt + wnd)
  else
    if wnd = 0 then false
    else decide ((nxt ≤ seq ∧ seq < nxt + wnd)
      ∨ (nxt ≤ seq + plen - 1 ∧ seq + plen - 1 < nxt + wnd))

/-- A segment for the connection of `world_established` (`rcv.nxt = 500`) that starts ten
bytes before `rcv.nxt` and carries twenty bytes: `seq = 490`, bytes 490 to 509. -/
def segment_overlap : List Nat :=
  segment_bytes 40000 7 490 100 TCP_FLG_ACK 65535 0 (List.replicate 20 170)
/-- A FIN for the connection of `world_established` that carries text: `seq = 500 = rcv.nxt`,
`ack = 100`, FIN|ACK and the three bytes 1, 2, 3. -/
def segment_fin_text : List Nat :=
  segment_bytes 40000 7 500 100 (TCP_FLG_FIN ||| TCP_FLG_ACK) 65535 0 [1, 2, 3]

/-- A FIN for the connection of `world_established` that lies five bytes ahead of
`rcv.nxt`, inside the window: `seq = 505`, FIN|ACK, no text. -/
def segment_fin_ahead : List Nat :=
  segment_bytes 40000 7 505 100 (TCP_FLG_FIN ||| TCP_FLG_ACK) 65535 0 []

/-- A segment for the block of `world_syn_sent` with the SYN bit alone (no ACK bit),
`seq = 5000` and 7001, the block's `snd.nxt`, in the ack field. -/
def segment_syn_only : List Nat := segment_bytes 80 49152 5000 7001 TCP_FLG_SYN 65535 0 []

/-- Three bytes of in-order text for the connection of `world_established`. -/
def segment_text3 : List Nat := segment_bytes 40000 7 500 100 TCP_FLG_ACK 65535 0 [1, 2, 3]
/-- The environment `env_ok` four seconds later: the clock reads 1004 s. -/
def env_later : Env :=
  { env_ok with gettimeofday := fun _ => some { tv_sec := 1004, tv_usec := 0 } }

/-- The FIN of the peer of the accepted connection in slot 1 of `world_accepted`:
`seq = 3001 = rcv.nxt`, `ack = 7001`, FIN|ACK, no text. -/
def segment_fin_child : List Nat :=
  segment_bytes 40000 7 3001 7001 (TCP_FLG_FIN ||| TCP_FLG_ACK) 65535 0 []

/-- The table after the peer's FIN has reached the accepted connection (it is in
CLOSE_WAIT) and the application has closed socket 1: slot 1 is in CLOSING with
`snd.una = 7001`, `snd.nxt = 7002` (`none` if `tcp_close` did not end). -/
def world_closing : Option World :=
  (tcp_close env_ok 0 (tcp_event_segment_arrives env_ok world_accepted 1 segment_fin_child) 1).map
    (fun r => r.2)

/-- A bare ACK of the same peer that does not cover the FIN of slot 1: `seq = 3002`,
`ack = 7001`, so that `ack + 1` is the `snd.nxt` of `world_closing`. -/
def segment_ack_before_fin : List Nat :=
  segment_bytes 40000 7 3002 7001 TCP_FLG_ACK 65535 0 []

/-- The payload length of a queue entry, `TCP_DATA_LEN(txq->segment, txq->len)`. -/
def txq_payload (e : tcp_txq_entry) : Nat := TCP_DATA_LEN e.segment e.len

/-- The sum of the payload lengths of the queue entries of a block that have been handed to
IP, those whose `timestamp.tv_sec` is not 0. -/
def txq_sent_bytes (cb : tcp_cb) : Nat :=
  ((cb.txq.entries.filter (fun e => e.timestamp.tv_sec != 0)).map txq_payload).sum

/-- The relation between `txq.snt` and the queue: `snt` is the number of payload bytes of
the entries handed to IP. -/
def txq_snt_invariant (cb : tcp_cb) : Prop := cb.txq.snt = txq_sent_bytes cb

instance (cb : tcp_cb) : Decidable (txq_snt_invariant cb) := by
  unfold txq_snt_invariant; infer_instance

/-- A bare ACK of the peer of `world_established` that closes its window: `seq = 500`,
`ack = 100`, `win = 0`. -/
def segment_win_zero : List Nat := segment_bytes 40000 7 500 100 TCP_FLG_ACK 0 0 []

/-- A bare ACK of the same peer that opens the window again: `seq = 500`, `ack = 100`,
`win = 65535`. -/
def segment_win_open : List Nat := segment_bytes 40000 7 500 100 TCP_FLG_ACK 65535 0 []

/-- A bare ACK of the same peer for three bytes sent: `seq = 500`, `ack = 103`. -/
def segment_ack_103 : List Nat := segment_bytes 40000 7 500 103 TCP_FLG_ACK 65535 0 []

/-- A RST of the same peer at `seq = 500 = rcv.nxt`. -/
def segment_rst_est : List Nat := segment_bytes 40000 7 500 0 TCP_FLG_RST 0 0 []

/-- The table after the peer of `world_established` has closed its window and the
application has called `tcp_api_send(0, buf, 3)`: the segment waits in the queue
(`none` if the sending loop did not end). -/
def world_deferred : Option World :=
  (tcp_api_send env_ok (tcp_event_segment_arrives env_ok world_established 0 segment_win_zero)
    0 [1, 2, 3]).map (fun r => r.2)

/-- The table after the peer has opened its window again and the timer has run once. -/
def world_deferred_sent : Option World :=
  world_deferred.map (fun w =>
    tcp_timer_tick env_ok (tcp_event_segment_arrives env_ok w 0 segment_win_open)
      { tv_sec := 0, tv_usec := 0 })

/-- The table after the peer has acknowledged the three bytes and the timer has run once
more. -/
def world_deferred_acked : Option World :=
  world_deferred_sent.map (fun w =>
    tcp_timer_tick env_ok (tcp_event_segment_arrives env_ok w 0 segment_ack_103)
      { tv_sec := 0, tv_usec := 0 })

/-- The table after `tcp_api_send(0, buf, 3)` on the connection of `world_established`,
whose peer window is open (`none` if the sending loop did not end). -/
def world_sent3 : Option World :=
  (tcp_api_send env_ok world_established 0 [1, 2, 3]).map (fun r => r.2)

/-- The table of `world_deferred` after the peer has opened its window again; the three
bytes still wait in the queue (the zeroed table if the sending loop did not end). -/
def world_window_reopened : World :=
  (world_deferred.map (fun w => tcp_event_segment_arrives env_ok w 0 segment_win_open)).getD
    World.zero

/-- The queue entry `tcp_tx` made for the three bytes it deferred in `world_deferred`. -/
def entry_unsent : tcp_txq_entry :=
  { segment :=
      { src := hton16 7, dst := hton16 40000, seq := hton32 100, ack := hton32 500, off := 0x50,
        flg := TCP_FLG_PSH ||| TCP_FLG_ACK, win := hton16 65535, sum := 0, urg := 0 }
    data := [1, 2, 3], len := 23, timestamp := { tv_sec := 0, tv_usec := 0 } }

/-- The user-timeout test of `tcp_timer_thread` on a block, at the time `timestamp`. -/
def timer_expired (cb : tcp_cb) (timestamp : timeval) : Prop :=
  (cb.snd.una ≠ cb.snd.nxt ∨ cb.state = TCP_CB_STATE_TIME_WAIT) ∧ cb.timeout < timestamp.tv_sec

instance (cb : tcp_cb) (timestamp : timeval) : Decidable (timer_expired cb timestamp) := by
  unfold timer_expired; infer_instance

/-- What one iteration of the `for` loop of `tcp_timer_thread` makes of the block it
visits. -/
def timer_block (cb : tcp_cb) (timestamp : timeval) : tcp_cb :=
  if cb.state = TCP_CB_STATE_CLOSED then cb
  else if timer_expired cb timestamp then tcp_close_cb cb
  else
    { cb with txq :=
        { entries := (tcp_timer_txq cb timestamp cb.txq.entries 0 cb.txq.snt).1
          snt := (tcp_timer_txq cb timestamp cb.txq.entries 0 cb.txq.snt).2.1 } }

/-- The calls of `ip_tx` one iteration of the `for` loop of `tcp_timer_thread` makes for
the block it visits. -/
def timer_calls (cb : tcp_cb) (timestamp : timeval) : List ip_call :=
  if cb.state = TCP_CB_STATE_CLOSED then []
  else if timer_expired cb timestamp then []
  else (tcp_timer_txq cb timestamp cb.txq.entries 0 cb.txq.snt).2.2

/-! ## The queue scan of the timer on linked entries -/

/-- A `struct tcp_txq_entry` in memory: the contents of the entry and its `next` pointer,
an address or `none` for `NULL`. -/
structure txq_node where
  entry : tcp_txq_entry
  next : Option Nat

/-- The memory the queue scan of `tcp_timer_thread` works on: the allocated queue entries by
address (`none`: nothing allocated there) and the members `head`, `tail` and `snt` of
`cb->txq`. -/
structure txq_mem where
  node : Nat → Option txq_node
  head : Option Nat
  tail : Option Nat
  snt : Nat

/-- What the timer does with an entry it keeps, `sum` being the running count of payload
bytes: inside the send window an unsent entry and an entry older than three seconds are
rewritten and handed to `ip_tx`. -/
def timer_entry (cb : tcp_cb) (timestamp : timeval) (sum : Nat) (e : tcp_txq_entry) :
    tcp_txq_entry × List ip_call :=
  if sum < cb.snd.wnd then
    if e.timestamp.tv_sec = 0 then
      ((timer_resend cb timestamp e).1, [(timer_resend cb timestamp e).2])
    else if timestamp.tv_sec - e.timestamp.tv_sec > 3 then
      ((timer_resend cb timestamp e).1, [(timer_resend cb timestamp e).2])
    else (e, [])
  else (e, [])

/-- The loop `while (txq)` of `tcp_timer_thread` on the linked entries, with the locals
`prev`, `txq` and `sum`; it yields the memory afterwards and the calls of `ip_tx`.  `fuel`
bounds the number of turns; `none` means the bound was reached or a pointer led to no
allocated entry. -/
def timer_scan (cb : tcp_cb) (timestamp : timeval) :
    Nat → txq_mem → Option Nat → Option Nat → Nat → Option (txq_mem × List ip_call)
  | _, m, _, none, _ => some (m, [])
  | 0, _, _, some _, _ => none
  | fuel + 1, m, prev, some a, sum =>
    match m.node a with
    | none => none
    | some nd =>
      if ntoh32 nd.entry.segment.seq ≥ cb.snd.una then
        let r := timer_entry cb timestamp sum nd.entry
        let m1 : txq_mem :=
          { m with node := fun x => if x = a then some { nd with entry := r.1 } else m.node x }
        -- update previous tcp_txq_entry
        match timer_scan cb timestamp fuel m1 (some a) nd.next
            (sub64 (sum + nd.entry.len) (TCP_HDR_LEN nd.entry.segment)) with
        | none => none
        | some res => some (res.1, r.2 ++ res.2)
      else
        -- remove tcp_txq_entry from list
        let m1 : txq_mem :=
          { m with snt := sub16 (m.snt + TCP_HDR_LEN nd.entry.segment) nd.entry.len }
        -- swap tail tcp_txq_entry
        let m2 : txq_mem := if nd.next.isNone then { m1 with tail := prev } else m1
        -- swap previous tcp_txq_entry
        let m3 : txq_mem :=
          match prev with
          | some p =>
            { m2 with node := fun x =>
                if x = p then (m2.node p).map (fun pn => { pn with next := nd.next })
                else m2.node x }
          | none => { m2 with head := nd.next }
        -- free tcp_txq_entry
        let m4 : txq_mem := { m3 with node := fun x => if x = a then none else m3.node x }
        timer_scan cb timestamp fuel m4 prev nd.next sum

/-- The entries `l`, by address and contents, are linked in memory from the pointer `p` up
to the pointer `q`: `p` is the address of the first, each `next` is the address of the
following one, and the `next` of the last is `q` (`p = q` for no entry). -/
def txq_seg (node : Nat → Option txq_node) :
    Option Nat → Option Nat → List (Nat × tcp_txq_entry) → Prop
  | p, q, [] => p = q
  | p, q, x :: rest =>
    p = some x.1 ∧ ∃ nx, node x.1 = some { entry := x.2, next := nx } ∧ txq_seg node nx q rest

/-- The test of the scan on an entry: it is kept when its sequence number is not below
`snd.una`. -/
def txq_kept (cb : tcp_cb) (e : tcp_txq_entry) : Bool := decide (ntoh32 e.segment.seq ≥ cb.snd.una)

/-- The table after two calls `tcp_api_send(0, buf, 3)` on the connection of
`world_established` (sequence numbers 100 and 103, both segments handed to IP at second
1000) and the arrival at `tcp_rx` of the ACK of the peer for the first three bytes
(`seq = 500`, `ack = 103`, valid checksum); the zeroed table if a sending loop did not
end. -/
def world_acked_103 : World :=
  ((world_sent3.bind (fun w => tcp_api_send env_ok w 0 [4, 5, 6])).map
    (fun r => tcp_rx env_ok r.2
      (segment_checksummed 167772162 167772161 40000 7 500 103 TCP_FLG_ACK 65535 [])
      167772162 167772161 netif0)).getD World.zero

/-- A block whose peer has acknowledged everything below 103: slot 0 of `world_acked_103`,
with two entries in its queue, an interface and a retransmission timeout of second 1020. -/
def cb_acked_103 : tcp_cb := world_acked_103.cb_table 0

/-- The allocated entries of a queue whose entries `L`, by address and contents, are linked
in their order, the `next` of the last being `NULL`. -/
def txq_nodes : List (Nat × tcp_txq_entry) → Nat → Option txq_node
  | [], _ => none
  | x :: rest, a =>
    if a = x.1 then some { entry := x.2, next := rest.head?.map Prod.fst }
    else txq_nodes rest a

/-- The queue entries of `cb_acked_103` at the addresses 10 and 20: three bytes at sequence
number 100, then three bytes at 103, both sent at second 1000. -/
def txq_two_entries : List (Nat × tcp_txq_entry) := [10, 20].zip cb_acked_103.txq.entries

/-- The queue of `cb_acked_103` in memory. -/
def txq_mem_two : txq_mem :=
  { node := txq_nodes txq_two_entries
    head := some 10
    tail := some 20
    snt := cb_acked_103.txq.snt }

/-! ## Entry points and backlogs -/

/-- The backlogs of all control blocks. -/
def backlogs (w : World) : Slot → List Slot := fun j => (w.cb_table j).backlog

/-- The entry points of the module: the calls of the application interface (`fuel` bounds
the nesting of `tcp_close`), the delivery of a segment to `tcp_rx`, and one pass of the
loop of `tcp_timer_thread` (`prev` is the value its local `timestamp` had before). -/
inductive tcp_op where
  | api_open
  | api_close (soc : Int) (fuel : Nat)
  | api_bind (soc : Int) (port : Nat)
  | api_listen (soc : Int)
  | api_accept (soc : Int)
  | api_recv (soc : Int) (size : Nat)
  | api_send (soc : Int) (buf : List Nat)
  | api_connect (soc : Int) (addr port : Nat)
  | rx (segment : List Nat) (src dst : Nat) (iface : netif)
  | timer (prev : timeval)

/-- The table after an entry point has run, up to its return or up to the point where the
caller waits on a condition variable (`none` when a loop bound of the model was reached). -/
def tcp_run (env : Env) (w : World) : tcp_op → Option World
  | tcp_op.api_open => some (tcp_api_open w).2
  | tcp_op.api_close soc fuel => (tcp_api_close env fuel w soc).map Prod.snd
  | tcp_op.api_bind soc port => some (tcp_api_bind w soc port).2
  | tcp_op.api_listen soc => some (tcp_api_listen w soc).2
  | tcp_op.api_accept soc => some (tcp_api_accept w soc).2
  | tcp_op.api_recv soc size => some (tcp_api_recv w soc size).2.2
  | tcp_op.api_send soc buf => (tcp_api_send env w soc buf).map Prod.snd
  | tcp_op.api_connect soc addr port => some (tcp_api_connect env w soc addr port).2
  | tcp_op.rx segment src dst iface => some (tcp_rx env w segment src dst iface)
  | tcp_op.timer prev => some (tcp_timer_tick env w prev)

/-- The condition under which `tcp_event_segment_arrives` reaches `queue_push` for the
block `cb` and the header `hdr` of a segment with `plen` bytes of text: the block is in
SYN_RCVD, the segment passes the sequence check, has RST and SYN clear and ACK set, and
`snd.una <= seg.ack <= snd.nxt`. -/
def syn_rcvd_acked (cb : tcp_cb) (hdr : tcp_hdr) (plen : Nat) : Prop :=
  cb.state = TCP_CB_STATE_SYN_RCVD
    ∧ segment_acceptable cb hdr plen = true
    ∧ TCP_FLG_ISSET hdr.flg TCP_FLG_RST = false
    ∧ TCP_FLG_ISSET hdr.flg TCP_FLG_SYN = false
    ∧ TCP_FLG_ISSET hdr.flg TCP_FLG_ACK = true
    ∧ cb.snd.una ≤ ntoh32 hdr.ack ∧ ntoh32 hdr.ack ≤ cb.snd.nxt

instance (cb : tcp_cb) (hdr : tcp_hdr) (plen : Nat) : Decidable (syn_rcvd_acked cb hdr plen) := by
  unfold syn_rcvd_acked; infer_instance

/-- The table after the SYN of `segment_syn` has reached the listener of `world_listening`:
the child in slot 1 is in SYN_RCVD with `snd.una = 7000`, `snd.nxt = 7001`, and its
`parent` is slot 0. -/
def world_syn_received : World :=
  tcp_rx env_ok world_listening segment_syn 167772162 167772161 netif0

/-- An ACK for the child of `world_syn_received` that acknowledges 7002, one more than was
sent (`seq = 3001`). -/
def segment_ack_ahead : List Nat := segment_bytes 40000 7 3001 7002 TCP_FLG_ACK 65535 0 []

/-! ## States reachable by the entry points -/

/-- No block of the table is in LAST_ACK. -/
def no_last_ack (t : Slot → tcp_cb) : Prop := ∀ j, (t j).state ≠ TCP_CB_STATE_LAST_ACK

/-- The function `tcp_api_accept` from its loop `while (cb->state == LISTEN && queue_pop(...)
== -1)` on, as it goes on for the listener in slot `i` when the waiting caller is woken:
with another state than LISTEN the loop ends with `backlog == NULL` and -1 is returned. -/
def tcp_api_accept_wake (w : World) (i : Slot) : api_result × World :=
  let cb := w.cb_table i
  if cb.state = TCP_CB_STATE_LISTEN then
    match queue_pop cb.backlog with
    | none => (api_result.blocked, w)
    | some (c, rest) =>
      let w1 := w.set i { cb with backlog := rest }
      (api_result.ret (Int.ofNat c.val), w1.modify c (fun ccb => { ccb with used := true }))
  else (api_result.ret (-1), w)

/-- The function `tcp_api_recv` from the label `TCP_RECEIVE_RETRY` on, where a caller that
waited for data goes on for the block in slot `i`. -/
def tcp_api_recv_retry (w : World) (i : Slot) (size : Nat) : api_result × List Nat × World :=
  let cb := w.cb_table i
  match cb.state with
  | 9 | 4 | 5 | 6 =>
    let total := WINDOW_SIZE - cb.rcv.wnd
    if total = 0 then
      if cb.state = TCP_CB_STATE_CLOSE_WAIT then (api_result.ret (-1), [], w)
      else (api_result.blocked, [], w)
    else
      let len := if total > size then size else total
      let buf := (List.range len).map cb.window
      let cb1 :=
        { cb with
          window := window_shift cb.window len (total - len)
          rcv := { cb.rcv with wnd := u16 (cb.rcv.wnd + len) } }
      (api_result.ret (Int.ofNat len), buf, w.set i cb1)
  | _ => (api_result.ret (-1), [], w)

/-- The ways a call of the application interface that waits on a condition variable goes
on after it is woken: `tcp_api_accept` and `tcp_api_recv` test again, `tcp_api_send` jumps
back to `TCP_API_SEND_NEXT` with the bytes `buf` left and `snt` sent, and
`tcp_api_connect` tests the state and returns. -/
inductive tcp_wake where
  | accept (i : Slot)
  | recv (i : Slot) (size : Nat)
  | send (i : Slot) (buf : List Nat) (snt : Nat)
  | connect (i : Slot)

/-- The table after a woken call has run up to its return or its next wait. -/
def tcp_resume (env : Env) (w : World) : tcp_wake → Option World
  | tcp_wake.accept i => some (tcp_api_accept_wake w i).2
  | tcp_wake.recv i size => some (tcp_api_recv_retry w i size).2.2
  | tcp_wake.send i buf snt => (tcp_api_send_next env buf.length w i buf snt).map Prod.snd
  | tcp_wake.connect _ => some w

/-- What happens to the module: an entry point is called or a waiting call goes on. -/
inductive tcp_event where
  | call (op : tcp_op)
  | wake (k : tcp_wake)

/-- The table after one event. -/
def tcp_step (env : Env) (w : World) : tcp_event → Option World
  | tcp_event.call op => tcp_run env w op
  | tcp_event.wake k => tcp_resume env w k

/-- The table after a sequence of events (`none` when a loop bound of the model was reached
in one of them). -/
def tcp_steps (env : Env) : World → List tcp_event → Option World
  | w, [] => some w
  | w, e :: es =>
    match tcp_step env w e with
    | none => none
    | some w1 => tcp_steps env w1 es

/-- The FIN of the peer of the connection accepted from `world_listening` (`seq = 3001`,
`ack = 7001`, FIN|ACK), with a valid checksum. -/
def segment_fin_peer : List Nat :=
  segment_checksummed 167772162 167772161 40000 7 3001 7001 (TCP_FLG_FIN ||| TCP_FLG_ACK) 65535 []

/-- The ACK of that peer for the FIN of the local side (`seq = 3002`, `ack = 7002`), with a
valid checksum. -/
def segment_ack_of_local_fin : List Nat :=
  segment_checksummed 167772162 167772161 40000 7 3002 7002 TCP_FLG_ACK 65535 []

/-- A passive close from the zeroed table: `open`, `bind(0, 7)`, `listen(0)`, the handshake
of a peer, `accept(0)`, the FIN of the peer, `close(1)`, the ACK of the peer for the FIN
sent by `close`, and a pass of the timer. -/
def events_passive_close : List tcp_event :=
  [tcp_event.call tcp_op.api_open,
   tcp_event.call (tcp_op.api_bind 0 7),
   tcp_event.call (tcp_op.api_listen 0),
   tcp_event.call (tcp_op.rx segment_syn 167772162 167772161 netif0),
   tcp_event.call (tcp_op.rx segment_handshake_ack 167772162 167772161 netif0),
   tcp_event.call (tcp_op.api_accept 0),
   tcp_event.call (tcp_op.rx segment_fin_peer 167772162 167772161 netif0),
   tcp_event.call (tcp_op.api_close 1 0),
   tcp_event.call (tcp_op.rx segment_ack_of_local_fin 167772162 167772161 netif0),
   tcp_event.call (tcp_op.timer { tv_sec := 0, tv_usec := 0 })]

/-- The call `memcpy(cb->window + (sizeof(cb->window) - cb->rcv.wnd), ..., plen)` of the
text step stays inside the array `window`: it ends at or before the end of the array. -/
def text_in_window (cb : tcp_cb) (plen : Nat) : Prop :=
  WINDOW_SIZE - cb.rcv.wnd + plen ≤ WINDOW_SIZE

instance (cb : tcp_cb) (plen : Nat) : Decidable (text_in_window cb plen) := by
  unfold text_in_window; infer_instance

/-- A block for which `tcp_tx` or the queue scan of the timer can be reached has an
interface: `cb->iface` is not `NULL` when the state is neither CLOSED nor LISTEN or the
queue holds an entry. -/
def tcb_iface_present (cb : tcp_cb) : Prop :=
  (cb.state ≠ TCP_CB_STATE_CLOSED ∧ cb.state ≠ TCP_CB_STATE_LISTEN ∨ cb.txq.entries ≠ []) →
    cb.iface ≠ none

instance (cb : tcp_cb) : Decidable (tcb_iface_present cb) := by
  unfold tcb_iface_present; infer_instance

/-- The conditions on the table under which an entry point dereferences no null `cb->iface`
and stores no text past the end of `window`.  Every block satisfies `tcb_iface_present`; for
`tcp_rx`, a block that is not free and has the port and the peer of the segment has an
interface and, when it is in one of the states SYN_SENT to FIN_WAIT2 (those from which the
text step can copy), the text of the segment stays inside its `window`. -/
def tcp_op_defined (w : World) : tcp_op → Prop
  | tcp_op.rx segment src _ _ =>
    (∀ c : Slot, tcb_iface_present (w.cb_table c))
      ∧ ∀ c : Slot, IS_FREE_CB (w.cb_table c) = false →
          (w.cb_table c).port = (tcp_hdr.ofBytes segment).dst →
          (w.cb_table c).peer.addr = src →
          (w.cb_table c).peer.port = (tcp_hdr.ofBytes segment).src →
          (w.cb_table c).iface ≠ none
            ∧ (TCP_CB_STATE_SYN_SENT ≤ (w.cb_table c).state
                ∧ (w.cb_table c).state ≤ TCP_CB_STATE_FIN_WAIT2 →
              text_in_window (w.cb_table c)
                (TCP_DATA_LEN (tcp_hdr.ofBytes segment) segment.length))
  | _ => ∀ c : Slot, tcb_iface_present (w.cb_table c)

instance (w : World) (op : tcp_op) : Decidable (tcp_op_defined w op) := by
  cases op <;> unfold tcp_op_defined <;> infer_instance

/-- The conditions of `tcp_op_defined` for an event: a woken call runs on the table as it
is, so every block satisfies `tcb_iface_present`. -/
def tcp_event_defined (w : World) : tcp_event → Prop
  | tcp_event.call op => tcp_op_defined w op
  | tcp_event.wake _ => ∀ c : Slot, tcb_iface_present (w.cb_table c)

instance (w : World) (e : tcp_event) : Decidable (tcp_event_defined w e) := by
  cases e <;> unfold tcp_event_defined <;> infer_instance

/-- Every event of the sequence meets `tcp_event_defined` on the table it finds. -/
def tcp_steps_defined (env : Env) : World → List tcp_event → Prop
  | _, [] => True
  | w, e :: es => tcp_event_defined w e ∧ ∀ w1 ∈ tcp_step env w e, tcp_steps_defined env w1 es

instance tcp_steps_defined_decidable (env : Env) :
    ∀ (evs : List tcp_event) (w : World), Decidable (tcp_steps_defined env w evs)
  | [], _ => inferInstanceAs (Decidable True)
  | e :: es, w =>
    have : ∀ w1, Decidable (tcp_steps_defined env w1 es) :=
      fun w1 => tcp_steps_defined_decidable env es w1
    inferInstanceAs
      (Decidable (tcp_event_defined w e ∧ ∀ w1 ∈ tcp_step env w e, tcp_steps_defined env w1 es))

@[simp] theorem World.set_same (w : World) (i : Slot) (cb : tcp_cb) :
    (w.set i cb).cb_table i = cb := by
  simp [World.set]

theorem World.set_other (w : World) (i j : Slot) (cb : tcp_cb) (h : j ≠ i) :
    (w.set i cb).cb_table j = w.cb_table j := by
  simp [World.set, h]

@[simp] theorem World.set_tick (w : World) (i : Slot) (cb : tcp_cb) :
    (w.set i cb).tick = w.tick := rfl

@[simp] theorem World.set_tx_log (w : World) (i : Slot) (cb : tcp_cb) :
    (w.set i cb).tx_log = w.tx_log := rfl

@[simp] theorem World.set_ip_log (w : World) (i : Slot) (cb : tcp_cb) :
    (w.set i cb).ip_log = w.ip_log := rfl

theorem same_but_txq_refl (a : tcp_cb) : same_but_txq a a := rfl

theorem same_but_txq_trans {a b c : tcp_cb} (h1 : same_but_txq a b) (h2 : same_but_txq b c) :
    same_but_txq a c := by
  unfold same_but_txq at *
  rw [h2, h1]

theorem same_but_txq.used {a b : tcp_cb} (h : same_but_txq a b) : b.used = a.used := by
  rw [show b = _ from h]
theorem same_but_txq.state {a b : tcp_cb} (h : same_but_txq a b) : b.state = a.state := by
  rw [show b = _ from h]
theorem same_but_txq.snd {a b : tcp_cb} (h : same_but_txq a b) : b.snd = a.snd := by
  rw [show b = _ from h]
theorem same_but_txq.rcv {a b : tcp_cb} (h : same_but_txq a b) : b.rcv = a.rcv := by
  rw [show b = _ from h]
theorem same_but_txq.iss {a b : tcp_cb} (h : same_but_txq a b) : b.iss = a.iss := by
  rw [show b = _ from h]
theorem same_but_txq.irs {a b : tcp_cb} (h : same_but_txq a b) : b.irs = a.irs := by
  rw [show b = _ from h]
theorem same_but_txq.port {a b : tcp_cb} (h : same_but_txq a b) : b.port = a.port := by
  rw [show b = _ from h]
theorem same_but_txq.peer {a b : tcp_cb} (h : same_but_txq a b) : b.peer = a.peer := by
  rw [show b = _ from h]
theorem same_but_txq.iface {a b : tcp_cb} (h : same_but_txq a b) : b.iface = a.iface := by
  rw [show b = _ from h]
theorem same_but_txq.window {a b : tcp_cb} (h : same_but_txq a b) : b.window = a.window := by
  rw [show b = _ from h]
theorem same_but_txq.parent {a b : tcp_cb} (h : same_but_txq a b) : b.parent = a.parent := by
  rw [show b = _ from h]
theorem same_but_txq.backlog {a b : tcp_cb} (h : same_but_txq a b) : b.backlog = a.backlog := by
  rw [show b = _ from h]
theorem same_but_txq.timeout {a b : tcp_cb} (h : same_but_txq a b) : b.timeout = a.timeout := by
  rw [show b = _ from h]

theorem tcp_txq_add_cb {ok : Bool} {cb cb1 : tcp_cb} {hdr : tcp_hdr} {data : List Nat} {len : Nat}
    (h : tcp_txq_add ok cb hdr data len = some cb1) :
    cb1 = { cb with txq := { cb.txq with entries := cb.txq.entries ++
      [{ segment := hdr, data := data, len := u16 len,
         timestamp := { tv_sec := 0, tv_usec := 0 } }] } } := by
  unfold tcp_txq_add at h
  cases ok <;> simp at h
  exact h.symm

theorem set_same_but_txq (w : World) (i j : Slot) (cb1 : tcp_cb)
    (h : same_but_txq (w.cb_table i) cb1) :
    same_but_txq (w.cb_table j) ((w.set i cb1).cb_table j) := by
  by_cases hj : j = i
  · subst hj; simpa using h
  · rw [World.set_other _ _ _ _ hj]; exact same_but_txq_refl _

theorem tcp_tx_send_cb (env : Env) (w : World) (i : Slot) (hdr : tcp_hdr) (buf : List Nat)
    (now : timeval) (queued : Bool) (j : Slot) :
    same_but_txq (w.cb_table j) ((tcp_tx_send env w i hdr buf now queued).2.cb_table j) := by
  unfold tcp_tx_send same_but_txq
  by_cases h : j = i
  · subst h
    cases queued <;> cases env.ip_tx w.tick <;> simp [World.set]
  · cases queued <;> cases env.ip_tx w.tick <;> simp [World.set, h]

/-- In the table, `tcp_tx` touches nothing but the transmit queue. -/
theorem tcp_tx_cb (env : Env) (w : World) (i : Slot) (seq ack flg : Nat) (now : timeval)
    (buf : List Nat) (j : Slot) :
    same_but_txq (w.cb_table j) ((tcp_tx env w i seq ack flg now buf).2.cb_table j) := by
  unfold tcp_tx
  simp only []
  split
  · exact same_but_txq_refl _
  · split
    · split
      · exact same_but_txq_refl _
      · rename_i cb1 hadd
        have h1 := tcp_txq_add_cb hadd
        have h2 : same_but_txq (w.cb_table j)
            ((World.set { w with tick := w.tick + 1 + 1, tx_log := w.tx_log ++
              [{ cb := i, seq := seq, ack := ack, flg := flg, buf := buf }] } i cb1).cb_table j) := by
          apply set_same_but_txq
          rw [h1]; rfl
        split
        · exact h2
        · exact same_but_txq_trans h2 (tcp_tx_send_cb _ _ _ _ _ _ _ _)
    · exact tcp_tx_send_cb _ _ _ _ _ _ _ _

/-- Every call of `tcp_tx` is recorded, whatever becomes of the segment. -/
theorem tcp_tx_log (env : Env) (w : World) (i : Slot) (seq ack flg : Nat) (now : timeval)
    (buf : List Nat) :
    (tcp_tx env w i seq ack flg now buf).2.tx_log
      = w.tx_log ++ [{ cb := i, seq := seq, ack := ack, flg := flg, buf := buf }] := by
  unfold tcp_tx tcp_tx_send
  simp only []
  repeat' split
  all_goals rfl

@[simp] theorem tcp_tx_used (env : Env) (w : World) (i : Slot) (seq ack flg : Nat)
    (now : timeval) (buf : List Nat) (j : Slot) :
    ((tcp_tx env w i seq ack flg now buf).2.cb_table j).used = (w.cb_table j).used :=
  (tcp_tx_cb env w i seq ack flg now buf j).used

@[simp] theorem tcp_tx_state (env : Env) (w : World) (i : Slot) (seq ack flg : Nat)
    (now : timeval) (buf : List Nat) (j : Slot) :
    ((tcp_tx env w i seq ack flg now buf).2.cb_table j).state = (w.cb_table j).state :=
  (tcp_tx_cb env w i seq ack flg now buf j).state

@[simp] theorem tcp_tx_snd (env : Env) (w : World) (i : Slot) (seq ack flg : Nat)
    (now : timeval) (buf : List Nat) (j : Slot) :
    ((tcp_tx env w i seq ack flg now buf).2.cb_table j).snd = (w.cb_table j).snd :=
  (tcp_tx_cb env w i seq ack flg now buf j).snd

@[simp] theorem tcp_tx_rcv (env : Env) (w : World) (i : Slot) (seq ack flg : Nat)
    (now : timeval) (buf : List Nat) (j : Slot) :
    ((tcp_tx env w i seq ack flg now buf).2.cb_table j).rcv = (w.cb_table j).rcv :=
  (tcp_tx_cb env w i seq ack flg now buf j).rcv

@[simp] theorem tcp_tx_iss (env : Env) (w : World) (i : Slot) (seq ack flg : Nat)
    (now : timeval) (buf : List Nat) (j : Slot) :
    ((tcp_tx env w i seq ack flg now buf).2.cb_table j).iss = (w.cb_table j).iss :=
  (tcp_tx_cb env w i seq ack flg now buf j).iss

@[simp] theorem tcp_tx_irs (env : Env) (w : World) (i : Slot) (seq ack flg : Nat)
    (now : timeval) (buf : List Nat) (j : Slot) :
    ((tcp_tx env w i seq ack flg now buf).2.cb_table j).irs = (w.cb_table j).irs :=
  (tcp_tx_cb env w i seq ack flg now buf j).irs

@[simp] theorem tcp_tx_port (env : Env) (w : World) (i : Slot) (seq ack flg : Nat)
    (now : timeval) (buf : List Nat) (j : Slot) :
    ((tcp_tx env w i seq ack flg now buf).2.cb_table j).port = (w.cb_table j).port :=
  (tcp_tx_cb env w i seq ack flg now buf j).port

@[simp] theorem tcp_tx_peer (env : Env) (w : World) (i : Slot) (seq ack flg : Nat)
    (now : timeval) (buf : List Nat) (j : Slot) :
    ((tcp_tx env w i seq ack flg now buf).2.cb_table j).peer = (w.cb_table j).peer :=
  (tcp_tx_cb env w i seq ack flg now buf j).peer

@[simp] theorem tcp_tx_iface (env : Env) (w : World) (i : Slot) (seq ack flg : Nat)
    (now : timeval) (buf : List Nat) (j : Slot) :
    ((tcp_tx env w i seq ack flg now buf).2.cb_table j).iface = (w.cb_table j).iface :=
  (tcp_tx_cb env w i seq ack flg now buf j).iface

@[simp] theorem tcp_tx_window (env : Env) (w : World) (i : Slot) (seq ack flg : Nat)
    (now : timeval) (buf : List Nat) (j : Slot) :
    ((tcp_tx env w i seq ack flg now buf).2.cb_table j).window = (w.cb_table j).window :=
  (tcp_tx_cb env w i seq ack flg now buf j).window

@[simp] theorem tcp_tx_parent (env : Env) (w : World) (i : Slot) (seq ack flg : Nat)
    (now : timeval) (buf : List Nat) (j : Slot) :
    ((tcp_tx env w i seq ack flg now buf).2.cb_table j).parent = (w.cb_table j).parent :=
  (tcp_tx_cb env w i seq ack flg now buf j).parent

@[simp] theorem tcp_tx_backlog (env : Env) (w : World) (i : Slot) (seq ack flg : Nat)
    (now : timeval) (buf : List Nat) (j : Slot) :
    ((tcp_tx env w i seq ack flg now buf).2.cb_table j).backlog = (w.cb_table j).backlog :=
  (tcp_tx_cb env w i seq ack flg now buf j).backlog

@[simp] theorem tcp_tx_timeout (env : Env) (w : World) (i : Slot) (seq ack flg : Nat)
    (now : timeval) (buf : List Nat) (j : Slot) :
    ((tcp_tx env w i seq ack flg now buf).2.cb_table j).timeout = (w.cb_table j).timeout :=
  (tcp_tx_cb env w i seq ack flg now buf j).timeout

/-! ## C4: `tcp_close` in SYN_RCVD, ESTABLISHED and CLOSE_WAIT -/

/-- C4: for a used control block in SYN_RCVD, ESTABLISHED or CLOSE_WAIT (the clock being
readable), `tcp_close` returns 0, makes exactly one call of `tcp_tx`, with FIN|ACK,
`seq` the former `snd.nxt`, `ack = rcv.nxt` and no payload, adds 1 to `snd.nxt` modulo
`2^32`, and moves to FIN_WAIT1 from SYN_RCVD or ESTABLISHED and to CLOSING from
CLOSE_WAIT. -/
theorem tcp_close_sends_fin (env : Env) (fuel : Nat) (w : World) (i : Slot) (now : timeval)
    (hused : (w.cb_table i).used = true)
    (hstate : (w.cb_table i).state = TCP_CB_STATE_SYN_RCVD
      ∨ (w.cb_table i).state = TCP_CB_STATE_ESTABLISHED
      ∨ (w.cb_table i).state = TCP_CB_STATE_CLOSE_WAIT)
    (hnow : env.gettimeofday w.tick = some now) :
    ∃ w', tcp_close env fuel w i = some (0, w')
      ∧ w'.tx_log = w.tx_log ++
          [tx_call.mk i (w.cb_table i).snd.nxt (w.cb_table i).rcv.nxt (TCP_FLG_FIN ||| TCP_FLG_ACK) []]
      ∧ (w'.cb_table i).snd.nxt = ((w.cb_table i).snd.nxt + 1) % 2 ^ 32
      ∧ (w'.cb_table i).state
        = (if (w.cb_table i).state = TCP_CB_STATE_CLOSE_WAIT then TCP_CB_STATE_CLOSING
           else TCP_CB_STATE_FIN_WAIT1) := by
  rcases hstate with h | h | h
  all_goals
    unfold tcp_close tcp_close_switch
    simp [hused, hnow, h, World.modify, tcp_tx_log, u32]

/-- C4 at a concrete input: closing the ESTABLISHED connection of `world_established`. -/
theorem tcp_close_sends_fin_witness :
    ∃ w', tcp_close env_ok 0 world_established 0 = some (0, w')
      ∧ w'.tx_log = [tx_call.mk 0 100 500 (TCP_FLG_FIN ||| TCP_FLG_ACK) []]
      ∧ (w'.cb_table 0).snd.nxt = 101
      ∧ (w'.cb_table 0).state = TCP_CB_STATE_FIN_WAIT1 :=
  tcp_close_sends_fin env_ok 0 world_established 0 { tv_sec := 1000, tv_usec := 0 }
    (by decide) (by decide) rfl

theorem close_measure_set (w : World) (i : Slot) (cb : tcp_cb) :
    close_measure (w.set i cb) + cb_weight (w.cb_table i) = close_measure w + cb_weight cb := by
  unfold close_measure
  have h1 := Finset.add_sum_erase Finset.univ (fun j => cb_weight (w.cb_table j)) (Finset.mem_univ i)
  have h2 := Finset.add_sum_erase Finset.univ (fun j => cb_weight ((w.set i cb).cb_table j))
    (Finset.mem_univ i)
  have h3 : ∑ j ∈ Finset.univ.erase i, cb_weight ((w.set i cb).cb_table j)
      = ∑ j ∈ Finset.univ.erase i, cb_weight (w.cb_table j) := by
    apply Finset.sum_congr rfl
    intro j hj
    rw [World.set_other _ _ _ _ (Finset.ne_of_mem_erase hj)]
  simp only [World.set_same] at h2
  rw [h3] at h2
  simp only [] at h1 h2
  omega

theorem close_measure_congr (w w' : World)
    (h : ∀ j, cb_weight (w'.cb_table j) = cb_weight (w.cb_table j)) :
    close_measure w' = close_measure w := by
  unfold close_measure
  exact Finset.sum_congr rfl (fun j _ => h j)

theorem close_measure_modify (w : World) (i : Slot) (f : tcp_cb → tcp_cb)
    (hf : ∀ cb, cb_weight (f cb) = cb_weight cb) :
    close_measure (w.modify i f) = close_measure w := by
  have h := close_measure_set w i (f (w.cb_table i))
  rw [hf] at h
  unfold World.modify
  omega

theorem used_modify (w : World) (i j : Slot) (f : tcp_cb → tcp_cb)
    (hf : ∀ cb, (f cb).used = cb.used) :
    ((w.modify i f).cb_table j).used = (w.cb_table j).used := by
  unfold World.modify
  by_cases h : j = i
  · subst h; simp [hf]
  · rw [World.set_other _ _ _ _ h]

theorem close_measure_tcp_tx (env : Env) (w : World) (i : Slot) (seq ack flg : Nat)
    (now : timeval) (buf : List Nat) :
    close_measure (tcp_tx env w i seq ack flg now buf).2 = close_measure w := by
  apply close_measure_congr
  intro j
  simp [cb_weight]

theorem close_measure_tick (w : World) (n : Nat) :
    close_measure { w with tick := n } = close_measure w := rfl

theorem tcp_close_cb_used (cb : tcp_cb) : (tcp_close_cb cb).used = cb.used := rfl

theorem tcp_close_cb_weight (cb : tcp_cb) : cb_weight (tcp_close_cb cb) = cb_weight cb := rfl

/-- The `switch` of `tcp_close` ends as soon as its loop over the children does; it sets no
`used` flag and does not add to the work left. -/
theorem tcp_close_switch_ends (env : Env) (cc : World → Option World) (w : World) (i : Slot)
    (now : timeval)
    (hcc : (w.cb_table i).state = TCP_CB_STATE_LISTEN →
      ∃ w', cc w = some w' ∧ close_measure w' ≤ close_measure w
        ∧ ∀ j, (w.cb_table j).used = false → (w'.cb_table j).used = false) :
    ∃ r, tcp_close_switch env cc w i now = some r ∧ close_measure r.2 ≤ close_measure w
      ∧ (r.1 = 0 ∨ r.1 = -1)
      ∧ ∀ j, (w.cb_table j).used = false → (r.2.cb_table j).used = false := by
  unfold tcp_close_switch
  simp only []
  split
  · exact ⟨_, rfl, le_refl _, Or.inl rfl, fun _ h => h⟩
  · rename_i hst
    obtain ⟨w3, h3, hm3, hu3⟩ := hcc hst
    rw [h3]
    refine ⟨_, rfl, ?_, Or.inl rfl, ?_⟩
    · show close_measure (w3.modify i tcp_close_cb) ≤ _
      rw [close_measure_modify _ _ _ tcp_close_cb_weight]
      exact hm3
    · intro j hj
      show ((w3.modify i tcp_close_cb).cb_table j).used = false
      rw [used_modify _ _ _ _ tcp_close_cb_used]
      exact hu3 j hj
  · refine ⟨_, rfl, ?_, Or.inl rfl, ?_⟩
    · show close_measure (w.modify i tcp_close_cb) ≤ _
      rw [close_measure_modify _ _ _ tcp_close_cb_weight]
    · intro j hj
      show ((w.modify i tcp_close_cb).cb_table j).used = false
      rw [used_modify _ _ _ _ tcp_close_cb_used]
      exact hj
  · refine ⟨_, rfl, ?_, Or.inl rfl, ?_⟩
    · simp only []
      rw [close_measure_modify, close_measure_tcp_tx]
      intro cb; rfl
    · intro j hj
      simp only []
      rw [used_modify]
      · simpa using hj
      · intro cb; rfl
  · refine ⟨_, rfl, ?_, Or.inl rfl, ?_⟩
    · simp only []
      rw [close_measure_modify, close_measure_tcp_tx]
      intro cb; rfl
    · intro j hj
      simp only []
      rw [used_modify]
      · simpa using hj
      · intro cb; rfl
  · exact ⟨_, rfl, le_refl _, Or.inr rfl, fun _ h => h⟩
  · exact ⟨_, rfl, le_refl _, Or.inr rfl, fun _ h => h⟩
  · exact ⟨_, rfl, le_refl _, Or.inr rfl, fun _ h => h⟩
  · exact ⟨_, rfl, le_refl _, Or.inr rfl, fun _ h => h⟩
  · exact ⟨_, rfl, le_refl _, Or.inr rfl, fun _ h => h⟩
  · refine ⟨_, rfl, ?_, Or.inl rfl, ?_⟩
    · simp only []
      rw [close_measure_modify, close_measure_tcp_tx]
      intro cb; rfl
    · intro j hj
      simp only []
      rw [used_modify]
      · simpa using hj
      · intro cb; rfl
  · exact ⟨_, rfl, le_refl _, Or.inl rfl, fun _ h => h⟩

theorem close_measure_clear_used (w : World) (i : Slot) (hu : (w.cb_table i).used = true) :
    close_measure (w.set i { w.cb_table i with used := false }) + 1 = close_measure w := by
  have hm := close_measure_set w i { w.cb_table i with used := false }
  have hw : cb_weight (w.cb_table i)
      = cb_weight { w.cb_table i with used := false } + 1 := by
    simp [cb_weight, hu]
  omega

theorem close_measure_pop (w : World) (i c : Slot) (rest : List Slot)
    (h : (w.cb_table i).backlog = c :: rest) :
    close_measure (w.modify i (fun cb => { cb with backlog := rest })) + 1 = close_measure w := by
  have hm := close_measure_set w i
    ((fun cb : tcp_cb => { cb with backlog := rest }) (w.cb_table i))
  have hw : cb_weight (w.cb_table i)
      = cb_weight ((fun cb : tcp_cb => { cb with backlog := rest }) (w.cb_table i)) + 1 := by
    simp [cb_weight, h]; omega
  unfold World.modify
  omega

theorem queue_pop_some {q : List Slot} {c : Slot} {rest : List Slot}
    (h : queue_pop q = some (c, rest)) : q = c :: rest := by
  unfold queue_pop at h
  cases q with
  | nil => simp at h
  | cons x xs => simp at h; rw [h.1, h.2]

/-- The body of `tcp_close`, written with `close_entered` and `close_children`. -/
theorem tcp_close_eq (env : Env) (fuel : Nat) (w : World) (i : Slot) :
    tcp_close env fuel w i =
      if (w.cb_table i).used = false then some (-1, w)
      else
        match env.gettimeofday w.tick with
        | none => some (-1, close_entered w i)
        | some now => tcp_close_switch env (close_children env fuel i) (close_entered w i) i now := by
  unfold tcp_close
  cases hu : (w.cb_table i).used
  · simp
  · cases fuel <;> rfl

theorem close_entered_measure (w : World) (i : Slot) (hu : (w.cb_table i).used = true) :
    close_measure (close_entered w i) + 1 = close_measure w :=
  close_measure_clear_used w i hu

theorem close_entered_used (w : World) (i j : Slot) (hj : (w.cb_table j).used = false) :
    ((close_entered w i).cb_table j).used = false := by
  show ((w.set i { w.cb_table i with used := false }).cb_table j).used = false
  by_cases h : j = i
  · subst h; simp
  · rw [World.set_other _ _ _ _ h]; exact hj

theorem close_entered_used_self (w : World) (i : Slot) :
    ((close_entered w i).cb_table i).used = false := by
  show ((w.set i { w.cb_table i with used := false }).cb_table i).used = false
  simp

/-- Termination of `tcp_close` and of its loop over the children: fuel at least
`close_measure w` is enough; the result neither sets a `used` flag nor adds work. -/
theorem tcp_close_ends_aux (env : Env) : ∀ fuel : Nat,
    (∀ (w : World) (i : Slot), close_measure w ≤ fuel →
      ∃ r, tcp_close env fuel w i = some r ∧ close_measure r.2 ≤ close_measure w
        ∧ (r.1 = 0 ∨ r.1 = -1)
        ∧ (∀ j, (w.cb_table j).used = false → (r.2.cb_table j).used = false)
        ∧ (r.2.cb_table i).used = false)
    ∧ (∀ (w : World) (i : Slot), close_measure w ≤ fuel →
      ∃ w', tcp_close_backlog env fuel w i = some w' ∧ close_measure w' ≤ close_measure w
        ∧ ∀ j, (w.cb_table j).used = false → (w'.cb_table j).used = false) := by
  have hclose : ∀ fuel : Nat,
      (∀ f, fuel = f + 1 → ∀ (w : World) (i : Slot), close_measure w ≤ f →
        ∃ w', tcp_close_backlog env f w i = some w' ∧ close_measure w' ≤ close_measure w
          ∧ ∀ j, (w.cb_table j).used = false → (w'.cb_table j).used = false) →
      ∀ (w : World) (i : Slot), close_measure w ≤ fuel →
      ∃ r, tcp_close env fuel w i = some r ∧ close_measure r.2 ≤ close_measure w
        ∧ (r.1 = 0 ∨ r.1 = -1)
        ∧ (∀ j, (w.cb_table j).used = false → (r.2.cb_table j).used = false)
        ∧ (r.2.cb_table i).used = false := by
    intro fuel hb w i hfuel
    rw [tcp_close_eq]
    by_cases hu : (w.cb_table i).used = false
    · rw [if_pos hu]
      exact ⟨_, rfl, le_refl _, Or.inr rfl, fun _ h => h, hu⟩
    · rw [if_neg hu]
      have hu1 : (w.cb_table i).used = true := by simpa using hu
      have hm1 := close_entered_measure w i hu1
      cases hclk : env.gettimeofday w.tick with
      | none =>
        exact ⟨_, rfl, by show close_measure (close_entered w i) ≤ _; omega, Or.inr rfl,
          fun j hj => close_entered_used w i j hj, close_entered_used_self w i⟩
      | some now =>
        obtain ⟨r, hr, hmr, hret, hur⟩ := tcp_close_switch_ends env (close_children env fuel i)
          (close_entered w i) i now (by
            intro _
            cases fuel with
            | zero => omega
            | succ f => exact hb f rfl _ i (by omega))
        exact ⟨r, hr, by omega, hret, fun j hj => hur j (close_entered_used w i j hj),
          hur i (close_entered_used_self w i)⟩
  intro fuel
  induction fuel with
  | zero =>
    refine ⟨hclose 0 (fun f hf => by omega), ?_⟩
    intro w i hfuel
    unfold tcp_close_backlog
    cases hq : queue_pop (w.cb_table i).backlog with
    | none => exact ⟨w, rfl, le_refl _, fun _ h => h⟩
    | some p =>
      obtain ⟨c, rest⟩ := p
      have := close_measure_pop w i c rest (queue_pop_some hq)
      omega
  | succ f ih =>
    refine ⟨hclose (f + 1) (fun f' hf' => by
      have : f' = f := by omega
      subst this
      exact ih.2), ?_⟩
    intro w i hfuel
    unfold tcp_close_backlog
    cases hq : queue_pop (w.cb_table i).backlog with
    | none => exact ⟨w, rfl, le_refl _, fun _ h => h⟩
    | some p =>
      obtain ⟨c, rest⟩ := p
      have hp := close_measure_pop w i c rest (queue_pop_some hq)
      simp only []
      obtain ⟨r, hr, hmr, _, hur, _⟩ := ih.1 (w.modify i (fun cb => { cb with backlog := rest })) c
        (by omega)
      rw [hr]
      simp only []
      obtain ⟨w', hw', hmw', huw'⟩ := ih.2 r.2 i (by omega)
      refine ⟨w', hw', by omega, ?_⟩
      intro j hj
      apply huw'
      apply hur
      rw [used_modify]
      · exact hj
      · intro cb; rfl

/-! ## C6: `tcp_close` always clears `used` -/

/-- C6: `tcp_close` ends (fuel `close_measure w` suffices), returns 0 or -1, and leaves
the `used` flag of its control block 0.  On a used block in FIN_WAIT1, FIN_WAIT2,
CLOSING, TIME_WAIT or LAST_ACK it returns -1 and only `used` has changed; on a block that
is not used it returns -1 and nothing has changed. -/
theorem tcp_close_clears_used (env : Env) (w : World) (i : Slot) :
    (∀ fuel, close_measure w ≤ fuel →
      ∃ r w', tcp_close env fuel w i = some (r, w') ∧ (r = 0 ∨ r = -1)
        ∧ (w'.cb_table i).used = false)
    ∧ ((w.cb_table i).used = true →
        ((w.cb_table i).state = TCP_CB_STATE_FIN_WAIT1
          ∨ (w.cb_table i).state = TCP_CB_STATE_FIN_WAIT2
          ∨ (w.cb_table i).state = TCP_CB_STATE_CLOSING
          ∨ (w.cb_table i).state = TCP_CB_STATE_TIME_WAIT
          ∨ (w.cb_table i).state = TCP_CB_STATE_LAST_ACK) →
        ∀ fuel, tcp_close env fuel w i
          = some (-1, { (w.set i { w.cb_table i with used := false }) with tick := w.tick + 1 }))
    ∧ ((w.cb_table i).used = false → ∀ fuel, tcp_close env fuel w i = some (-1, w)) := by
  refine ⟨?_, ?_, ?_⟩
  · intro fuel hfuel
    obtain ⟨r, hr, _, hret, _, hu⟩ := (tcp_close_ends_aux env fuel).1 w i hfuel
    exact ⟨r.1, r.2, hr, hret, hu⟩
  · intro hu hst fuel
    rw [tcp_close_eq]
    have hst' : ((close_entered w i).cb_table i).state = (w.cb_table i).state := by
      show ((w.set i { w.cb_table i with used := false }).cb_table i).state = _
      simp
    simp only [hu, Bool.true_eq_false, if_false]
    cases env.gettimeofday w.tick with
    | none => rfl
    | some now =>
      simp only []
      unfold tcp_close_switch
      rcases hst with h | h | h | h | h <;> simp only [hst'.trans h] <;> rfl
  · intro hu fuel
    rw [tcp_close_eq, if_pos hu]

/-- C6 at concrete inputs: a used block in FIN_WAIT1 and a block that is not used. -/
theorem tcp_close_clears_used_witness :
    (∃ w', tcp_close env_ok 0 (world_in_state TCP_CB_STATE_FIN_WAIT1) 0 = some (-1, w')
        ∧ (w'.cb_table 0).used = false ∧ (w'.cb_table 0).state = TCP_CB_STATE_FIN_WAIT1)
      ∧ tcp_close env_ok 0 World.zero 0 = some (-1, World.zero) :=
  ⟨⟨_, (tcp_close_clears_used env_ok (world_in_state TCP_CB_STATE_FIN_WAIT1) 0).2.1
      (by decide) (by decide) 0, by decide, by decide⟩,
    (tcp_close_clears_used env_ok World.zero 0).2.2 (by decide) 0⟩

/-! ## C1: `snd.una <= snd.nxt` and a SYN without ACK in SYN_SENT -/

set_option maxRecDepth 100000 in
/-- C1, evaluated: slot 0 is in SYN_SENT with `snd.una = 7000`, `snd.nxt = 7001` after
`open` and `connect`, so `snd.una <= snd.nxt` holds; a segment with SYN and no ACK bit
whose ack field is 7002 is used to advance `snd.una` to 7002 and the block becomes
ESTABLISHED with `snd.una > snd.nxt`: `(snd.nxt - snd.una) mod 2^32 = 2^32 - 1`. -/
theorem syn_sent_syn_breaks_una_le_nxt :
    (world_syn_sent.cb_table 0).state = TCP_CB_STATE_SYN_SENT
      ∧ (world_syn_sent.cb_table 0).snd.una = 7000
      ∧ (world_syn_sent.cb_table 0).snd.nxt = 7001
      ∧ snd_una_le_nxt (world_syn_sent.cb_table 0)
      ∧ TCP_FLG_ISSET (tcp_hdr.ofBytes segment_syn_noack).flg TCP_FLG_SYN = true
      ∧ TCP_FLG_ISSET (tcp_hdr.ofBytes segment_syn_noack).flg TCP_FLG_ACK = false
      ∧ ((tcp_event_segment_arrives env_ok world_syn_sent 0 segment_syn_noack).cb_table 0).state
          = TCP_CB_STATE_ESTABLISHED
      ∧ ((tcp_event_segment_arrives env_ok world_syn_sent 0 segment_syn_noack).cb_table 0).snd.una
          = 7002
      ∧ ((tcp_event_segment_arrives env_ok world_syn_sent 0 segment_syn_noack).cb_table 0).snd.nxt
          = 7001
      ∧ ¬ snd_una_le_nxt
          ((tcp_event_segment_arrives env_ok world_syn_sent 0 segment_syn_noack).cb_table 0) := by
  decide

/-! ## C3: the ACK of our FIN in FIN_WAIT1 -/

set_option maxRecDepth 100000 in
/-- C3, evaluated: closing the ESTABLISHED connection of `world_established`
(`snd.una = snd.nxt = 100`) gives FIN_WAIT1 with `snd.nxt = 101`; the acceptable bare ACK
with `ack = 101`, which acknowledges the FIN, leaves the block in FIN_WAIT1 (the code
tests `ack + 1 == snd.nxt`), and the acceptable FIN that follows moves it to CLOSING, not
TIME_WAIT. -/
theorem fin_wait1_ack_of_fin_stays :
    world_closed_first.map (fun w => ((w.cb_table 0).state, (w.cb_table 0).snd.nxt))
        = some (TCP_CB_STATE_FIN_WAIT1, 101)
      ∧ world_closed_first.map (fun w =>
          (segment_acceptable (w.cb_table 0) (tcp_hdr.ofBytes segment_ack_of_fin) 0,
           ntoh32 (tcp_hdr.ofBytes segment_ack_of_fin).ack,
           ((tcp_event_segment_arrives env_ok w 0 segment_ack_of_fin).cb_table 0).state,
           ((tcp_event_segment_arrives env_ok w 0 segment_ack_of_fin).cb_table 0).snd.una))
        = some (true, 101, TCP_CB_STATE_FIN_WAIT1, 101)
      ∧ world_closed_first.map (fun w =>
          (segment_acceptable ((tcp_event_segment_arrives env_ok w 0 segment_ack_of_fin).cb_table 0)
             (tcp_hdr.ofBytes segment_fin) 0,
           ((tcp_event_segment_arrives env_ok
              (tcp_event_segment_arrives env_ok w 0 segment_ack_of_fin) 0 segment_fin).cb_table 0).state))
        = some (true, TCP_CB_STATE_CLOSING) := by
  refine ⟨?_, ?_, ?_⟩ <;> decide

/-! ## C5: closing a listener with pending children -/

set_option maxRecDepth 100000 in
/-- C5, evaluated: with the ESTABLISHED, not yet accepted child of slot 1 in the backlog
of the listener in slot 0, `tcp_close` on the listener returns 0, empties the backlog
and resets the listener, but the nested `tcp_close` on the child returns at the `used`
check: the child stays ESTABLISHED with its `snd.nxt`, and no call of `tcp_tx` is made. -/
theorem listener_close_leaves_child :
    ((world_child_pending.cb_table 0).used, (world_child_pending.cb_table 0).state,
        (world_child_pending.cb_table 0).backlog, (world_child_pending.cb_table 1).used,
        (world_child_pending.cb_table 1).state, (world_child_pending.cb_table 1).snd.nxt)
        = (true, TCP_CB_STATE_LISTEN, [1], false, TCP_CB_STATE_ESTABLISHED, 7001)
      ∧ (tcp_close env_ok 2 world_child_pending 0).map (fun r =>
          (r.1, (r.2.cb_table 0).state, (r.2.cb_table 0).backlog, (r.2.cb_table 1).state,
           (r.2.cb_table 1).snd.nxt))
        = some (0, TCP_CB_STATE_CLOSED, [], TCP_CB_STATE_ESTABLISHED, 7001)
      ∧ (tcp_close env_ok 2 world_child_pending 0).map (fun r =>
          (decide ((r.2.cb_table 1).txq = (world_child_pending.cb_table 1).txq),
           decide (r.2.tx_log = world_child_pending.tx_log)))
        = some (true, true) := by
  refine ⟨?_, ?_, ?_⟩ <;> decide

/-! ## C7: one listener per port -/

set_option maxRecDepth 100000 in
/-- C7, evaluated: `open; bind(0, 7); listen(0)`, a stray RST for port 7 (it leaves the
listener's port in free slot 1), `open` (returns 1) and `listen(1)` (returns 0) give two
distinct blocks in LISTEN with the same local port. -/
theorem two_listeners_same_port :
    (tcp_api_open World.zero).1 = 0
      ∧ (tcp_api_bind (tcp_api_open World.zero).2 0 7).1 = 0
      ∧ (tcp_api_listen (tcp_api_bind (tcp_api_open World.zero).2 0 7).2 0).1 = 0
      ∧ tcp_checksum 167772162 167772161 segment_rst segment_rst.length = 0
      ∧ (tcp_api_open (tcp_rx env_ok world_listening segment_rst 167772162 167772161 netif0)).1 = 1
      ∧ (tcp_api_listen
          (tcp_api_open (tcp_rx env_ok world_listening segment_rst 167772162 167772161 netif0)).2
          1).1 = 0
      ∧ (world_two_listeners.cb_table 0).state = TCP_CB_STATE_LISTEN
      ∧ (world_two_listeners.cb_table 1).state = TCP_CB_STATE_LISTEN
      ∧ (world_two_listeners.cb_table 0).port = (world_two_listeners.cb_table 1).port := by
  decide

/-! ## C8: free blocks and the transmit queue -/

set_option maxRecDepth 100000 in
/-- C8, evaluated: `open`, then `connect` whose SYN `ip_tx` refuses (it returns -1 with the
block still CLOSED and the SYN left in `txq`), then `close` (returns 0): slot 0 is free,
`!used && state == CLOSED`, and its transmit queue holds one entry. -/
theorem free_cb_keeps_queued_syn :
    (tcp_api_connect env_ip_down (tcp_api_open World.zero).2 0 167772162 80).1
        = api_result.ret (-1)
      ∧ (world_connect_failed.cb_table 0).state = TCP_CB_STATE_CLOSED
      ∧ (tcp_api_close env_ip_down 0 world_connect_failed 0).map (fun r =>
          (r.1, IS_FREE_CB (r.2.cb_table 0), (r.2.cb_table 0).txq.entries.length,
           (r.2.cb_table 0).txq.entries.map (fun e => e.segment.flg)))
        = some (0, true, 1, [TCP_FLG_SYN]) := by
  decide

/-! ## Arrival of in-order text -/

theorem flg_ack_isset :
    TCP_FLG_ISSET TCP_FLG_ACK TCP_FLG_RST = false ∧ TCP_FLG_ISSET TCP_FLG_ACK TCP_FLG_SYN = false
      ∧ TCP_FLG_ISSET TCP_FLG_ACK TCP_FLG_ACK = true ∧ TCP_FLG_ISSET TCP_FLG_ACK TCP_FLG_URG = false
      ∧ TCP_FLG_ISSET TCP_FLG_ACK TCP_FLG_PSH = false
      ∧ TCP_FLG_ISSET TCP_FLG_ACK TCP_FLG_FIN = false := by decide

/-- The steps from `CHECK_URG` on, for a bare-ACK segment carrying in-order text to a
block in ESTABLISHED: the text is copied behind the buffered bytes and acknowledged. -/
theorem segment_check_urg_text (env : Env) (w : World) (i : Slot) (hdr : tcp_hdr)
    (segment : List Nat) (plen : Nat) (now : timeval)
    (hst : (w.cb_table i).state = TCP_CB_STATE_ESTABLISHED)
    (hflg : hdr.flg = TCP_FLG_ACK)
    (hplen : 0 < plen)
    (hseq : (w.cb_table i).rcv.nxt = ntoh32 hdr.seq) :
    same_but_txq
      { w.cb_table i with
        window := window_write (w.cb_table i).window (WINDOW_SIZE - (w.cb_table i).rcv.wnd)
          (segment.drop (TCP_HDR_LEN hdr)) plen
        rcv := { (w.cb_table i).rcv with
          nxt := u32 (ntoh32 hdr.seq + plen)
          wnd := sub16 (w.cb_table i).rcv.wnd plen } }
      ((segment_check_urg env w i hdr segment plen now).cb_table i) := by
  unfold segment_check_urg
  simp only [hflg, flg_ack_isset, hst, Bool.false_eq_true, if_false, hplen, hseq, gt_iff_lt,
    and_self, if_true]
  exact same_but_txq_trans (by simp [same_but_txq]) (tcp_tx_cb _ _ _ _ _ _ _ _ _)

/-- ACK processing in ESTABLISHED for an acknowledgement inside `[snd.una, snd.nxt]`:
processing goes on, and only `snd` and `timeout` of the block can have changed. -/
theorem segment_ack_established_ok (env : Env) (w : World) (i : Slot) (hdr : tcp_hdr)
    (now : timeval)
    (hst : (w.cb_table i).state = TCP_CB_STATE_ESTABLISHED)
    (hack : (w.cb_table i).snd.una ≤ ntoh32 hdr.ack ∧ ntoh32 hdr.ack ≤ (w.cb_table i).snd.nxt) :
    ∃ s t, segment_ack_established env w i hdr now
        = (w.set i { w.cb_table i with snd := s, timeout := t }, true)
      ∧ s.nxt = (w.cb_table i).snd.nxt
      ∧ s.una = (if (w.cb_table i).snd.una < ntoh32 hdr.ack then ntoh32 hdr.ack
          else (w.cb_table i).snd.una) := by
  unfold segment_ack_established
  have hs1 : ¬ (w.cb_table i).state = TCP_CB_STATE_FIN_WAIT1 := by rw [hst]; decide
  have hs2 : ¬ (w.cb_table i).state = TCP_CB_STATE_FIN_WAIT2 := by rw [hst]; decide
  have hs3 : ¬ (w.cb_table i).state = TCP_CB_STATE_CLOSING := by rw [hst]; decide
  by_cases h1 : (w.cb_table i).snd.una < ntoh32 hdr.ack
  all_goals
    by_cases h2 : (w.cb_table i).snd.wl1 < ntoh32 hdr.seq
      ∨ ((w.cb_table i).snd.wl1 = ntoh32 hdr.seq ∧ (w.cb_table i).snd.wl2 ≤ ntoh32 hdr.ack)
  all_goals
    simp only [hack, and_self, h1, h2, if_true, if_false, World.set_same, hs1, hs2, hs3]
    exact ⟨_, _, rfl, rfl, rfl⟩

theorem segment_acceptable_in_order (cb : tcp_cb) (hdr : tcp_hdr) (plen : Nat)
    (hplen : 0 < plen) (hseq : cb.rcv.nxt = ntoh32 hdr.seq) (hwnd : 0 < cb.rcv.wnd)
    (hnowrap : cb.rcv.nxt + cb.rcv.wnd < 2 ^ 32) :
    segment_acceptable cb hdr plen = true := by
  unfold segment_acceptable u32
  have : (cb.rcv.nxt + cb.rcv.wnd) % 4294967296 = cb.rcv.nxt + cb.rcv.wnd :=
    Nat.mod_eq_of_lt (by omega)
  simp only [gt_iff_lt, hplen, hwnd, if_true, this, ← hseq]
  simp
  left
  omega

/-- In-order text for an ESTABLISHED block: a bare-ACK segment that starts at `rcv.nxt`
(with `rcv.nxt + rcv.wnd` not wrapping and an acknowledgement inside
`[snd.una, snd.nxt]`) has its `plen` bytes copied at offset `65535 - rcv.wnd`, `rcv.nxt`
advanced by `plen` and `rcv.wnd` reduced by `plen` in 16-bit arithmetic, however `plen`
compares with `rcv.wnd`. -/
theorem established_text_arrival (env : Env) (w : World) (i : Slot) (segment : List Nat)
    (now : timeval)
    (hclk : env.gettimeofday w.tick = some now)
    (hst : (w.cb_table i).state = TCP_CB_STATE_ESTABLISHED)
    (hflg : (tcp_hdr.ofBytes segment).flg = TCP_FLG_ACK)
    (hseq : (w.cb_table i).rcv.nxt = ntoh32 (tcp_hdr.ofBytes segment).seq)
    (hack : (w.cb_table i).snd.una ≤ ntoh32 (tcp_hdr.ofBytes segment).ack
      ∧ ntoh32 (tcp_hdr.ofBytes segment).ack ≤ (w.cb_table i).snd.nxt)
    (hplen : 0 < TCP_DATA_LEN (tcp_hdr.ofBytes segment) segment.length)
    (hwnd : 0 < (w.cb_table i).rcv.wnd)
    (hnowrap : (w.cb_table i).rcv.nxt + (w.cb_table i).rcv.wnd < 2 ^ 32) :
    ((tcp_event_segment_arrives env w i segment).cb_table i).state = (w.cb_table i).state
      ∧ ((tcp_event_segment_arrives env w i segment).cb_table i).used = (w.cb_table i).used
      ∧ ((tcp_event_segment_arrives env w i segment).cb_table i).rcv.nxt
          = u32 (ntoh32 (tcp_hdr.ofBytes segment).seq
              + TCP_DATA_LEN (tcp_hdr.ofBytes segment) segment.length)
      ∧ ((tcp_event_segment_arrives env w i segment).cb_table i).rcv.wnd
          = sub16 (w.cb_table i).rcv.wnd (TCP_DATA_LEN (tcp_hdr.ofBytes segment) segment.length)
      ∧ ((tcp_event_segment_arrives env w i segment).cb_table i).window
          = window_write (w.cb_table i).window (WINDOW_SIZE - (w.cb_table i).rcv.wnd)
              (segment.drop (TCP_HDR_LEN (tcp_hdr.ofBytes segment)))
              (TCP_DATA_LEN (tcp_hdr.ofBytes segment) segment.length)
      ∧ ((tcp_event_segment_arrives env w i segment).cb_table i).snd.nxt = (w.cb_table i).snd.nxt
      ∧ ((tcp_event_segment_arrives env w i segment).cb_table i).snd.una
          = (if (w.cb_table i).snd.una < ntoh32 (tcp_hdr.ofBytes segment).ack
              then ntoh32 (tcp_hdr.ofBytes segment).ack else (w.cb_table i).snd.una) := by
  have hacc := segment_acceptable_in_order (w.cb_table i) (tcp_hdr.ofBytes segment) _ hplen hseq
    hwnd hnowrap
  obtain ⟨s, t, hs, hnxt, huna⟩ := segment_ack_established_ok env
    { w with tick := w.tick + 1 } i (tcp_hdr.ofBytes segment) now hst hack
  have hsync : tcp_event_segment_arrives env w i segment
      = segment_check_urg env
          (World.set { w with tick := w.tick + 1 } i { w.cb_table i with snd := s, timeout := t })
          i (tcp_hdr.ofBytes segment) segment
          (TCP_DATA_LEN (tcp_hdr.ofBytes segment) segment.length) now := by
    unfold tcp_event_segment_arrives
    simp only [hclk]
    have h4 : (w.cb_table i).state = 4 := hst
    simp only [h4]
    unfold segment_arrives_synchronized
    have hacc' : segment_acceptable (World.cb_table { w with tick := w.tick + 1 } i)
        (tcp_hdr.ofBytes segment) (TCP_DATA_LEN (tcp_hdr.ofBytes segment) segment.length)
        = true := hacc
    simp only [hacc', hflg, flg_ack_isset, Bool.not_true, Bool.false_eq_true, if_false, if_true]
    unfold segment_ack
    simp only [h4]
    rw [hs]
    simp [h4]
  rw [hsync]
  have h := segment_check_urg_text env
    (World.set { w with tick := w.tick + 1 } i { w.cb_table i with snd := s, timeout := t })
    i (tcp_hdr.ofBytes segment) segment
    (TCP_DATA_LEN (tcp_hdr.ofBytes segment) segment.length) now
    (by simpa using hst) hflg hplen (by simpa using hseq)
  simp only [World.set_same] at h
  rw [h]
  exact ⟨rfl, rfl, rfl, rfl, rfl, hnxt, huna⟩

theorem tcp_hdr_bytes_length (h : tcp_hdr) : h.bytes.length = 20 := rfl

theorem segment_bytes_length (src dst seq ack flg win sum : Nat) (data : List Nat) :
    (segment_bytes src dst seq ack flg win sum data).length = 20 + data.length := by
  unfold segment_bytes
  rw [List.length_append, tcp_hdr_bytes_length]

theorem segment_data1_length : segment_data1.length = 65515 := by
  unfold segment_data1
  rw [segment_bytes_length, List.length_replicate]

theorem segment_data1_hdr :
    (tcp_hdr.ofBytes segment_data1).flg = TCP_FLG_ACK
      ∧ ntoh32 (tcp_hdr.ofBytes segment_data1).seq = 500
      ∧ ntoh32 (tcp_hdr.ofBytes segment_data1).ack = 100
      ∧ TCP_HDR_LEN (tcp_hdr.ofBytes segment_data1) = 20 := by
  decide

theorem segment_data1_plen :
    TCP_DATA_LEN (tcp_hdr.ofBytes segment_data1) segment_data1.length = 65495 := by
  rw [segment_data1_length]
  unfold TCP_DATA_LEN
  rw [segment_data1_hdr.2.2.2]
  decide

theorem world_data1_eq :
    world_data1 = tcp_event_segment_arrives env_ok world_established 0 segment_data1 := rfl

/-- The first large segment leaves 40 bytes of window. -/
theorem world_data1_cb :
    (world_data1.cb_table 0).state = TCP_CB_STATE_ESTABLISHED
      ∧ (world_data1.cb_table 0).used = true
      ∧ (world_data1.cb_table 0).rcv.nxt = 65995
      ∧ (world_data1.cb_table 0).rcv.wnd = 40
      ∧ (world_data1.cb_table 0).snd.nxt = 100
      ∧ (world_data1.cb_table 0).snd.una = 100 := by
  obtain ⟨h1, h2, h3, h4, _, h6, h7⟩ := established_text_arrival env_ok world_established 0
    segment_data1 { tv_sec := 1000, tv_usec := 0 } rfl (by decide) segment_data1_hdr.1
    (by rw [segment_data1_hdr.2.1]; decide)
    (by rw [segment_data1_hdr.2.2.1]; decide)
    (by rw [segment_data1_plen]; decide) (by decide) (by decide)
  rw [segment_data1_plen, segment_data1_hdr.2.1] at h3
  rw [segment_data1_plen] at h4
  rw [segment_data1_hdr.2.2.1] at h7
  rw [world_data1_eq]
  exact ⟨h1.trans (by decide), h2.trans (by decide), h3.trans (by decide), h4.trans (by decide),
    h6.trans (by decide), h7.trans (by decide)⟩

/-- What `tcp_api_recv` does when bytes are buffered: it hands out the first
`min size total` bytes of the window, moves the rest to the front and gives the space
back to `rcv.wnd`. -/
theorem tcp_api_recv_copy (w : World) (soc : Int) (i : Slot) (size : Nat)
    (hsoc : socket_slot soc = some i)
    (hused : (w.cb_table i).used = true)
    (hstate : (w.cb_table i).state = TCP_CB_STATE_ESTABLISHED
      ∨ (w.cb_table i).state = TCP_CB_STATE_FIN_WAIT1
      ∨ (w.cb_table i).state = TCP_CB_STATE_FIN_WAIT2
      ∨ (w.cb_table i).state = TCP_CB_STATE_CLOSE_WAIT)
    (htotal : 0 < WINDOW_SIZE - (w.cb_table i).rcv.wnd) :
    tcp_api_recv w soc size
      = (api_result.ret (Int.ofNat (min size (WINDOW_SIZE - (w.cb_table i).rcv.wnd))),
         (List.range (min size (WINDOW_SIZE - (w.cb_table i).rcv.wnd))).map (w.cb_table i).window,
         w.set i { w.cb_table i with
           window := window_shift (w.cb_table i).window
             (min size (WINDOW_SIZE - (w.cb_table i).rcv.wnd))
             (WINDOW_SIZE - (w.cb_table i).rcv.wnd
               - min size (WINDOW_SIZE - (w.cb_table i).rcv.wnd))
           rcv := { (w.cb_table i).rcv with
             wnd := (w.cb_table i).rcv.wnd
               + min size (WINDOW_SIZE - (w.cb_table i).rcv.wnd) } }) := by
  have hne : WINDOW_SIZE - (w.cb_table i).rcv.wnd ≠ 0 := by omega
  have hlen : (if WINDOW_SIZE - (w.cb_table i).rcv.wnd > size then size
      else WINDOW_SIZE - (w.cb_table i).rcv.wnd)
      = min size (WINDOW_SIZE - (w.cb_table i).rcv.wnd) := by
    split_ifs <;> omega
  have hu16 : u16 ((w.cb_table i).rcv.wnd + min size (WINDOW_SIZE - (w.cb_table i).rcv.wnd))
      = (w.cb_table i).rcv.wnd + min size (WINDOW_SIZE - (w.cb_table i).rcv.wnd) := by
    unfold u16
    apply Nat.mod_eq_of_lt
    have : WINDOW_SIZE = 65535 := rfl
    omega
  unfold tcp_api_recv
  simp only [hsoc, hused, Bool.not_true, Bool.false_eq_true, if_false]
  rcases hstate with h | h | h | h <;>
    simp only [h, hne, if_false, hlen, hu16]

theorem world_data2_eq :
    world_data2 = tcp_event_segment_arrives env_ok world_data1 0 segment_data2 := rfl

theorem world_data3_eq :
    world_data3 = tcp_event_segment_arrives env_ok world_data2 0 segment_data3 := rfl

theorem segment_data2_hdr :
    (tcp_hdr.ofBytes segment_data2).flg = TCP_FLG_ACK
      ∧ ntoh32 (tcp_hdr.ofBytes segment_data2).seq = 65995
      ∧ ntoh32 (tcp_hdr.ofBytes segment_data2).ack = 100
      ∧ TCP_DATA_LEN (tcp_hdr.ofBytes segment_data2) segment_data2.length = 41 := by
  decide

theorem segment_data3_hdr :
    (tcp_hdr.ofBytes segment_data3).flg = TCP_FLG_ACK
      ∧ ntoh32 (tcp_hdr.ofBytes segment_data3).seq = 66036
      ∧ ntoh32 (tcp_hdr.ofBytes segment_data3).ack = 100
      ∧ TCP_DATA_LEN (tcp_hdr.ofBytes segment_data3) segment_data3.length = 1
      ∧ (segment_data3.drop (TCP_HDR_LEN (tcp_hdr.ofBytes segment_data3))).getD 0 0 = 204 := by
  decide

/-- The 41-byte segment is taken although only 40 bytes of window are left, and the
16-bit subtraction turns `rcv.wnd` into 65535: the buffer counts as empty. -/
theorem world_data2_cb :
    (world_data2.cb_table 0).state = TCP_CB_STATE_ESTABLISHED
      ∧ (world_data2.cb_table 0).used = true
      ∧ (world_data2.cb_table 0).rcv.nxt = 66036
      ∧ (world_data2.cb_table 0).rcv.wnd = 65535
      ∧ (world_data2.cb_table 0).snd.nxt = 100
      ∧ (world_data2.cb_table 0).snd.una = 100 := by
  obtain ⟨c1, c2, c3, c4, c5, c6⟩ := world_data1_cb
  obtain ⟨h1, h2, h3, h4, _, h6, h7⟩ := established_text_arrival env_ok world_data1 0
    segment_data2 { tv_sec := 1000, tv_usec := 0 } rfl c1 segment_data2_hdr.1
    (by rw [segment_data2_hdr.2.1, c3])
    (by rw [segment_data2_hdr.2.2.1, c5, c6]; decide)
    (by rw [segment_data2_hdr.2.2.2]; decide) (by rw [c4]; decide) (by rw [c3, c4]; decide)
  rw [segment_data2_hdr.2.2.2, segment_data2_hdr.2.1] at h3
  rw [segment_data2_hdr.2.2.2, c4] at h4
  rw [segment_data2_hdr.2.2.1, c6] at h7
  rw [world_data2_eq]
  exact ⟨h1.trans c1, h2.trans c2, h3.trans (by decide), h4.trans (by decide),
    h6.trans c5, h7.trans (by decide)⟩

/-- The one-byte segment that follows is stored at offset 0 of the window. -/
theorem world_data3_cb :
    (world_data3.cb_table 0).state = TCP_CB_STATE_ESTABLISHED
      ∧ (world_data3.cb_table 0).used = true
      ∧ (world_data3.cb_table 0).rcv.nxt = 66037
      ∧ (world_data3.cb_table 0).rcv.wnd = 65534
      ∧ (world_data3.cb_table 0).window 0 = 204 := by
  obtain ⟨c1, c2, c3, c4, c5, c6⟩ := world_data2_cb
  obtain ⟨h1, h2, h3, h4, h5, _, _⟩ := established_text_arrival env_ok world_data2 0
    segment_data3 { tv_sec := 1000, tv_usec := 0 } rfl c1 segment_data3_hdr.1
    (by rw [segment_data3_hdr.2.1, c3])
    (by rw [segment_data3_hdr.2.2.1, c5, c6]; decide)
    (by rw [segment_data3_hdr.2.2.2.1]; decide) (by rw [c4]; decide) (by rw [c3, c4]; decide)
  rw [segment_data3_hdr.2.2.2.1, segment_data3_hdr.2.1] at h3
  rw [segment_data3_hdr.2.2.2.1, c4] at h4
  rw [segment_data3_hdr.2.2.2.1, c4] at h5
  rw [world_data3_eq]
  refine ⟨h1.trans c1, h2.trans c2, h3.trans (by decide), h4.trans (by decide), ?_⟩
  rw [h5]
  unfold window_write
  rw [if_pos (by decide)]
  exact segment_data3_hdr.2.2.2.2

/-! ## C2: in-order delivery and a segment longer than the window -/

/-- C2, evaluated: on the ESTABLISHED connection of `world_established` (empty buffer,
`rcv.wnd = 65535`) three segments arrive, each with `plen > 0`, `seg.seq == rcv.nxt` and
passing the acceptability test: 65495 bytes `0xAA`, 41 bytes `0xBB` (only 40 bytes of
window are left; `rcv.wnd -= plen` wraps to 65535) and the byte `0xCC`.  `tcp_api_recv`
then returns the single byte `0xCC`, which is not the beginning of the accepted
stream `0xAA ...`: 65536 accepted bytes have been lost. -/
theorem in_order_delivery_loses_bytes :
    ((world_established.cb_table 0).state = TCP_CB_STATE_ESTABLISHED
        ∧ (world_established.cb_table 0).rcv.wnd = 65535)
      ∧ (segment_acceptable (world_established.cb_table 0) (tcp_hdr.ofBytes segment_data1)
            (TCP_DATA_LEN (tcp_hdr.ofBytes segment_data1) segment_data1.length) = true
          ∧ TCP_DATA_LEN (tcp_hdr.ofBytes segment_data1) segment_data1.length = 65495
          ∧ ntoh32 (tcp_hdr.ofBytes segment_data1).seq = (world_established.cb_table 0).rcv.nxt)
      ∧ (segment_acceptable (world_data1.cb_table 0) (tcp_hdr.ofBytes segment_data2)
            (TCP_DATA_LEN (tcp_hdr.ofBytes segment_data2) segment_data2.length) = true
          ∧ TCP_DATA_LEN (tcp_hdr.ofBytes segment_data2) segment_data2.length = 41
          ∧ ntoh32 (tcp_hdr.ofBytes segment_data2).seq = (world_data1.cb_table 0).rcv.nxt
          ∧ (world_data1.cb_table 0).rcv.wnd = 40)
      ∧ (segment_acceptable (world_data2.cb_table 0) (tcp_hdr.ofBytes segment_data3)
            (TCP_DATA_LEN (tcp_hdr.ofBytes segment_data3) segment_data3.length) = true
          ∧ TCP_DATA_LEN (tcp_hdr.ofBytes segment_data3) segment_data3.length = 1
          ∧ ntoh32 (tcp_hdr.ofBytes segment_data3).seq = (world_data2.cb_table 0).rcv.nxt
          ∧ (world_data2.cb_table 0).rcv.wnd = 65535)
      ∧ (tcp_api_recv world_data3 0 10).1 = api_result.ret 1
      ∧ (tcp_api_recv world_data3 0 10).2.1 = [204]
      ∧ ¬ ([204] <+: segment_data1.drop (TCP_HDR_LEN (tcp_hdr.ofBytes segment_data1))
            ++ (segment_data2.drop (TCP_HDR_LEN (tcp_hdr.ofBytes segment_data2))
              ++ segment_data3.drop (TCP_HDR_LEN (tcp_hdr.ofBytes segment_data3)))) := by
  obtain ⟨a1, _, a3, a4, _, _⟩ := world_data1_cb
  obtain ⟨b1, _, b3, b4, _, _⟩ := world_data2_cb
  obtain ⟨c1, c2, _, c4, c5⟩ := world_data3_cb
  have hrecv := tcp_api_recv_copy world_data3 0 0 10 (by decide) c2 (Or.inl c1)
    (by rw [c4]; decide)
  rw [c4, show min 10 (WINDOW_SIZE - 65534) = 1 by decide] at hrecv
  have hmap : ∀ f : Nat → Nat, (List.range 1).map f = [f 0] := fun _ => rfl
  refine ⟨⟨by decide, by decide⟩, ⟨?_, segment_data1_plen, ?_⟩, ⟨?_, segment_data2_hdr.2.2.2, ?_, a4⟩,
    ⟨?_, segment_data3_hdr.2.2.2.1, ?_, b4⟩, ?_, ?_, ?_⟩
  · exact segment_acceptable_in_order _ _ _ (by rw [segment_data1_plen]; decide)
      (by rw [segment_data1_hdr.2.1]; decide) (by decide) (by decide)
  · rw [segment_data1_hdr.2.1]; decide
  · exact segment_acceptable_in_order _ _ _ (by rw [segment_data2_hdr.2.2.2]; decide)
      (by rw [segment_data2_hdr.2.1, a3]) (by rw [a4]; decide) (by rw [a3, a4]; decide)
  · rw [segment_data2_hdr.2.1, a3]
  · exact segment_acceptable_in_order _ _ _ (by rw [segment_data3_hdr.2.2.2.1]; decide)
      (by rw [segment_data3_hdr.2.1, b3]) (by rw [b4]; decide) (by rw [b3, b4]; decide)
  · rw [segment_data3_hdr.2.1, b3]
  · exact congrArg Prod.fst hrecv
  · refine (congrArg (fun r => r.2.1) hrecv).trans ?_
    show (List.range 1).map (world_data3.cb_table 0).window = [204]
    rw [hmap, c5]
  · intro h
    obtain ⟨t, ht⟩ := h
    have h1 := congrArg List.head? ht
    have h2 : (segment_data1.drop (TCP_HDR_LEN (tcp_hdr.ofBytes segment_data1))
        ++ (segment_data2.drop (TCP_HDR_LEN (tcp_hdr.ofBytes segment_data2))
          ++ segment_data3.drop (TCP_HDR_LEN (tcp_hdr.ofBytes segment_data3)))).head?
        = some 170 := by decide
    rw [h2] at h1
    simp at h1

/-! ## C9: `tcp_api_recv` with buffered bytes -/

/-- C9: for a used block in ESTABLISHED, FIN_WAIT1, FIN_WAIT2 or CLOSE_WAIT holding
`total = 65535 - rcv.wnd > 0` bytes, `tcp_api_recv(soc, buf, size)` returns
`len = min(size, total)`, copies the first `len` bytes of the window to `buf`, leaves the
other `total - len` buffered bytes at offsets `[0, total - len)` in the same order, adds
`len` to `rcv.wnd`, and changes nothing else (no other member of the block, no other
block, no call of `tcp_tx` or `ip_tx`). -/
theorem tcp_api_recv_returns_front (w : World) (soc : Int) (i : Slot) (size : Nat)
    (hsoc : socket_slot soc = some i)
    (hused : (w.cb_table i).used = true)
    (hstate : (w.cb_table i).state = TCP_CB_STATE_ESTABLISHED
      ∨ (w.cb_table i).state = TCP_CB_STATE_FIN_WAIT1
      ∨ (w.cb_table i).state = TCP_CB_STATE_FIN_WAIT2
      ∨ (w.cb_table i).state = TCP_CB_STATE_CLOSE_WAIT)
    (htotal : 0 < WINDOW_SIZE - (w.cb_table i).rcv.wnd) :
    ∃ window1 : Nat → Nat,
      tcp_api_recv w soc size
        = (api_result.ret (Int.ofNat (min size (WINDOW_SIZE - (w.cb_table i).rcv.wnd))),
           (List.range (min size (WINDOW_SIZE - (w.cb_table i).rcv.wnd))).map
             (w.cb_table i).window,
           w.set i { w.cb_table i with
             window := window1
             rcv := { (w.cb_table i).rcv with
               wnd := (w.cb_table i).rcv.wnd
                 + min size (WINDOW_SIZE - (w.cb_table i).rcv.wnd) } })
      ∧ ∀ j, j < WINDOW_SIZE - (w.cb_table i).rcv.wnd
            - min size (WINDOW_SIZE - (w.cb_table i).rcv.wnd) →
          window1 j
            = (w.cb_table i).window (j + min size (WINDOW_SIZE - (w.cb_table i).rcv.wnd)) := by
  refine ⟨_, tcp_api_recv_copy w soc i size hsoc hused hstate htotal, ?_⟩
  intro j hj
  unfold window_shift
  rw [if_pos hj]

/-- C9 at a concrete input: three bytes 1, 2, 3 are buffered and two are asked for. -/
theorem tcp_api_recv_returns_front_witness :
    (tcp_api_recv world_buffered 0 2).1 = api_result.ret 2
      ∧ (tcp_api_recv world_buffered 0 2).2.1 = [1, 2]
      ∧ ((tcp_api_recv world_buffered 0 2).2.2.cb_table 0).rcv.wnd = 65534
      ∧ ((tcp_api_recv world_buffered 0 2).2.2.cb_table 0).window 0 = 3 := by
  obtain ⟨window1, h, hw⟩ := tcp_api_recv_returns_front world_buffered 0 0 2
    (by decide) (by decide) (by decide) (by decide)
  rw [h]
  refine ⟨rfl, rfl, rfl, ?_⟩
  show window1 0 = 3
  rw [hw 0 (by decide)]
  rfl

/-! ## The sending loop of `tcp_api_send` -/

theorem bytes_of_word (a b c d : Nat) (ha : a < 256) (hb : b < 256) (hc : c < 256)
    (hd : d < 256) :
    (a * 16777216 + b * 65536 + c * 256 + d) % 256 = d
      ∧ (a * 16777216 + b * 65536 + c * 256 + d) / 256 % 256 = c
      ∧ (a * 16777216 + b * 65536 + c * 256 + d) / 65536 % 256 = b
      ∧ (a * 16777216 + b * 65536 + c * 256 + d) / 16777216 % 256 = a := by
  refine ⟨by omega, by omega, by omega, by omega⟩

theorem ntoh32_hton32 (x : Nat) (h : x < 4294967296) : ntoh32 (hton32 x) = x := by
  have hx : x = x % 256 + 256 * (x / 256 % 256) + 65536 * (x / 65536 % 256)
      + 16777216 * (x / 16777216 % 256) := by omega
  obtain ⟨h1, h2, h3, h4⟩ := bytes_of_word (x % 256) (x / 256 % 256) (x / 65536 % 256)
    (x / 16777216 % 256) (Nat.mod_lt _ (by decide)) (Nat.mod_lt _ (by decide))
    (Nat.mod_lt _ (by decide)) (Nat.mod_lt _ (by decide))
  have hy : hton32 x = x % 256 * 16777216 + x / 256 % 256 * 65536 + x / 65536 % 256 * 256
      + x / 16777216 % 256 := rfl
  unfold ntoh32
  rw [hy]
  unfold hton32
  rw [h1, h2, h3, h4]
  omega

theorem update_tail_append (f : tcp_txq_entry → tcp_txq_entry) (l : List tcp_txq_entry)
    (e : tcp_txq_entry) : update_tail f (l ++ [e]) = l ++ [f e] := by
  induction l with
  | nil => rfl
  | cons a l ih =>
    cases l with
    | nil => rfl
    | cons b l =>
      show a :: update_tail f (b :: l ++ [e]) = _
      rw [ih]
      rfl

/-- With `malloc` and `ip_tx` never failing, `tcp_tx` does not return -1. -/
theorem tcp_tx_ok (env : Env) (w : World) (i : Slot) (seq ack flg : Nat) (now : timeval)
    (buf : List Nat) (hmalloc : ∀ k, env.malloc k = true) (hip : ∀ k, env.ip_tx k = true) :
    (tcp_tx env w i seq ack flg now buf).1 ≠ -1 := by
  unfold tcp_tx tcp_tx_send tcp_txq_add
  simp only [hmalloc, hip, Bool.not_true, Bool.false_eq_true, if_false]
  repeat' split
  all_goals
    intro h
    simp at h
    try omega

/-- With `malloc` and `ip_tx` never failing, `tcp_tx` with a payload appends exactly one
entry to the queue, holding the given sequence number, flags and payload. -/
theorem tcp_tx_appends (env : Env) (w : World) (i : Slot) (seq ack flg : Nat) (now : timeval)
    (buf : List Nat) (hmalloc : ∀ k, env.malloc k = true) (hip : ∀ k, env.ip_tx k = true)
    (hbuf : 0 < buf.length) :
    ∃ e, ((tcp_tx env w i seq ack flg now buf).2.cb_table i).txq.entries
        = (w.cb_table i).txq.entries ++ [e]
      ∧ e.segment.seq = hton32 seq ∧ e.segment.flg = flg ∧ e.data = buf := by
  unfold tcp_tx tcp_tx_send tcp_txq_add
  simp only [hmalloc, hip, Bool.not_true, Bool.false_eq_true, if_false, hbuf, gt_iff_lt, true_or,
    if_true]
  split
  · simp only [World.set_same]
    exact ⟨_, rfl, rfl, rfl, rfl⟩
  · simp only [World.set_same, update_tail_append]
    exact ⟨_, rfl, rfl, rfl, rfl⟩

/-- One turn of the sending loop when nothing fails and the send buffer has room: a chunk
of `min len (mtu - 80)` bytes goes to `tcp_tx`, and the loop goes on with the rest. -/
theorem tcp_api_send_next_turn (env : Env) (i : Slot) (now : timeval) (n : netif)
    (hmalloc : ∀ k, env.malloc k = true) (hip : ∀ k, env.ip_tx k = true)
    (hclk : ∀ k, env.gettimeofday k = some now)
    (hmtu : IP_HDR_SIZE_MAX + 20 < n.mtu) (hmtu16 : n.mtu < 65536)
    (fuel : Nat) (buf : List Nat) (w : World) (snt : Nat)
    (hlen : 0 < buf.length)
    (hstate : (w.cb_table i).state = TCP_CB_STATE_ESTABLISHED
      ∨ (w.cb_table i).state = TCP_CB_STATE_CLOSE_WAIT)
    (hif : (w.cb_table i).iface = some n)
    (hroom : sub32 (w.cb_table i).snd.nxt (w.cb_table i).snd.una + buf.length
      ≤ TCP_SND_BUF_SIZE) :
    tcp_api_send_next env fuel w i buf snt
      = if buf.length - min buf.length (n.mtu - 80) > 0 then
          match fuel with
          | 0 => none
          | f + 1 =>
            tcp_api_send_next env f (send_chunk env w i now buf (min buf.length (n.mtu - 80))) i
              (buf.drop (min buf.length (n.mtu - 80))) (snt + min buf.length (n.mtu - 80))
        else
          some (api_result.ret (Int.ofNat (snt + min buf.length (n.mtu - 80))),
            send_chunk env w i now buf (min buf.length (n.mtu - 80))) := by
  have hsize0 : sub64 (sub64 (iface_mtu (w.cb_table i)) IP_HDR_SIZE_MAX) TCP_HDR_SIZE
      = n.mtu - 80 := by
    unfold iface_mtu sub64
    rw [hif]
    simp only []
    have h1 : IP_HDR_SIZE_MAX = 60 := rfl
    have h2 : TCP_HDR_SIZE = 20 := rfl
    omega
  have hwnd : u16 (sub32 TCP_SND_BUF_SIZE (sub32 (w.cb_table i).snd.nxt (w.cb_table i).snd.una))
      = TCP_SND_BUF_SIZE - sub32 (w.cb_table i).snd.nxt (w.cb_table i).snd.una := by
    have h1 : TCP_SND_BUF_SIZE = 10240 := rfl
    generalize sub32 (w.cb_table i).snd.nxt (w.cb_table i).snd.una = d at *
    unfold u16 sub32
    omega
  have hsz : (if buf.length < n.mtu - 80 then buf.length else n.mtu - 80)
      = min buf.length (n.mtu - 80) := by
    split_ifs <;> omega
  have hnb : ¬ (TCP_SND_BUF_SIZE - sub32 (w.cb_table i).snd.nxt (w.cb_table i).snd.una
      < min buf.length (n.mtu - 80)) := by omega
  have hok := tcp_tx_ok env { w with tick := w.tick + 1 } i (w.cb_table i).snd.nxt
    (w.cb_table i).rcv.nxt (TCP_FLG_PSH ||| TCP_FLG_ACK) now
    (buf.take (min buf.length (n.mtu - 80))) hmalloc hip
  conv => lhs; unfold tcp_api_send_next
  rcases hstate with h | h <;>
    simp only [h, hclk, hlen, gt_iff_lt, if_true, hsize0, hwnd, hsz, hnb, false_and, if_false, hok]
    <;> rfl

/-- What one turn of the sending loop leaves in the control block. -/
theorem send_chunk_cb (env : Env) (w : World) (i : Slot) (now : timeval) (buf : List Nat)
    (size : Nat) (hmalloc : ∀ k, env.malloc k = true) (hip : ∀ k, env.ip_tx k = true)
    (hsize : 0 < size) (hle : size ≤ buf.length) :
    ((send_chunk env w i now buf size).cb_table i).state = (w.cb_table i).state
      ∧ ((send_chunk env w i now buf size).cb_table i).iface = (w.cb_table i).iface
      ∧ ((send_chunk env w i now buf size).cb_table i).snd.una = (w.cb_table i).snd.una
      ∧ ((send_chunk env w i now buf size).cb_table i).snd.nxt
          = u32 ((w.cb_table i).snd.nxt + size)
      ∧ ((send_chunk env w i now buf size).cb_table i).timeout = now.tv_sec + USER_TIMEOUT
      ∧ ∃ e, ((send_chunk env w i now buf size).cb_table i).txq.entries
            = (w.cb_table i).txq.entries ++ [e]
          ∧ e.segment.seq = hton32 (w.cb_table i).snd.nxt
          ∧ e.segment.flg = TCP_FLG_PSH ||| TCP_FLG_ACK
          ∧ e.data = buf.take size := by
  have hb : 0 < (buf.take size).length := by
    rw [List.length_take]; omega
  obtain ⟨e, he, h1, h2, h3⟩ := tcp_tx_appends env { w with tick := w.tick + 1 } i
    (w.cb_table i).snd.nxt (w.cb_table i).rcv.nxt (TCP_FLG_PSH ||| TCP_FLG_ACK) now
    (buf.take size) hmalloc hip hb
  unfold send_chunk World.modify
  refine ⟨?_, ?_, ?_, ?_, ?_, e, ?_, h1, h2, h3⟩
  all_goals simp only [World.set_same, tcp_tx_state, tcp_tx_iface, tcp_tx_snd]
  all_goals first
    | rfl
    | exact he

theorem send_room_after (nxt una size len : Nat)
    (hroom : sub32 nxt una + len ≤ TCP_SND_BUF_SIZE) (hs : size ≤ len) :
    sub32 (u32 (nxt + size)) una + (len - size) ≤ TCP_SND_BUF_SIZE := by
  have h10240 : TCP_SND_BUF_SIZE = 10240 := rfl
  unfold sub32 u32 at *
  omega

/-- The last turn of the sending loop: what is left of `buf` fits one segment. -/
theorem tcp_api_send_next_last (env : Env) (i : Slot) (now : timeval) (n : netif)
    (hmalloc : ∀ k, env.malloc k = true) (hip : ∀ k, env.ip_tx k = true)
    (hclk : ∀ k, env.gettimeofday k = some now)
    (hmtu : IP_HDR_SIZE_MAX + 20 < n.mtu) (hmtu16 : n.mtu < 65536)
    (fuel : Nat) (buf : List Nat) (w : World) (snt : Nat)
    (hlen : 0 < buf.length) (hfit : buf.length ≤ n.mtu - 80)
    (hstate : (w.cb_table i).state = TCP_CB_STATE_ESTABLISHED
      ∨ (w.cb_table i).state = TCP_CB_STATE_CLOSE_WAIT)
    (hif : (w.cb_table i).iface = some n)
    (hnxt : (w.cb_table i).snd.nxt < 2 ^ 32)
    (hroom : sub32 (w.cb_table i).snd.nxt (w.cb_table i).snd.una + buf.length
      ≤ TCP_SND_BUF_SIZE) :
    ∃ w' new,
      tcp_api_send_next env fuel w i buf snt
        = some (api_result.ret (Int.ofNat (snt + buf.length)), w')
      ∧ (w'.cb_table i).snd.nxt = u32 ((w.cb_table i).snd.nxt + buf.length)
      ∧ (w'.cb_table i).timeout = now.tv_sec + USER_TIMEOUT
      ∧ (w'.cb_table i).txq.entries = (w.cb_table i).txq.entries ++ new
      ∧ (∀ e ∈ new, e.segment.flg = TCP_FLG_PSH ||| TCP_FLG_ACK
          ∧ 0 < e.data.length ∧ e.data.length ≤ n.mtu - IP_HDR_SIZE_MAX - 20)
      ∧ (new.map (fun e => e.data)).flatten = buf
      ∧ txq_consecutive (w.cb_table i).snd.nxt new := by
  have h60 : IP_HDR_SIZE_MAX = 60 := rfl
  have hm : min buf.length (n.mtu - 80) = buf.length := by omega
  rw [tcp_api_send_next_turn env i now n hmalloc hip hclk hmtu hmtu16 fuel buf w snt hlen hstate
    hif hroom]
  rw [hm, if_neg (by omega)]
  obtain ⟨_, _, _, c4, c5, e, c6, c7, c8, c9⟩ := send_chunk_cb env w i now buf buf.length
    hmalloc hip hlen (le_refl _)
  rw [List.take_length] at c9
  refine ⟨_, [e], rfl, c4, c5, c6, ?_, ?_, ?_⟩
  · intro e' he'
    rw [List.mem_singleton] at he'
    subst he'
    rw [c9]
    exact ⟨c8, hlen, by omega⟩
  · simp [c9]
  · exact ⟨by rw [c7]; exact ntoh32_hton32 _ hnxt, trivial⟩

/-- The sending loop, when nothing fails and the send buffer has room for the whole of
`buf`: it ends, having queued `buf` in chunks of at most `mtu - 80` bytes. -/
theorem tcp_api_send_next_all (env : Env) (i : Slot) (now : timeval) (n : netif)
    (hmalloc : ∀ k, env.malloc k = true) (hip : ∀ k, env.ip_tx k = true)
    (hclk : ∀ k, env.gettimeofday k = some now)
    (hmtu : IP_HDR_SIZE_MAX + 20 < n.mtu) (hmtu16 : n.mtu < 65536) :
    ∀ (fuel : Nat) (buf : List Nat) (w : World) (snt : Nat),
      buf.length ≤ fuel + 1 → 0 < buf.length →
      ((w.cb_table i).state = TCP_CB_STATE_ESTABLISHED
        ∨ (w.cb_table i).state = TCP_CB_STATE_CLOSE_WAIT) →
      (w.cb_table i).iface = some n →
      (w.cb_table i).snd.nxt < 2 ^ 32 →
      sub32 (w.cb_table i).snd.nxt (w.cb_table i).snd.una + buf.length ≤ TCP_SND_BUF_SIZE →
      ∃ w' new,
        tcp_api_send_next env fuel w i buf snt
          = some (api_result.ret (Int.ofNat (snt + buf.length)), w')
        ∧ (w'.cb_table i).snd.nxt = u32 ((w.cb_table i).snd.nxt + buf.length)
        ∧ (w'.cb_table i).timeout = now.tv_sec + USER_TIMEOUT
        ∧ (w'.cb_table i).txq.entries = (w.cb_table i).txq.entries ++ new
        ∧ (∀ e ∈ new, e.segment.flg = TCP_FLG_PSH ||| TCP_FLG_ACK
            ∧ 0 < e.data.length ∧ e.data.length ≤ n.mtu - IP_HDR_SIZE_MAX - 20)
        ∧ (new.map (fun e => e.data)).flatten = buf
        ∧ txq_consecutive (w.cb_table i).snd.nxt new := by
  have h60 : IP_HDR_SIZE_MAX = 60 := rfl
  have h10240 : TCP_SND_BUF_SIZE = 10240 := rfl
  intro fuel
  induction fuel with
  | zero =>
    intro buf w snt hfuel hlen hstate hif hnxt hroom
    exact tcp_api_send_next_last env i now n hmalloc hip hclk hmtu hmtu16 0 buf w snt hlen
      (by omega) hstate hif hnxt hroom
  | succ f ih =>
    intro buf w snt hfuel hlen hstate hif hnxt hroom
    by_cases hlast : buf.length ≤ n.mtu - 80
    · exact tcp_api_send_next_last env i now n hmalloc hip hclk hmtu hmtu16 (f + 1) buf w snt hlen
        hlast hstate hif hnxt hroom
    · have hm : min buf.length (n.mtu - 80) = n.mtu - 80 := by omega
      rw [tcp_api_send_next_turn env i now n hmalloc hip hclk hmtu hmtu16 (f + 1) buf w snt hlen
        hstate hif hroom]
      rw [hm, if_pos (by omega)]
      simp only []
      obtain ⟨c1, c2, c3, c4, c5, e, c6, c7, c8, c9⟩ := send_chunk_cb env w i now buf
        (n.mtu - 80) hmalloc hip (by omega) (by omega)
      have hdl : (buf.drop (n.mtu - 80)).length = buf.length - (n.mtu - 80) := List.length_drop _ _
      have hel : e.data.length = n.mtu - 80 := by
        rw [c9, List.length_take]; omega
      obtain ⟨w', new, hres, d2, d3, d4, d5, d6, d7⟩ := ih (buf.drop (n.mtu - 80))
        (send_chunk env w i now buf (n.mtu - 80)) (snt + (n.mtu - 80))
        (by rw [hdl]; omega) (by rw [hdl]; omega) (by rw [c1]; exact hstate) (by rw [c2]; exact hif)
        (by rw [c4]; unfold u32; omega)
        (by rw [c3, c4, hdl]; exact send_room_after _ _ _ _ hroom (by omega))
      refine ⟨w', e :: new, ?_, ?_, d3, ?_, ?_, ?_, ?_⟩
      · rw [hres, hdl]
        have : snt + (n.mtu - 80) + (buf.length - (n.mtu - 80)) = snt + buf.length := by omega
        rw [this]
      · rw [d2, c4, hdl]
        unfold u32
        omega
      · rw [d4, c6, List.append_assoc]
        rfl
      · intro e' he'
        rcases List.mem_cons.mp he' with h | h
        · subst h
          exact ⟨c8, by omega, by omega⟩
        · exact d5 e' h
      · show e.data ++ (new.map (fun e => e.data)).flatten = buf
        rw [d6, c9, List.take_append_drop]
      · refine ⟨by rw [c7]; exact ntoh32_hton32 _ hnxt, ?_⟩
        rw [hel, ← c4]
        exact d7

/-! ## C10: `tcp_api_send` when it neither blocks nor fails -/

set_option maxRecDepth 100000 in
/-- C10 as stated fails for `len = 0`: on the ESTABLISHED connection of
`world_established` (nothing in flight, MTU 1500, no collaborator failing, clock at
1000 s) `tcp_api_send(0, buf, 0)` returns 0 and leaves `timeout` at 0, not at
`now + USER_TIMEOUT = 1020`. -/
theorem send_nothing_keeps_timeout :
    (world_established.cb_table 0).used = true
      ∧ (world_established.cb_table 0).state = TCP_CB_STATE_ESTABLISHED
      ∧ sub32 (world_established.cb_table 0).snd.nxt (world_established.cb_table 0).snd.una
          + ([] : List Nat).length ≤ TCP_SND_BUF_SIZE
      ∧ IP_HDR_SIZE_MAX + 20 < iface_mtu (world_established.cb_table 0)
      ∧ env_ok.gettimeofday world_established.tick = some { tv_sec := 1000, tv_usec := 0 }
      ∧ (tcp_api_send env_ok world_established 0 []).map
          (fun r => (r.1, (r.2.cb_table 0).timeout)) = some (api_result.ret 0, 0)
      ∧ (0 : Int) ≠ 1000 + USER_TIMEOUT := by
  decide

/-- C10, amended: for a used block in ESTABLISHED or CLOSE_WAIT with
`snd.nxt - snd.una + len <= TCP_SND_BUF_SIZE`, `mtu > IP_HDR_SIZE_MAX + 20` and neither
`malloc`, `ip_tx` nor the clock failing, `tcp_api_send(soc, buf, len)` returns `len`,
advances `snd.nxt` by `len` modulo `2^32`, appends to `txq` PSH|ACK segments with
non-empty payloads of at most `mtu - IP_HDR_SIZE_MAX - 20` bytes whose sequence numbers
run consecutively from the former `snd.nxt` and whose payloads concatenate to `buf`,
and sets `timeout = now + USER_TIMEOUT` when `len > 0`; when `len = 0` it leaves
`timeout` as it was. -/
theorem tcp_api_send_queues_all (env : Env) (w : World) (soc : Int) (i : Slot)
    (buf : List Nat) (now : timeval) (n : netif)
    (hsoc : socket_slot soc = some i)
    (hused : (w.cb_table i).used = true)
    (hstate : (w.cb_table i).state = TCP_CB_STATE_ESTABLISHED
      ∨ (w.cb_table i).state = TCP_CB_STATE_CLOSE_WAIT)
    (hroom : sub32 (w.cb_table i).snd.nxt (w.cb_table i).snd.una + buf.length
      ≤ TCP_SND_BUF_SIZE)
    (hif : (w.cb_table i).iface = some n)
    (hmtu : IP_HDR_SIZE_MAX + 20 < n.mtu) (hmtu16 : n.mtu < 65536)
    (hnxt : (w.cb_table i).snd.nxt < 2 ^ 32)
    (hmalloc : ∀ k, env.malloc k = true) (hip : ∀ k, env.ip_tx k = true)
    (hclk : ∀ k, env.gettimeofday k = some now) :
    ∃ w' new,
      tcp_api_send env w soc buf = some (api_result.ret (Int.ofNat buf.length), w')
      ∧ (w'.cb_table i).snd.nxt = ((w.cb_table i).snd.nxt + buf.length) % 2 ^ 32
      ∧ (w'.cb_table i).timeout
          = (if buf.length = 0 then (w.cb_table i).timeout else now.tv_sec + USER_TIMEOUT)
      ∧ (w'.cb_table i).txq.entries = (w.cb_table i).txq.entries ++ new
      ∧ (∀ e ∈ new, e.segment.flg = TCP_FLG_PSH ||| TCP_FLG_ACK
          ∧ 0 < e.data.length ∧ e.data.length ≤ n.mtu - IP_HDR_SIZE_MAX - 20)
      ∧ (new.map (fun e => e.data)).flatten = buf
      ∧ txq_consecutive (w.cb_table i).snd.nxt new := by
  unfold tcp_api_send
  simp only [hsoc, hused, Bool.not_true, Bool.false_eq_true, if_false]
  by_cases hlen : buf.length = 0
  · have hb : buf = [] := List.length_eq_zero.mp hlen
    subst hb
    refine ⟨{ w with tick := w.tick + 1 }, [], ?_, ?_, ?_, ?_, ?_, rfl, trivial⟩
    · unfold tcp_api_send_next
      rcases hstate with h | h <;> simp [h, hclk]
    · show (w.cb_table i).snd.nxt = _
      simp only [List.length_nil, Nat.add_zero]
      exact (Nat.mod_eq_of_lt hnxt).symm
    · simp
    · simp
    · intro e he
      cases he
  · obtain ⟨w', new, h1, h2, h3, h4, h5, h6, h7⟩ := tcp_api_send_next_all env i now n hmalloc hip
      hclk hmtu hmtu16 buf.length buf w 0 (by omega) (by omega) hstate hif hnxt hroom
    rw [Nat.zero_add] at h1
    exact ⟨w', new, h1, h2, by rw [if_neg hlen]; exact h3, h4, h5, h6, h7⟩

/-- C10 (amended) at a concrete input: three bytes sent on `world_established`. -/
theorem tcp_api_send_queues_all_witness :
    ∃ w' new,
      tcp_api_send env_ok world_established 0 [1, 2, 3] = some (api_result.ret 3, w')
      ∧ (w'.cb_table 0).snd.nxt = 103
      ∧ (w'.cb_table 0).timeout = 1020
      ∧ (w'.cb_table 0).txq.entries = new
      ∧ (∀ e ∈ new, e.segment.flg = TCP_FLG_PSH ||| TCP_FLG_ACK
          ∧ 0 < e.data.length ∧ e.data.length ≤ 1420)
      ∧ (new.map (fun e => e.data)).flatten = [1, 2, 3]
      ∧ txq_consecutive 100 new :=
  tcp_api_send_queues_all env_ok world_established 0 0 [1, 2, 3] { tv_sec := 1000, tv_usec := 0 }
    netif0 (by decide) (by decide) (by decide) (by decide) (by decide) (by decide) (by decide)
    (by decide) (fun _ => rfl) (fun _ => rfl) (fun _ => rfl)

/-! ## Socket handles -/

/-- A handle designates slot `i` exactly when it is the index of `i`. -/
theorem socket_slot_iff (soc : Int) (i : Slot) :
    socket_slot soc = some i ↔ (i.val : Int) = soc := by
  unfold socket_slot
  constructor
  · intro h
    split at h
    · rename_i hs
      have := Option.some.inj h
      subst this
      show ((soc.toNat : Nat) : Int) = soc
      omega
    · exact absurd h (by simp)
  · intro h
    have hi : i.val < 128 := i.isLt
    have hs : 0 ≤ soc ∧ soc < 128 := by omega
    rw [dif_pos hs]
    congr 1
    apply Fin.ext
    show soc.toNat = i.val
    omega

/-- A handle is invalid exactly when it is the index of no slot. -/
theorem socket_slot_none (soc : Int) :
    socket_slot soc = none ↔ ¬ ∃ i : Slot, (i.val : Int) = soc := by
  constructor
  · intro h ⟨i, hi⟩
    rw [(socket_slot_iff soc i).mpr hi] at h
    exact absurd h (by simp)
  · intro h
    cases hs : socket_slot soc with
    | none => rfl
    | some i => exact absurd ⟨i, (socket_slot_iff soc i).mp hs⟩ h

/-- The first element of `List.finRange n` that satisfies `p` is the smallest index that
does. -/
theorem find_finRange_first {n : Nat} (p : Fin n → Bool) (i : Fin n)
    (h : (List.finRange n).find? p = some i) :
    p i = true ∧ ∀ j : Fin n, j < i → p j = false := by
  rw [List.find?_eq_some] at h
  obtain ⟨hp, as, bs, hl, has⟩ := h
  refine ⟨hp, fun j hj => ?_⟩
  have hmem : j ∈ List.finRange n := List.mem_finRange j
  rw [hl] at hmem
  have hsorted : (List.finRange n).Pairwise (· < ·) := List.pairwise_lt_finRange n
  rw [hl] at hsorted
  rcases List.mem_append.mp hmem with h1 | h1
  · simpa using has j h1
  · rcases List.mem_cons.mp h1 with h2 | h2
    · exact absurd h2 (Fin.ne_of_lt hj)
    · have := (List.pairwise_cons.mp (List.pairwise_append.mp hsorted).2.1).1 j h2
      exact absurd hj (not_lt.mpr (le_of_lt this))

/-! ## C13: `tcp_api_open` takes the first free block -/

/-- C13: either some block is free, and then `tcp_api_open` returns the smallest index `i`
of a free block (`!used && state == CLOSED`) and the table differs from the one before only
in `used = 1` of block `i`; or no block is free, and then it returns -1 with the table
unchanged.  So -1 is returned exactly when no block is free. -/
theorem tcp_api_open_first_free (w : World) :
    ((∃ i : Slot, IS_FREE_CB (w.cb_table i) = true
          ∧ (∀ j : Slot, j < i → IS_FREE_CB (w.cb_table j) = false)
          ∧ tcp_api_open w = (Int.ofNat i.val, w.set i { w.cb_table i with used := true }))
        ∨ ((∀ i : Slot, IS_FREE_CB (w.cb_table i) = false) ∧ tcp_api_open w = (-1, w)))
      ∧ ((tcp_api_open w).1 = -1 ↔ ∀ i : Slot, IS_FREE_CB (w.cb_table i) = false) := by
  have key : (∃ i : Slot, IS_FREE_CB (w.cb_table i) = true
        ∧ (∀ j : Slot, j < i → IS_FREE_CB (w.cb_table j) = false)
        ∧ tcp_api_open w = (Int.ofNat i.val, w.set i { w.cb_table i with used := true }))
      ∨ ((∀ i : Slot, IS_FREE_CB (w.cb_table i) = false) ∧ tcp_api_open w = (-1, w)) := by
    unfold tcp_api_open
    cases h : (List.finRange TCP_CB_TABLE_SIZE).find? (fun i => IS_FREE_CB (w.cb_table i)) with
    | none =>
      right
      rw [List.find?_eq_none] at h
      exact ⟨fun i => by simpa using h i (List.mem_finRange i), rfl⟩
    | some i =>
      left
      obtain ⟨h1, h2⟩ := find_finRange_first _ i h
      exact ⟨i, h1, h2, rfl⟩
  refine ⟨key, ?_⟩
  rcases key with ⟨i, h1, _, h3⟩ | ⟨h1, h2⟩
  · rw [h3]
    constructor
    · intro h
      have h' : ((i.val : Nat) : Int) = -1 := h
      omega
    · intro h
      rw [h i] at h1
      exact absurd h1 (by simp)
  · rw [h2]
    exact ⟨fun _ => h1, fun _ => rfl⟩

/-! ## C12: `tcp_api_bind` -/

/-- The duplicate-port loop of `tcp_api_bind` finds nothing exactly when no slot of the table
holds the port. -/
theorem port_scan_iff (w : World) (p : Nat) :
    (List.finRange TCP_CB_TABLE_SIZE).any (fun j => (w.cb_table j).port == p) = false
      ↔ ∀ j : Slot, (w.cb_table j).port ≠ p := by
  rw [← Bool.not_eq_true, List.any_eq_true]
  constructor
  · intro h j hj
    exact h ⟨j, List.mem_finRange j, by simpa using hj⟩
  · intro h ⟨j, _, hj⟩
    exact h j (by simpa using hj)

/-- C12: `tcp_api_bind(soc, port)` returns 0 exactly when `soc` is the index of a slot, no
slot of the whole table (used or free, slot `soc` included) has `port == hton16(port)`, and
slot `soc` is used and CLOSED; when it returns 0 the table differs from the one before only
in `port = hton16(port)` of slot `soc`; in every other case it returns -1 and the table is
unchanged.  In particular `bind` with port 0 returns -1 whenever some slot has port 0. -/
theorem tcp_api_bind_iff (w : World) (soc : Int) (port : Nat) :
    ((tcp_api_bind w soc port).1 = 0 ↔
        ∃ i : Slot, (i.val : Int) = soc ∧ (∀ j : Slot, (w.cb_table j).port ≠ hton16 port)
          ∧ (w.cb_table i).used = true ∧ (w.cb_table i).state = TCP_CB_STATE_CLOSED)
      ∧ (∀ i : Slot, (i.val : Int) = soc → (tcp_api_bind w soc port).1 = 0 →
          (tcp_api_bind w soc port).2 = w.set i { w.cb_table i with port := hton16 port })
      ∧ ((tcp_api_bind w soc port).1 ≠ 0 → tcp_api_bind w soc port = (-1, w))
      ∧ ((∃ j : Slot, (w.cb_table j).port = 0) → tcp_api_bind w soc 0 = (-1, w)) := by
  have key : ∀ port : Nat,
      ((∃ i : Slot, (i.val : Int) = soc ∧ (∀ j : Slot, (w.cb_table j).port ≠ hton16 port)
          ∧ (w.cb_table i).used = true ∧ (w.cb_table i).state = TCP_CB_STATE_CLOSED
          ∧ tcp_api_bind w soc port = (0, w.set i { w.cb_table i with port := hton16 port }))
        ∨ ((¬ ∃ i : Slot, (i.val : Int) = soc ∧ (∀ j : Slot, (w.cb_table j).port ≠ hton16 port)
          ∧ (w.cb_table i).used = true ∧ (w.cb_table i).state = TCP_CB_STATE_CLOSED)
          ∧ tcp_api_bind w soc port = (-1, w))) := by
    intro port
    unfold tcp_api_bind
    cases hs : socket_slot soc with
    | none =>
      right
      refine ⟨?_, rfl⟩
      rintro ⟨i, hi, _⟩
      exact (socket_slot_none soc).mp hs ⟨i, hi⟩
    | some i =>
      have hi := (socket_slot_iff soc i).mp hs
      have huniq : ∀ k : Slot, (k.val : Int) = soc → k = i := by
        intro k hk
        apply Fin.ext
        omega
      simp only []
      cases hany : (List.finRange TCP_CB_TABLE_SIZE).any
          (fun j => (w.cb_table j).port == hton16 port) with
      | true =>
        right
        refine ⟨?_, by simp⟩
        rintro ⟨k, _, hk, _⟩
        have := (port_scan_iff w (hton16 port)).mpr hk
        rw [this] at hany
        exact absurd hany (by simp)
      | false =>
        have hfree := (port_scan_iff w (hton16 port)).mp hany
        by_cases hu : (w.cb_table i).used = true ∧ (w.cb_table i).state = TCP_CB_STATE_CLOSED
        · left
          refine ⟨i, hi, hfree, hu.1, hu.2, ?_⟩
          simp [hu.1, hu.2]
        · right
          refine ⟨?_, ?_⟩
          · rintro ⟨k, hk, _, h1, h2⟩
            rw [huniq k hk] at h1 h2
            exact hu ⟨h1, h2⟩
          · have : (!(w.cb_table i).used || (w.cb_table i).state != TCP_CB_STATE_CLOSED) = true := by
              by_cases h1 : (w.cb_table i).used = true
              · have h2 : ¬ (w.cb_table i).state = TCP_CB_STATE_CLOSED := fun h => hu ⟨h1, h⟩
                simp [h1, h2]
              · simp [h1]
            simp only [Bool.false_eq_true, if_false, this, if_true]
  refine ⟨?_, ?_, ?_, ?_⟩
  · rcases key port with ⟨i, h1, h2, h3, h4, h5⟩ | ⟨h1, h2⟩
    · rw [h5]
      exact ⟨fun _ => ⟨i, h1, h2, h3, h4⟩, fun _ => rfl⟩
    · rw [h2]
      exact ⟨fun h => absurd h (by simp), fun h => absurd h h1⟩
  · intro i hi h0
    rcases key port with ⟨k, h1, _, _, _, h5⟩ | ⟨_, h2⟩
    · have : k = i := by apply Fin.ext; omega
      subst this
      rw [h5]
    · rw [h2] at h0
      exact absurd h0 (by simp)
  · intro h0
    rcases key port with ⟨k, _, _, _, _, h5⟩ | ⟨_, h2⟩
    · rw [h5] at h0
      exact absurd rfl h0
    · exact h2
  · rintro ⟨j, hj⟩
    rcases key 0 with ⟨k, _, h2, _⟩ | ⟨_, h2⟩
    · exact absurd hj (h2 j)
    · exact h2

/-! ## C14: the ephemeral port of `tcp_api_connect` -/

/-- The inner loop of the port scan breaks off at candidate `p` exactly when a non-free block
holds `hton16(p)`. -/
theorem source_port_taken_iff (w : World) (p : Nat) (hp : p ≤ TCP_SOURCE_PORT_MAX) :
    source_port_taken w p = true
      ↔ ∃ j : Slot, IS_FREE_CB (w.cb_table j) = false ∧ (w.cb_table j).port = hton16 p := by
  have hp2 : p ≤ 65535 := hp
  have hu : u16 p = p := Nat.mod_eq_of_lt (by show p < 65536; omega)
  unfold source_port_taken
  rw [List.any_eq_true, hu]
  constructor
  · rintro ⟨j, _, hj⟩
    exact ⟨j, by simpa using hj⟩
  · rintro ⟨j, hj⟩
    exact ⟨j, List.mem_finRange j, by simpa using hj⟩

/-- The outer loop of the port scan over the `n` candidates from `p` on: it stops at the
first candidate no non-free block holds, and runs to the end when every candidate is held. -/
theorem find_source_port_from_spec (w : World) : ∀ n p : Nat,
    (∀ r, find_source_port_from w n p = some r →
        p ≤ r ∧ r < p + n ∧ source_port_taken w r = false
          ∧ ∀ q, p ≤ q → q < r → source_port_taken w q = true)
      ∧ (find_source_port_from w n p = none →
          ∀ q, p ≤ q → q < p + n → source_port_taken w q = true) := by
  intro n
  induction n with
  | zero =>
    intro p
    refine ⟨fun r h => ?_, fun _ q h1 h2 => ?_⟩
    · exact absurd h (by simp [find_source_port_from])
    · omega
  | succ n ih =>
    intro p
    unfold find_source_port_from
    by_cases ht : source_port_taken w p = true
    · simp only [ht, if_true]
      obtain ⟨ih1, ih2⟩ := ih (p + 1)
      refine ⟨fun r h => ?_, fun h q h1 h2 => ?_⟩
      · obtain ⟨a, b, c, d⟩ := ih1 r h
        refine ⟨by omega, by omega, c, fun q h1 h2 => ?_⟩
        by_cases hq : q = p
        · rw [hq]; exact ht
        · exact d q (by omega) h2
      · by_cases hq : q = p
        · rw [hq]; exact ht
        · exact ih2 h q (by omega) (by omega)
    · have hf : source_port_taken w p = false := by simpa using ht
      simp only [hf, Bool.false_eq_true, if_false]
      refine ⟨fun r h => ?_, fun h => absurd h (by simp)⟩
      have := Option.some.inj h
      subst this
      exact ⟨le_refl _, by omega, hf, fun q h1 h2 => by omega⟩

/-- No port of the ephemeral range has the network-order value 0. -/
theorem hton16_source_port_ne_zero (p : Nat) (h1 : TCP_SOURCE_PORT_MIN ≤ p)
    (h2 : p ≤ TCP_SOURCE_PORT_MAX) : hton16 (u16 p) ≠ 0 := by
  unfold hton16 u16
  have a : 49152 ≤ p := h1
  have b : p ≤ 65535 := h2
  omega

/-- C14: `tcp_api_connect` on a used CLOSED block `i` whose port is 0 (the clock being
readable), with `lo = 49152 + time(NULL) mod 1024`.  If `p` is the smallest number in
`[lo, 65535]` such that no non-free block has `port == hton16(p)`, block `i` has
`port = hton16(p)` afterwards.  If every number in `[lo, 65535]` is the port of some
non-free block, the call returns -1 and the table is as before: the port of block `i` is
still 0 and its state still CLOSED. -/
theorem tcp_api_connect_source_port (env : Env) (w : World) (soc : Int) (i : Slot)
    (addr port : Nat) (now : timeval)
    (hsoc : (i.val : Int) = soc)
    (hused : (w.cb_table i).used = true)
    (hstate : (w.cb_table i).state = TCP_CB_STATE_CLOSED)
    (hport : (w.cb_table i).port = 0)
    (hnow : env.gettimeofday w.tick = some now) :
    (∀ p : Nat, TCP_SOURCE_PORT_MIN + env.time (w.tick + 1) % 1024 ≤ p →
        p ≤ TCP_SOURCE_PORT_MAX →
        (∀ j : Slot, IS_FREE_CB (w.cb_table j) = false → (w.cb_table j).port ≠ hton16 p) →
        (∀ q : Nat, TCP_SOURCE_PORT_MIN + env.time (w.tick + 1) % 1024 ≤ q → q < p →
          ∃ j : Slot, IS_FREE_CB (w.cb_table j) = false ∧ (w.cb_table j).port = hton16 q) →
        ((tcp_api_connect env w soc addr port).2.cb_table i).port = hton16 p)
      ∧ ((∀ q : Nat, TCP_SOURCE_PORT_MIN + env.time (w.tick + 1) % 1024 ≤ q →
            q ≤ TCP_SOURCE_PORT_MAX →
            ∃ j : Slot, IS_FREE_CB (w.cb_table j) = false ∧ (w.cb_table j).port = hton16 q) →
          (tcp_api_connect env w soc addr port).1 = api_result.ret (-1)
            ∧ (tcp_api_connect env w soc addr port).2.cb_table = w.cb_table
            ∧ ((tcp_api_connect env w soc addr port).2.cb_table i).port = 0
            ∧ ((tcp_api_connect env w soc addr port).2.cb_table i).state
                = TCP_CB_STATE_CLOSED) := by
  have hs := (socket_slot_iff soc i).mpr hsoc
  have hoff : env.time (w.tick + 1) % 1024 < 1024 := Nat.mod_lt _ (by decide)
  obtain ⟨sp1, sp2⟩ := find_source_port_from_spec
    { w with tick := w.tick + 1 + 1 }
    (TCP_SOURCE_PORT_MAX + 1 - (TCP_SOURCE_PORT_MIN + env.time (w.tick + 1) % 1024))
    (TCP_SOURCE_PORT_MIN + env.time (w.tick + 1) % 1024)
  have hst : ((w.cb_table i).state != TCP_CB_STATE_CLOSED) = false := by simp [hstate]
  cases hf : find_source_port { w with tick := w.tick + 1 + 1 } (env.time (w.tick + 1) % 1024) with
  | none =>
    have hres : tcp_api_connect env w soc addr port
        = (api_result.ret (-1), { w with tick := w.tick + 1 + 1 }) := by
      unfold tcp_api_connect
      simp only [hs, hused, hst, hnow, hport, hf, Bool.not_true, Bool.or_self,
        Bool.false_eq_true, if_false, if_true]
    refine ⟨fun p h1 h2 h3 _ => ?_, fun _ => ?_⟩
    · have ht := sp2 hf p h1 (by show p < _; have : p ≤ 65535 := h2; omega)
      obtain ⟨j, hj1, hj2⟩ := (source_port_taken_iff _ p h2).mp ht
      exact absurd hj2 (h3 j hj1)
    · rw [hres]
      exact ⟨rfl, rfl, hport, hstate⟩
  | some r =>
    obtain ⟨r1, r2, r3, r4⟩ := sp1 r hf
    have r2' : r ≤ TCP_SOURCE_PORT_MAX := by
      show r ≤ 65535
      have : r < TCP_SOURCE_PORT_MIN + env.time (w.tick + 1) % 1024
          + (65535 + 1 - (TCP_SOURCE_PORT_MIN + env.time (w.tick + 1) % 1024)) := r2
      have : TCP_SOURCE_PORT_MIN = 49152 := rfl
      omega
    have hne := hton16_source_port_ne_zero r (le_trans (Nat.le_add_right _ _) r1) r2'
    have hres : ((tcp_api_connect env w soc addr port).2.cb_table i).port = hton16 (u16 r) := by
      unfold tcp_api_connect
      simp only [hs, hused, hst, hnow, hport, hf, Bool.not_true, Bool.or_self,
        Bool.false_eq_true, if_false, if_true, World.modify, World.set_same, hne]
      split
      · simp [World.set_same]
      · split <;> simp [World.set_same]
    have hur : u16 r = r := Nat.mod_eq_of_lt (by show r < 65536; have : r ≤ 65535 := r2'; omega)
    rw [hur] at hres
    have hfree : ∀ j : Slot, IS_FREE_CB (w.cb_table j) = false → (w.cb_table j).port ≠ hton16 r := by
      intro j hj1 hj2
      have := (source_port_taken_iff { w with tick := w.tick + 1 + 1 } r r2').mpr ⟨j, hj1, hj2⟩
      rw [r3] at this
      exact absurd this (by simp)
    refine ⟨fun p h1 h2 h3 h4 => ?_, fun h => ?_⟩
    · have hpr : p = r := by
        rcases Nat.lt_trichotomy p r with hlt | heq | hgt
        · have ht := r4 p h1 hlt
          obtain ⟨j, hj1, hj2⟩ := (source_port_taken_iff _ p h2).mp ht
          exact absurd hj2 (h3 j hj1)
        · exact heq
        · obtain ⟨j, hj1, hj2⟩ := h4 r r1 hgt
          exact absurd hj2 (hfree j hj1)
      rw [hpr]
      exact hres
    · obtain ⟨j, hj1, hj2⟩ := h r r1 r2'
      exact absurd hj2 (hfree j hj1)

set_option maxRecDepth 100000 in
/-- C14 at a concrete input: on the table after `tcp_api_open()` the clock reads 0 modulo
1024, no block holds port 49152, and `tcp_api_connect(0, 10.0.0.2, 80)` gives block 0 the
port `hton16(49152)`. -/
theorem tcp_api_connect_source_port_witness :
    (((tcp_api_open World.zero).2.cb_table 0).used,
        ((tcp_api_open World.zero).2.cb_table 0).state,
        ((tcp_api_open World.zero).2.cb_table 0).port) = (true, TCP_CB_STATE_CLOSED, 0)
      ∧ TCP_SOURCE_PORT_MIN + env_ok.time ((tcp_api_open World.zero).2.tick + 1) % 1024 = 49152
      ∧ ((tcp_api_connect env_ok (tcp_api_open World.zero).2 0 167772162 80).2.cb_table 0).port
          = hton16 49152 :=
  ⟨by decide, by decide,
    (tcp_api_connect_source_port env_ok (tcp_api_open World.zero).2 0 0 167772162 80
      { tv_sec := 1000, tv_usec := 0 } rfl (by decide) (by decide) (by decide) rfl).1 49152
      (by decide) (by decide) (by decide)
      (fun q h1 h2 => absurd h2 (Nat.not_lt.mpr h1))⟩

/-! ## C15: the acceptability test near `2^32` -/

set_option maxRecDepth 100000 in
/-- C15, evaluated at a wrapping `rcv.nxt`: a SYN with `seq = 4294967285` to the listener of
port 7 leaves the child in SYN_RCVD with `rcv.nxt = 4294967286` and `rcv.wnd = 65535`, so
`rcv.nxt + rcv.wnd` wraps to 65525.  The peer's next segment, ten bytes at
`seq = 4294967286 = rcv.nxt` with `plen <= rcv.wnd`, fails the acceptability test: it is
answered with an ACK and dropped, and the block stays in SYN_RCVD. -/
theorem near_wrap_text_rejected :
    tcp_checksum 167772162 167772161 segment_syn_high segment_syn_high.length = 0
      ∧ tcp_checksum 167772162 167772161 segment_text_high segment_text_high.length = 0
      ∧ (world_syn_rcvd_high.cb_table 1).state = TCP_CB_STATE_SYN_RCVD
      ∧ (world_syn_rcvd_high.cb_table 1).rcv.nxt = 4294967286
      ∧ (world_syn_rcvd_high.cb_table 1).rcv.wnd = 65535
      ∧ ntoh32 (tcp_hdr.ofBytes segment_text_high).seq = 4294967286
      ∧ TCP_DATA_LEN (tcp_hdr.ofBytes segment_text_high) segment_text_high.length = 10
      ∧ segment_acceptable (world_syn_rcvd_high.cb_table 1) (tcp_hdr.ofBytes segment_text_high)
          (TCP_DATA_LEN (tcp_hdr.ofBytes segment_text_high) segment_text_high.length) = false
      ∧ ((tcp_rx env_ok world_syn_rcvd_high segment_text_high 167772162 167772161 netif0).cb_table
          1).state = TCP_CB_STATE_SYN_RCVD
      ∧ (tcp_rx env_ok world_syn_rcvd_high segment_text_high 167772162 167772161 netif0).tx_log
          = world_syn_rcvd_high.tx_log ++ [tx_call.mk 1 7001 4294967286 TCP_FLG_ACK []] := by
  decide

/-- C15, amended: for `rcv.nxt < 2^32`, `0 < rcv.wnd < 2^16` and `0 < plen <= rcv.wnd`, a
segment with `seg.seq = rcv.nxt` passes the acceptability test of
`tcp_event_segment_arrives` exactly when `rcv.nxt + rcv.wnd < 2^32`, that is, when the
32-bit sum does not wrap. -/
theorem segment_acceptable_at_rcv_nxt (cb : tcp_cb) (hdr : tcp_hdr) (plen : Nat)
    (hnxt : cb.rcv.nxt < 2 ^ 32) (hwnd : 0 < cb.rcv.wnd) (hwnd16 : cb.rcv.wnd < 2 ^ 16)
    (hplen : 0 < plen) (hle : plen ≤ cb.rcv.wnd) (hseq : ntoh32 hdr.seq = cb.rcv.nxt) :
    (segment_acceptable cb hdr plen = true ↔ cb.rcv.nxt + cb.rcv.wnd < 2 ^ 32) := by
  unfold segment_acceptable u32 u64
  simp only [gt_iff_lt, hplen, hwnd, if_true, hseq, le_refl, decide_True, Bool.true_and,
    Bool.or_eq_true, decide_eq_true_eq]
  have h32 : (2 : Nat) ^ 32 = 4294967296 := by norm_num
  have h16 : (2 : Nat) ^ 16 = 65536 := by norm_num
  rw [h32] at hnxt ⊢
  rw [h16] at hwnd16
  generalize cb.rcv.nxt = n at *
  generalize cb.rcv.wnd = d at *
  constructor
  · intro h
    by_contra hc
    have e1 : (n + d) % 4294967296 = n + d - 4294967296 := by omega
    have e2 : (n + plen - 1) % 18446744073709551616 = n + plen - 1 := by omega
    rw [e1, e2] at h
    omega
  · intro h
    left
    have e1 : (n + d) % 4294967296 = n + d := by omega
    rw [e1]
    omega

set_option maxRecDepth 100000 in
/-- C15 at a concrete input without wrap: three bytes at `seq = 500 = rcv.nxt` with
`rcv.wnd = 65535` pass the test. -/
theorem segment_acceptable_at_rcv_nxt_witness :
    ((world_established.cb_table 0).rcv.nxt, (world_established.cb_table 0).rcv.wnd,
        ntoh32 (tcp_hdr.ofBytes segment_text3).seq,
        TCP_DATA_LEN (tcp_hdr.ofBytes segment_text3) segment_text3.length) = (500, 65535, 500, 3)
      ∧ segment_acceptable (world_established.cb_table 0) (tcp_hdr.ofBytes segment_text3) 3
          = true :=
  ⟨by decide,
    (segment_acceptable_at_rcv_nxt (world_established.cb_table 0) (tcp_hdr.ofBytes segment_text3)
      3 (by decide) (by decide) (by decide) (by decide) (by decide) (by decide)).mpr (by decide)⟩

/-! ## C16: the acceptability test and the four cases of RFC 793 -/

/-- With text and a window, the second disjunct of the test in `tcp_event_segment_arrives`
adds nothing to the first: the value is `rcv.nxt <= seq < rcv.nxt + rcv.wnd`. -/
theorem segment_acceptable_text (cb : tcp_cb) (hdr : tcp_hdr) (plen : Nat)
    (hplen : 0 < plen) (hwnd : 0 < cb.rcv.wnd)
    (hs : ntoh32 hdr.seq + plen < 2 ^ 32) :
    segment_acceptable cb hdr plen
      = decide (cb.rcv.nxt ≤ ntoh32 hdr.seq ∧ ntoh32 hdr.seq < u32 (cb.rcv.nxt + cb.rcv.wnd)) := by
  unfold segment_acceptable u64
  simp only [gt_iff_lt, hplen, hwnd, if_true]
  have h32 : (2 : Nat) ^ 32 = 4294967296 := by norm_num
  rw [h32] at hs
  have e2 : (ntoh32 hdr.seq + plen - 1) % 18446744073709551616 = ntoh32 hdr.seq + plen - 1 := by
    omega
  rw [e2]
  generalize u32 (cb.rcv.nxt + cb.rcv.wnd) = t
  by_cases h1 : cb.rcv.nxt ≤ ntoh32 hdr.seq
  · by_cases h2 : ntoh32 hdr.seq < t
    · simp [h1, h2]
    · have h3 : ¬ ntoh32 hdr.seq + plen - 1 < t := by omega
      simp [h1, h2, h3]
  · simp [h1]

/-- Where the test of `tcp_event_segment_arrives` and the four-case test agree: when no
32-bit sum wraps they give the same value unless the segment has text, the window is open
and the segment starts before `rcv.nxt`. -/
theorem segment_acceptable_eq_rfc793 (cb : tcp_cb) (hdr : tcp_hdr) (plen : Nat)
    (hw : cb.rcv.nxt + cb.rcv.wnd < 2 ^ 32) (hs : ntoh32 hdr.seq + plen < 2 ^ 32)
    (h : plen = 0 ∨ cb.rcv.wnd = 0 ∨ cb.rcv.nxt ≤ ntoh32 hdr.seq) :
    segment_acceptable cb hdr plen
      = rfc793_acceptable cb.rcv.nxt cb.rcv.wnd (ntoh32 hdr.seq) plen := by
  have h32 : (2 : Nat) ^ 32 = 4294967296 := by norm_num
  rw [h32] at hw hs
  have e1 : u32 (cb.rcv.nxt + cb.rcv.wnd) = cb.rcv.nxt + cb.rcv.wnd := Nat.mod_eq_of_lt hw
  by_cases hp : plen = 0
  · unfold segment_acceptable rfc793_acceptable
    rw [e1]
    by_cases hd : cb.rcv.wnd = 0
    · simp [hp, hd]
    · have hd' : 0 < cb.rcv.wnd := Nat.pos_of_ne_zero hd
      simp [hp, hd, hd']
  · have hp' : 0 < plen := Nat.pos_of_ne_zero hp
    by_cases hd : cb.rcv.wnd = 0
    · unfold segment_acceptable rfc793_acceptable
      simp [hp, hd, hp']
    · have hd' : 0 < cb.rcv.wnd := Nat.pos_of_ne_zero hd
      have hle : cb.rcv.nxt ≤ ntoh32 hdr.seq := by
        rcases h with h | h | h
        · exact absurd h hp
        · exact absurd h hd
        · exact h
      rw [segment_acceptable_text cb hdr plen hp' hd' (by rw [h32]; exact hs), e1]
      unfold rfc793_acceptable
      simp only [hp, hd, if_false]
      by_cases h2 : ntoh32 hdr.seq < cb.rcv.nxt + cb.rcv.wnd
      · simp [hle, h2]
      · have h3 : ¬ ntoh32 hdr.seq + plen - 1 < cb.rcv.nxt + cb.rcv.wnd := by omega
        simp [hle, h2, h3]

set_option maxRecDepth 100000 in
/-- C16, evaluated: with `rcv.nxt = 500` and `rcv.wnd = 65535`, a segment of twenty bytes at
`seq = 490` ends at 509, inside the window, and no sum wraps.  The four-case test accepts
it by its second alternative, `rcv.nxt <= seq + plen - 1 < rcv.nxt + rcv.wnd`; the test of
`tcp_event_segment_arrives` asks `rcv.nxt <= seq` in both alternatives and rejects it: the
segment is answered with an ACK and dropped before its acknowledgement is looked at. -/
theorem overlapping_segment_rejected :
    ((world_established.cb_table 0).state, (world_established.cb_table 0).rcv.nxt,
        (world_established.cb_table 0).rcv.wnd) = (TCP_CB_STATE_ESTABLISHED, 500, 65535)
      ∧ ntoh32 (tcp_hdr.ofBytes segment_overlap).seq = 490
      ∧ TCP_DATA_LEN (tcp_hdr.ofBytes segment_overlap) segment_overlap.length = 20
      ∧ rfc793_acceptable 500 65535 490 20 = true
      ∧ segment_acceptable (world_established.cb_table 0) (tcp_hdr.ofBytes segment_overlap)
          (TCP_DATA_LEN (tcp_hdr.ofBytes segment_overlap) segment_overlap.length) = false
      ∧ (tcp_event_segment_arrives env_ok world_established 0 segment_overlap).tx_log
          = [tx_call.mk 0 100 500 TCP_FLG_ACK []]
      ∧ ((tcp_event_segment_arrives env_ok world_established 0 segment_overlap).cb_table 0).snd
          = (world_established.cb_table 0).snd := by
  decide

/-! ## C17: in-order text and the room left in the window -/

/-- C17, evaluated: after the 65495-byte segment the ESTABLISHED block of `world_data1` has
`rcv.wnd = 40`, that is 65495 bytes buffered.  The next segment has `seg.seq = rcv.nxt`,
41 bytes of text and passes the acceptability test, so its text is copied although
`plen = 41 > rcv.wnd = 40`: the copy ends at offset 65536, one past the 65535-byte buffer,
`rcv.wnd - plen` wraps in 16 bits to 65535, and the count of buffered bytes
`65535 - rcv.wnd` drops from 65495 to 0 instead of growing by 41. -/
theorem text_longer_than_window_copied :
    (world_data1.cb_table 0).state = TCP_CB_STATE_ESTABLISHED
      ∧ (world_data1.cb_table 0).rcv.wnd = 40
      ∧ segment_acceptable (world_data1.cb_table 0) (tcp_hdr.ofBytes segment_data2)
          (TCP_DATA_LEN (tcp_hdr.ofBytes segment_data2) segment_data2.length) = true
      ∧ TCP_DATA_LEN (tcp_hdr.ofBytes segment_data2) segment_data2.length = 41
      ∧ ntoh32 (tcp_hdr.ofBytes segment_data2).seq = (world_data1.cb_table 0).rcv.nxt
      ∧ ¬ (TCP_DATA_LEN (tcp_hdr.ofBytes segment_data2) segment_data2.length
            ≤ (world_data1.cb_table 0).rcv.wnd)
      ∧ WINDOW_SIZE < WINDOW_SIZE - (world_data1.cb_table 0).rcv.wnd
            + TCP_DATA_LEN (tcp_hdr.ofBytes segment_data2) segment_data2.length
      ∧ (tcp_event_segment_arrives env_ok world_data1 0 segment_data2).cb_table 0
          = world_data2.cb_table 0
      ∧ (world_data2.cb_table 0).rcv.nxt = 65995 + 41
      ∧ (world_data2.cb_table 0).rcv.wnd = 65535
      ∧ WINDOW_SIZE - (world_data1.cb_table 0).rcv.wnd = 65495
      ∧ WINDOW_SIZE - (world_data2.cb_table 0).rcv.wnd = 0 := by
  obtain ⟨a1, _, a3, a4, _, _⟩ := world_data1_cb
  obtain ⟨_, _, b3, b4, _, _⟩ := world_data2_cb
  refine ⟨a1, a4, ?_, segment_data2_hdr.2.2.2, ?_, ?_, ?_,
    congrArg (fun w => w.cb_table 0) world_data2_eq.symm, b3, b4, ?_, ?_⟩
  · exact segment_acceptable_in_order _ _ _ (by rw [segment_data2_hdr.2.2.2]; decide)
      (by rw [segment_data2_hdr.2.1, a3]) (by rw [a4]; decide) (by rw [a3, a4]; decide)
  · rw [segment_data2_hdr.2.1, a3]
  · rw [segment_data2_hdr.2.2.2, a4]; decide
  · rw [segment_data2_hdr.2.2.2, a4]; decide
  · rw [a4]; decide
  · rw [b4]; decide

/-! ## C18: `rcv.nxt` after a FIN -/

set_option maxRecDepth 100000 in
/-- C18, evaluated: on the ESTABLISHED block with `rcv.nxt = 500` an acceptable FIN|ACK at
`seq = 500` with three bytes of text arrives.  The text step buffers the bytes, advances
`rcv.nxt` to 503 and acknowledges 503; the FIN step then stores `seq + 1`, so the final
`rcv.nxt` is 501 (not `seq + plen + 1 = 504`, and below the value after the text step) and
a second ACK acknowledges 501.  For an acceptable FIN without text at `seq = 505`, ahead of
`rcv.nxt`, the final `rcv.nxt` is 506, not the former `rcv.nxt + 1 = 501`. -/
theorem fin_with_text_rewinds_rcv_nxt :
    ((world_established.cb_table 0).state, (world_established.cb_table 0).rcv.nxt)
        = (TCP_CB_STATE_ESTABLISHED, 500)
      ∧ (TCP_FLG_ISSET (tcp_hdr.ofBytes segment_fin_text).flg TCP_FLG_FIN,
          TCP_FLG_ISSET (tcp_hdr.ofBytes segment_fin_text).flg TCP_FLG_RST,
          TCP_FLG_ISSET (tcp_hdr.ofBytes segment_fin_text).flg TCP_FLG_SYN)
        = (true, false, false)
      ∧ ntoh32 (tcp_hdr.ofBytes segment_fin_text).seq = 500
      ∧ TCP_DATA_LEN (tcp_hdr.ofBytes segment_fin_text) segment_fin_text.length = 3
      ∧ segment_acceptable (world_established.cb_table 0) (tcp_hdr.ofBytes segment_fin_text) 3
          = true
      ∧ ((tcp_event_segment_arrives env_ok world_established 0 segment_fin_text).cb_table 0).rcv.wnd
          = 65532
      ∧ (tcp_event_segment_arrives env_ok world_established 0 segment_fin_text).tx_log
          = [tx_call.mk 0 100 503 TCP_FLG_ACK [], tx_call.mk 0 100 501 TCP_FLG_ACK []]
      ∧ ((tcp_event_segment_arrives env_ok world_established 0 segment_fin_text).cb_table 0).rcv.nxt
          = 501
      ∧ ((tcp_event_segment_arrives env_ok world_established 0 segment_fin_text).cb_table 0).state
          = TCP_CB_STATE_CLOSE_WAIT
      ∧ ntoh32 (tcp_hdr.ofBytes segment_fin_ahead).seq = 505
      ∧ TCP_DATA_LEN (tcp_hdr.ofBytes segment_fin_ahead) segment_fin_ahead.length = 0
      ∧ segment_acceptable (world_established.cb_table 0) (tcp_hdr.ofBytes segment_fin_ahead) 0
          = true
      ∧ ((tcp_event_segment_arrives env_ok world_established 0 segment_fin_ahead).cb_table 0).rcv.nxt
          = 506 := by
  decide

/-! ## C19: a SYN in SYN_SENT -/

set_option maxRecDepth 100000 in
/-- C19, evaluated: block 0 is in SYN_SENT with `iss = snd.una = 7000`, `snd.nxt = 7001`.  A
segment with SYN set, ACK and RST clear, `seq = 5000` and 7001 in its ack field sets
`irs = 5000` and `rcv.nxt = 5001`, but the ack field is used although the ACK bit is clear:
`snd.una` becomes 7001, the block enters ESTABLISHED (not SYN_RCVD) and an ACK with
`seq = 7001`, `ack = 5001` is sent instead of a SYN|ACK. -/
theorem syn_sent_bare_syn_establishes :
    ((world_syn_sent.cb_table 0).state, (world_syn_sent.cb_table 0).iss,
        (world_syn_sent.cb_table 0).snd.una, (world_syn_sent.cb_table 0).snd.nxt)
        = (TCP_CB_STATE_SYN_SENT, 7000, 7000, 7001)
      ∧ (TCP_FLG_ISSET (tcp_hdr.ofBytes segment_syn_only).flg TCP_FLG_SYN,
          TCP_FLG_ISSET (tcp_hdr.ofBytes segment_syn_only).flg TCP_FLG_ACK,
          TCP_FLG_ISSET (tcp_hdr.ofBytes segment_syn_only).flg TCP_FLG_RST)
        = (true, false, false)
      ∧ (ntoh32 (tcp_hdr.ofBytes segment_syn_only).seq, ntoh32 (tcp_hdr.ofBytes segment_syn_only).ack)
        = (5000, 7001)
      ∧ ((tcp_event_segment_arrives env_ok world_syn_sent 0 segment_syn_only).cb_table 0).irs = 5000
      ∧ ((tcp_event_segment_arrives env_ok world_syn_sent 0 segment_syn_only).cb_table 0).rcv.nxt
          = 5001
      ∧ ((tcp_event_segment_arrives env_ok world_syn_sent 0 segment_syn_only).cb_table 0).state
          = TCP_CB_STATE_ESTABLISHED
      ∧ ((tcp_event_segment_arrives env_ok world_syn_sent 0 segment_syn_only).cb_table 0).snd.una
          = 7001
      ∧ (tcp_event_segment_arrives env_ok world_syn_sent 0 segment_syn_only).tx_log
          = world_syn_sent.tx_log ++ [tx_call.mk 0 7001 5001 TCP_FLG_ACK []] := by
  decide

/-! ## C20: a SYN in LISTEN -/

/-- What `tcp_api_accept` does on a used listener with a queued child: it returns the index
of the child at the front of the backlog; the table differs from the one before in the
backlog of the listener, which loses its front, and in `used = 1` of the child.  No other
member of the child is written, `parent` included. -/
theorem tcp_api_accept_front (w : World) (soc : Int) (i c : Slot) (rest : List Slot)
    (hsoc : (i.val : Int) = soc)
    (hused : (w.cb_table i).used = true)
    (hstate : (w.cb_table i).state = TCP_CB_STATE_LISTEN)
    (hb : (w.cb_table i).backlog = c :: rest) :
    tcp_api_accept w soc
      = (api_result.ret (Int.ofNat c.val),
          (w.set i { w.cb_table i with backlog := rest }).modify c
            (fun ccb => { ccb with used := true })) := by
  unfold tcp_api_accept
  simp [(socket_slot_iff soc i).mpr hsoc, hused, hstate, hb, queue_pop]

/-- The calls `tcp_api_accept` refuses: an invalid handle, a block that is not used or not
in LISTEN.  It returns -1 and the table is unchanged. -/
theorem tcp_api_accept_refused (w : World) (soc : Int)
    (h : ∀ i : Slot, (i.val : Int) = soc →
      (w.cb_table i).used = false ∨ (w.cb_table i).state ≠ TCP_CB_STATE_LISTEN) :
    tcp_api_accept w soc = (api_result.ret (-1), w) := by
  unfold tcp_api_accept
  cases hs : socket_slot soc with
  | none => rfl
  | some i =>
    rcases h i ((socket_slot_iff soc i).mp hs) with h1 | h1
    · simp [h1]
    · simp [h1]

set_option maxRecDepth 100000 in
/-- C11, evaluated: the listener of slot 0 has the ESTABLISHED child of slot 1 in its
backlog.  `tcp_api_accept(0)` returns 1, empties the backlog and sets `used` of the child,
but the child's `parent` still names the listener.  The link survives the reset of the
connection by its peer, `close(1)`, `open()` (which hands out slot 1 again) and
`connect(1, 10.0.0.3, 80)`; when that active open meets a SYN of the peer and then its ACK,
the block goes from SYN_RCVD to ESTABLISHED and, having a `parent`, is pushed on the
backlog of the listener: `tcp_api_accept(0)` returns handle 1, which the application
already holds. -/
theorem accept_keeps_parent :
    ((world_child_pending.cb_table 0).used, (world_child_pending.cb_table 0).state,
        (world_child_pending.cb_table 0).backlog, (world_child_pending.cb_table 1).used,
        (world_child_pending.cb_table 1).parent)
        = (true, TCP_CB_STATE_LISTEN, [1], false, some 0)
      ∧ (tcp_api_accept world_child_pending 0).1 = api_result.ret 1
      ∧ ((world_accepted.cb_table 0).backlog, (world_accepted.cb_table 1).used,
          (world_accepted.cb_table 1).state, (world_accepted.cb_table 1).parent)
        = ([], true, TCP_CB_STATE_ESTABLISHED, some 0)
      ∧ ((world_child_reset.cb_table 1).used, (world_child_reset.cb_table 1).state)
        = (true, TCP_CB_STATE_CLOSED)
      ∧ (tcp_api_close env_ok 0 world_child_reset 1).map (fun r =>
          (r.1, (tcp_api_open r.2).1,
            (tcp_api_connect env_ok (tcp_api_open r.2).2 1 167772163 80).1))
        = some (0, 1, api_result.blocked)
      ∧ world_reconnecting.map (fun w =>
          ((w.cb_table 1).used, (w.cb_table 1).state, (w.cb_table 1).parent,
            ((tcp_rx env_ok w segment_syn_peer3 167772163 167772161 netif0).cb_table 1).state))
        = some (true, TCP_CB_STATE_SYN_SENT, some 0, TCP_CB_STATE_SYN_RCVD)
      ∧ world_requeued.map (fun w =>
          ((w.cb_table 1).used, (w.cb_table 1).state, (w.cb_table 0).state,
            (w.cb_table 0).backlog, (tcp_api_accept w 0).1))
        = some (true, TCP_CB_STATE_ESTABLISHED, TCP_CB_STATE_LISTEN, [1], api_result.ret 1) := by
  refine ⟨?_, ?_, ?_, ?_, ?_, ?_, ?_⟩ <;> decide

/-! ## C30: the pseudo-header of `tcp_checksum` -/

/-- Masking with `0xffff` keeps the low sixteen bits. -/
theorem and_ffff (x : Nat) : x &&& 0xffff = x % 65536 :=
  Nat.and_pow_two_sub_one_eq_mod x 16

/-- The value `hton16` returns is a 16-bit value. -/
theorem hton16_lt (x : Nat) : hton16 x < 65536 := by
  unfold hton16
  omega

/-- The accumulator `tcp_checksum` hands to `cksum16`; the six 16-bit terms do not overflow
32 bits. -/
theorem tcp_pseudo_eq (self peer len : Nat) :
    tcp_pseudo self peer len
      = (self / 65536) % 65536 + 2 * (self % 65536) + (peer / 65536) % 65536
        + hton16 6 + hton16 (len % 65536) := by
  unfold tcp_pseudo u32 u16
  rw [and_ffff, and_ffff, and_ffff, Nat.shiftRight_eq_div_pow, Nat.shiftRight_eq_div_pow]
  have h1 := hton16_lt (IP_PROTOCOL_TCP % 65536)
  have h2 := hton16_lt (len % 65536)
  have h3 : IP_PROTOCOL_TCP % 65536 = 6 := rfl
  rw [h3] at h1 ⊢
  have h4 : (2 : Nat) ^ 16 = 65536 := by norm_num
  rw [h4]
  omega

/-- C30: `tcp_checksum(self, peer, segment, len)` is the same for any two peer addresses
with the same bits above the low sixteen, and the accumulator passed to `cksum16` is
`hi16(self) + 2 * lo16(self) + hi16(peer) + hton16(6) + hton16(len)`, `len` being cut to 16
bits by the parameter of `hton16`. -/
theorem tcp_checksum_ignores_peer_low (self : Nat) (segment : List Nat) (len : Nat) :
    (∀ p1 p2 : Nat, p1 / 65536 = p2 / 65536 →
        tcp_checksum self p1 segment len = tcp_checksum self p2 segment len)
      ∧ (∀ peer : Nat, tcp_checksum self peer segment len
          = cksum16 segment len
              ((self / 65536) % 65536 + 2 * (self % 65536) + (peer / 65536) % 65536
                + hton16 6 + hton16 (len % 65536))) := by
  refine ⟨fun p1 p2 h => ?_, fun peer => ?_⟩
  · unfold tcp_checksum
    rw [tcp_pseudo_eq, tcp_pseudo_eq, h]
  · unfold tcp_checksum
    rw [tcp_pseudo_eq]

/-! ## C23: segments that fail the acceptability test -/

/-- A call of `tcp_tx` without payload, SYN or FIN queues nothing: the table is as
before. -/
theorem tcp_tx_unqueued (env : Env) (w : World) (i : Slot) (seq ack flg : Nat) (now : timeval)
    (h : flg &&& (TCP_FLG_SYN ||| TCP_FLG_FIN) = 0) :
    (tcp_tx env w i seq ack flg now []).2.cb_table = w.cb_table := by
  unfold tcp_tx tcp_tx_send
  simp only [List.length_nil, gt_iff_lt, Nat.lt_irrefl, h, ne_eq, not_true_eq_false, or_self,
    if_false, Bool.false_eq_true]
  split
  · rfl
  · split
    · funext j
      simp only [World.set]
      split
      · rename_i hj; rw [hj]
      · rfl
    · funext j
      simp only [World.set]
      split
      · rename_i hj; rw [hj]
      · rfl

/-- C23: in the states SYN_RCVD to LAST_ACK (the clock being readable), a segment that
fails the acceptability test leaves the whole table as it was, receive buffer and
transmit queue included; if its RST bit is clear exactly one call of `tcp_tx` is made, a
bare ACK with `seq = snd.nxt`, `ack = rcv.nxt`, and if it is set none.  A segment with
text fails the test whenever `rcv.wnd = 0`. -/
theorem unacceptable_segment_dropped (env : Env) (w : World) (i : Slot) (segment : List Nat)
    (now : timeval)
    (hnow : env.gettimeofday w.tick = some now)
    (hst : TCP_CB_STATE_SYN_RCVD ≤ (w.cb_table i).state
      ∧ (w.cb_table i).state ≤ TCP_CB_STATE_LAST_ACK)
    (hacc : segment_acceptable (w.cb_table i) (tcp_hdr.ofBytes segment)
      (TCP_DATA_LEN (tcp_hdr.ofBytes segment) segment.length) = false) :
    (tcp_event_segment_arrives env w i segment).cb_table = w.cb_table
      ∧ (tcp_event_segment_arrives env w i segment).tx_log
        = w.tx_log ++
          (if TCP_FLG_ISSET (tcp_hdr.ofBytes segment).flg TCP_FLG_RST = false
            then [tx_call.mk i (w.cb_table i).snd.nxt (w.cb_table i).rcv.nxt TCP_FLG_ACK []]
            else [])
      ∧ (∀ (cb : tcp_cb) (hdr : tcp_hdr) (plen : Nat), 0 < plen → cb.rcv.wnd = 0 →
          segment_acceptable cb hdr plen = false) := by
  have hs : (w.cb_table i).state = 3 ∨ (w.cb_table i).state = 4 ∨ (w.cb_table i).state = 5
      ∨ (w.cb_table i).state = 6 ∨ (w.cb_table i).state = 7 ∨ (w.cb_table i).state = 8
      ∨ (w.cb_table i).state = 9 ∨ (w.cb_table i).state = 10 := by
    obtain ⟨h1, h2⟩ := hst
    have h1' : 3 ≤ (w.cb_table i).state := h1
    have h2' : (w.cb_table i).state ≤ 10 := h2
    omega
  have hsync : tcp_event_segment_arrives env w i segment
      = segment_arrives_synchronized env { w with tick := w.tick + 1 } i (tcp_hdr.ofBytes segment)
          segment (TCP_DATA_LEN (tcp_hdr.ofBytes segment) segment.length) now := by
    unfold tcp_event_segment_arrives
    simp only [hnow]
    rcases hs with h | h | h | h | h | h | h | h <;> simp only [h]
  have hacc' : segment_acceptable (World.cb_table { w with tick := w.tick + 1 } i)
      (tcp_hdr.ofBytes segment) (TCP_DATA_LEN (tcp_hdr.ofBytes segment) segment.length)
      = false := hacc
  refine ⟨?_, ?_, ?_⟩
  · rw [hsync]
    unfold segment_arrives_synchronized
    simp only [hacc', Bool.not_false, if_true]
    split
    · exact tcp_tx_unqueued _ _ _ _ _ _ _ (by decide)
    · rfl
  · rw [hsync]
    unfold segment_arrives_synchronized
    simp only [hacc', Bool.not_false, if_true]
    cases hr : TCP_FLG_ISSET (tcp_hdr.ofBytes segment).flg TCP_FLG_RST
    · simp [tcp_tx_log]
    · simp
  · intro cb hdr plen hp hw
    unfold segment_acceptable
    simp [hp, hw]

set_option maxRecDepth 100000 in
/-- C23 at a concrete input: twenty bytes at `seq = 490` for the connection with
`rcv.nxt = 500`. -/
theorem unacceptable_segment_dropped_witness :
    segment_acceptable (world_established.cb_table 0) (tcp_hdr.ofBytes segment_overlap)
        (TCP_DATA_LEN (tcp_hdr.ofBytes segment_overlap) segment_overlap.length) = false
      ∧ (tcp_event_segment_arrives env_ok world_established 0 segment_overlap).cb_table
        = world_established.cb_table
      ∧ (tcp_event_segment_arrives env_ok world_established 0 segment_overlap).tx_log
        = [tx_call.mk 0 100 500 TCP_FLG_ACK []] :=
  ⟨by decide,
    (unacceptable_segment_dropped env_ok world_established 0 segment_overlap
      { tv_sec := 1000, tv_usec := 0 } rfl (by decide) (by decide)).1,
    (unacceptable_segment_dropped env_ok world_established 0 segment_overlap
      { tv_sec := 1000, tv_usec := 0 } rfl (by decide) (by decide)).2.1⟩

/-! ## C22: from CLOSING to TIME_WAIT -/

set_option maxRecDepth 100000 in
/-- C22, evaluated: the accepted connection of slot 1 (`timeout = 1020`, set during the
handshake at time 1000) gets the peer's FIN, is closed by the application and is in
CLOSING with `snd.una = 7001`, `snd.nxt = 7002`.  At time 1004 an acceptable bare ACK with
`ack = 7001` arrives: `ack + 1 = snd.nxt` and `ack = snd.una`, so `snd.una` does not
advance.  The block goes to TIME_WAIT, but its `timeout` is still 1020, not
`1004 + TIME_WAIT_TIMEOUT = 1024`: the step from CLOSING to TIME_WAIT does not write
`timeout`. -/
theorem closing_to_time_wait_keeps_timeout :
    ((world_accepted.cb_table 1).state, (world_accepted.cb_table 1).timeout)
        = (TCP_CB_STATE_ESTABLISHED, 1020)
      ∧ world_closing.map (fun w =>
          ((w.cb_table 1).state, (w.cb_table 1).snd.una, (w.cb_table 1).snd.nxt,
            (w.cb_table 1).rcv.nxt, (w.cb_table 1).timeout))
        = some (TCP_CB_STATE_CLOSING, 7001, 7002, 3002, 1020)
      ∧ (TCP_FLG_ISSET (tcp_hdr.ofBytes segment_ack_before_fin).flg TCP_FLG_ACK,
          TCP_FLG_ISSET (tcp_hdr.ofBytes segment_ack_before_fin).flg TCP_FLG_RST,
          TCP_FLG_ISSET (tcp_hdr.ofBytes segment_ack_before_fin).flg TCP_FLG_SYN,
          TCP_FLG_ISSET (tcp_hdr.ofBytes segment_ack_before_fin).flg TCP_FLG_FIN,
          ntoh32 (tcp_hdr.ofBytes segment_ack_before_fin).seq,
          ntoh32 (tcp_hdr.ofBytes segment_ack_before_fin).ack)
        = (true, false, false, false, 3002, 7001)
      ∧ world_closing.map (fun w =>
          segment_acceptable (w.cb_table 1) (tcp_hdr.ofBytes segment_ack_before_fin) 0)
        = some true
      ∧ world_closing.map (fun w =>
          (((tcp_event_segment_arrives env_later w 1 segment_ack_before_fin).cb_table 1).state,
            ((tcp_event_segment_arrives env_later w 1 segment_ack_before_fin).cb_table 1).snd.una,
            ((tcp_event_segment_arrives env_later w 1 segment_ack_before_fin).cb_table 1).timeout))
        = some (TCP_CB_STATE_TIME_WAIT, 7001, 1020)
      ∧ (1004 : Int) + TIME_WAIT_TIMEOUT = 1024 := by
  refine ⟨?_, ?_, ?_, ?_, ?_, ?_⟩ <;> decide

/-! ## C25: `tcp_tx` and the transmit queue -/

/-- C25: `tcp_tx` on a block that has an interface (with `cb->iface == NULL` the function
dereferences a null pointer when it computes the checksum), both allocations succeeding.
With `len > 0` or SYN or FIN in `flg` one entry is appended to the queue, holding the
payload, `seq`, `ack` and `flg`.  If the former tail had `timestamp.tv_sec = 0`, or SYN is
not in `flg` and `txq.snt + len > snd.wnd`, the entry is deferred: its timestamp is 0,
`ip_tx` is not called, the result is 0 and `txq.snt` is as before.  Otherwise `ip_tx` is
called once with the segment, the interface of the block and the peer, and if it succeeds
the entry's timestamp is `now`, `txq.snt` has grown by `len` (modulo `2^16`) and the result
is `len`; if it fails the result is -1 and timestamp and `txq.snt` are as before.  With
`len = 0` and neither SYN nor FIN the queue is unchanged. -/
theorem tcp_tx_queue_or_send (env : Env) (w : World) (i : Slot) (seq ack flg : Nat)
    (now : timeval) (buf : List Nat)
    (hif : (w.cb_table i).iface ≠ none)
    (hm1 : env.malloc w.tick = true) (hm2 : env.malloc (w.tick + 1) = true) :
    (buf.length > 0 ∨ flg &&& (TCP_FLG_SYN ||| TCP_FLG_FIN) ≠ 0 →
        ∃ e, ((tcp_tx env w i seq ack flg now buf).2.cb_table i).txq.entries
            = (w.cb_table i).txq.entries ++ [e]
          ∧ e.data = buf ∧ e.segment.seq = hton32 seq ∧ e.segment.ack = hton32 ack
          ∧ e.segment.flg = flg
          ∧ (((∃ t, (w.cb_table i).txq.entries.getLast? = some t ∧ t.timestamp.tv_sec = 0)
                ∨ (TCP_FLG_ISSET flg TCP_FLG_SYN = false
                  ∧ (w.cb_table i).txq.snt + buf.length > (w.cb_table i).snd.wnd)) →
              e.timestamp = { tv_sec := 0, tv_usec := 0 }
                ∧ (tcp_tx env w i seq ack flg now buf).2.ip_log = w.ip_log
                ∧ (tcp_tx env w i seq ack flg now buf).1 = 0
                ∧ ((tcp_tx env w i seq ack flg now buf).2.cb_table i).txq.snt
                  = (w.cb_table i).txq.snt)
          ∧ (¬ ((∃ t, (w.cb_table i).txq.entries.getLast? = some t ∧ t.timestamp.tv_sec = 0)
                ∨ (TCP_FLG_ISSET flg TCP_FLG_SYN = false
                  ∧ (w.cb_table i).txq.snt + buf.length > (w.cb_table i).snd.wnd)) →
              (∃ c, (tcp_tx env w i seq ack flg now buf).2.ip_log = w.ip_log ++ [c]
                  ∧ c.iface = (w.cb_table i).iface ∧ c.iface ≠ none
                  ∧ c.peer = (w.cb_table i).peer.addr ∧ c.segment.drop TCP_HDR_SIZE = buf)
                ∧ (env.ip_tx (w.tick + 2) = true →
                    e.timestamp = now
                      ∧ ((tcp_tx env w i seq ack flg now buf).2.cb_table i).txq.snt
                        = u16 ((w.cb_table i).txq.snt + buf.length)
                      ∧ (tcp_tx env w i seq ack flg now buf).1 = Int.ofNat buf.length)
                ∧ (env.ip_tx (w.tick + 2) = false →
                    e.timestamp = { tv_sec := 0, tv_usec := 0 }
                      ∧ ((tcp_tx env w i seq ack flg now buf).2.cb_table i).txq.snt
                        = (w.cb_table i).txq.snt
                      ∧ (tcp_tx env w i seq ack flg now buf).1 = -1)))
      ∧ (buf.length = 0 ∧ flg &&& (TCP_FLG_SYN ||| TCP_FLG_FIN) = 0 →
          ((tcp_tx env w i seq ack flg now buf).2.cb_table i).txq = (w.cb_table i).txq) := by
  refine ⟨fun hq => ?_, fun hq => ?_⟩
  · unfold tcp_tx tcp_tx_send tcp_txq_add
    simp only [hm1, hm2, Bool.not_true, Bool.false_eq_true, if_false, hq, gt_iff_lt, if_true,
      World.set_same, update_tail_append]
    cases hl : (w.cb_table i).txq.entries.getLast? with
    | none =>
      cases hsyn : TCP_FLG_ISSET flg TCP_FLG_SYN
      · by_cases hw : (w.cb_table i).snd.wnd < (w.cb_table i).txq.snt + buf.length
        · simp [hw]
        · cases hip : env.ip_tx (w.tick + 1 + 1)
          · simp [hw, hip, hif, tcp_hdr_bytes_length]
          · simp [hw, hip, hif, tcp_hdr_bytes_length]
      · cases hip : env.ip_tx (w.tick + 1 + 1)
        · simp [hip, hif, tcp_hdr_bytes_length]
        · simp [hip, hif, tcp_hdr_bytes_length]
    | some t =>
      by_cases ht : t.timestamp.tv_sec = 0
      · simp [ht]
      · cases hsyn : TCP_FLG_ISSET flg TCP_FLG_SYN
        · by_cases hw : (w.cb_table i).snd.wnd < (w.cb_table i).txq.snt + buf.length
          · simp [ht, hw]
          · cases hip : env.ip_tx (w.tick + 1 + 1)
            · simp [ht, hw, hip, hif, tcp_hdr_bytes_length]
            · simp [ht, hw, hip, hif, tcp_hdr_bytes_length]
        · cases hip : env.ip_tx (w.tick + 1 + 1)
          · simp [ht, hip, hif, tcp_hdr_bytes_length]
          · simp [ht, hip, hif, tcp_hdr_bytes_length]
  · have hb : buf = [] := List.length_eq_zero.mp hq.1
    subst hb
    rw [tcp_tx_unqueued env w i seq ack flg now hq.2]

set_option maxRecDepth 100000 in
/-- C25 at a concrete input: three bytes for the connection of `world_established`, whose
queue is empty and whose peer window is open, are sent at once. -/
theorem tcp_tx_queue_or_send_witness :
    ((world_established.cb_table 0).txq.entries, (world_established.cb_table 0).txq.snt,
        (world_established.cb_table 0).snd.wnd, (world_established.cb_table 0).iface)
        = ([], 0, 65535, some netif0)
      ∧ ((tcp_tx env_ok world_established 0 100 500 (TCP_FLG_PSH ||| TCP_FLG_ACK)
          { tv_sec := 1000, tv_usec := 0 } [1, 2, 3]).2.cb_table 0).txq.snt = 3
      ∧ (tcp_tx env_ok world_established 0 100 500 (TCP_FLG_PSH ||| TCP_FLG_ACK)
          { tv_sec := 1000, tv_usec := 0 } [1, 2, 3]).1 = 3 := by
  obtain ⟨e, _, _, _, _, _, _, hsend⟩ :=
    (tcp_tx_queue_or_send env_ok world_established 0 100 500 (TCP_FLG_PSH ||| TCP_FLG_ACK)
      { tv_sec := 1000, tv_usec := 0 } [1, 2, 3] (by decide) rfl rfl).1 (Or.inl (by decide))
  have hnd : ¬ ((∃ t, (world_established.cb_table 0).txq.entries.getLast? = some t
        ∧ t.timestamp.tv_sec = 0)
      ∨ (TCP_FLG_ISSET (TCP_FLG_PSH ||| TCP_FLG_ACK) TCP_FLG_SYN = false
        ∧ (world_established.cb_table 0).txq.snt + [1, 2, 3].length
          > (world_established.cb_table 0).snd.wnd)) := by
    rintro (⟨t, ht, _⟩ | ⟨_, h⟩)
    · have : (world_established.cb_table 0).txq.entries.getLast? = none := by decide
      rw [this] at ht
      exact absurd ht (by simp)
    · exact absurd h (by decide)
  obtain ⟨_, h2, _⟩ := hsend hnd
  obtain ⟨_, h3, h4⟩ := h2 rfl
  exact ⟨by decide, h3.trans (by decide), h4⟩

/-! ## C24: a segment for no connection and no listener -/

/-- The scan of `tcp_rx` over the slots `l` when no block of `l` matches interface, port
and peer and none listens on the destination port: the loop does not break off, finds no listener, and
keeps as `fcb` the first free block it meets. -/
theorem tcp_rx_scan_no_match (w : World) (hdr : tcp_hdr) (src : Nat) (iface : netif) :
    ∀ (l : List Slot) (s : rx_scan), s.found = none → s.lcb = none →
      (∀ j ∈ l, IS_FREE_CB (w.cb_table j) = false →
        ¬ (((w.cb_table j).iface = none ∨ (w.cb_table j).iface = some iface)
            ∧ (w.cb_table j).port = hdr.dst ∧ (w.cb_table j).peer.addr = src
            ∧ (w.cb_table j).peer.port = hdr.src)
          ∧ ¬ ((w.cb_table j).port = hdr.dst ∧ (w.cb_table j).state = TCP_CB_STATE_LISTEN)) →
      (l.foldl (tcp_rx_step w hdr src iface) s).found = none
        ∧ (l.foldl (tcp_rx_step w hdr src iface) s).lcb = none
        ∧ (l.foldl (tcp_rx_step w hdr src iface) s).fcb
          = (match s.fcb with
            | some f => some f
            | none => l.find? (fun j => IS_FREE_CB (w.cb_table j))) := by
  intro l
  induction l with
  | nil =>
    intro s h1 h2 _
    refine ⟨h1, h2, ?_⟩
    show s.fcb = _
    cases s.fcb <;> rfl
  | cons a l ih =>
    intro s h1 h2 h
    have ha := h a (List.mem_cons_self a l)
    have hl : ∀ j ∈ l, IS_FREE_CB (w.cb_table j) = false →
        ¬ (((w.cb_table j).iface = none ∨ (w.cb_table j).iface = some iface)
            ∧ (w.cb_table j).port = hdr.dst ∧ (w.cb_table j).peer.addr = src
            ∧ (w.cb_table j).peer.port = hdr.src)
          ∧ ¬ ((w.cb_table j).port = hdr.dst ∧ (w.cb_table j).state = TCP_CB_STATE_LISTEN) :=
      fun j hj => h j (List.mem_cons_of_mem a hj)
    rw [List.foldl_cons]
    cases hfree : IS_FREE_CB (w.cb_table a)
    · -- a block in use that neither matches nor listens leaves the scan as it is
      obtain ⟨hm, hli⟩ := ha hfree
      have hstep : tcp_rx_step w hdr src iface s a = s := by
        unfold tcp_rx_step
        simp only [h1, hfree, Bool.false_eq_true, if_false]
        by_cases hp : (w.cb_table a).port = hdr.dst
        · have hli' : ¬ (w.cb_table a).state = TCP_CB_STATE_LISTEN := fun hh => hli ⟨hp, hh⟩
          split
          · rename_i hif
            have hif' : (w.cb_table a).iface = none ∨ (w.cb_table a).iface = some iface := by
              simp only [Bool.and_eq_true, Bool.or_eq_true, Option.isNone_iff_eq_none,
                beq_iff_eq] at hif
              exact hif.1
            split
            · rename_i hpe
              simp only [Bool.and_eq_true, beq_iff_eq] at hpe
              exact absurd ⟨hif', hp, hpe⟩ hm
            · split
              · rename_i hls
                simp only [Bool.and_eq_true, beq_iff_eq] at hls
                exact absurd hls.1 hli'
              · rfl
          · rfl
        · have : ((w.cb_table a).port == hdr.dst) = false := by simpa using hp
          simp [this]
      rw [hstep]
      obtain ⟨r1, r2, r3⟩ := ih s h1 h2 hl
      refine ⟨r1, r2, ?_⟩
      rw [r3, List.find?_cons, hfree]
    · cases hf : s.fcb with
      | none =>
        have hstep : tcp_rx_step w hdr src iface s a = { s with fcb := some a } := by
          unfold tcp_rx_step
          simp [h1, hfree, hf]
        rw [hstep]
        obtain ⟨r1, r2, r3⟩ := ih { s with fcb := some a } h1 h2 hl
        refine ⟨r1, r2, ?_⟩
        rw [r3, List.find?_cons, hfree]
      | some f =>
        have hstep : tcp_rx_step w hdr src iface s a = s := by
          unfold tcp_rx_step
          simp [h1, hfree, hf]
        rw [hstep]
        obtain ⟨r1, r2, r3⟩ := ih s h1 h2 hl
        refine ⟨r1, r2, ?_⟩
        rw [r3, hf]

/-- The smallest index that satisfies `p` is what `find?` returns on `List.finRange n`. -/
theorem find_finRange_of_first {n : Nat} (p : Fin n → Bool) (i : Fin n)
    (h1 : p i = true) (h2 : ∀ j : Fin n, j < i → p j = false) :
    (List.finRange n).find? p = some i := by
  cases h : (List.finRange n).find? p with
  | none =>
    rw [List.find?_eq_none] at h
    exact absurd h1 (h i (List.mem_finRange i))
  | some k =>
    obtain ⟨k1, k2⟩ := find_finRange_first p k h
    rcases lt_trichotomy k i with hlt | heq | hgt
    · rw [h2 k hlt] at k1
      exact absurd k1 (by simp)
    · rw [heq]
    · rw [k2 i hgt] at h1
      exact absurd h1 (by simp)

set_option maxRecDepth 100000 in
/-- C24: `tcp_rx` on a segment for the interface, at least twenty bytes long and with a
valid checksum (the clock being readable), when no block in use that is bound to no
interface or to the receiving one has the segment's destination port and peer, and no
block in LISTEN has its destination port.  If `f` is the lowest free
slot, the segment is processed there: block `f` gets the interface and the peer of the
segment and port 0, and is free as before; no other block changes; and the calls of
`tcp_tx` are none if the segment has RST, a RST with `seq = seg.ack`, `ack = 0` if it has
ACK, and a RST|ACK with `seq = 0`, `ack = seg.seq + plen` otherwise.  If no slot is free
the segment is dropped and nothing changes. -/
theorem tcp_rx_no_connection (env : Env) (w : World) (segment : List Nat) (src dst : Nat)
    (iface : netif) (now : timeval)
    (hdst : dst = iface.unicast)
    (hlen : TCP_HDR_SIZE ≤ segment.length)
    (hsum : tcp_checksum src dst segment segment.length = 0)
    (hnow : env.gettimeofday w.tick = some now)
    (hmatch : ∀ j : Slot, IS_FREE_CB (w.cb_table j) = false →
      ¬ (((w.cb_table j).iface = none ∨ (w.cb_table j).iface = some iface)
          ∧ (w.cb_table j).port = (tcp_hdr.ofBytes segment).dst ∧ (w.cb_table j).peer.addr = src
          ∧ (w.cb_table j).peer.port = (tcp_hdr.ofBytes segment).src))
    (hlisten : ∀ j : Slot, (w.cb_table j).state = TCP_CB_STATE_LISTEN →
      (w.cb_table j).port ≠ (tcp_hdr.ofBytes segment).dst) :
    (∀ f : Slot, IS_FREE_CB (w.cb_table f) = true →
        (∀ j : Slot, j < f → IS_FREE_CB (w.cb_table j) = false) →
        IS_FREE_CB ((tcp_rx env w segment src dst iface).cb_table f) = true
          ∧ (tcp_rx env w segment src dst iface).cb_table f
            = { w.cb_table f with
                iface := some iface, port := 0
                peer := { addr := src, port := (tcp_hdr.ofBytes segment).src } }
          ∧ (∀ j : Slot, j ≠ f → (tcp_rx env w segment src dst iface).cb_table j = w.cb_table j)
          ∧ (tcp_rx env w segment src dst iface).tx_log
            = w.tx_log ++
              (if TCP_FLG_ISSET (tcp_hdr.ofBytes segment).flg TCP_FLG_RST = true then []
               else if TCP_FLG_ISSET (tcp_hdr.ofBytes segment).flg TCP_FLG_ACK = true then
                 [tx_call.mk f (ntoh32 (tcp_hdr.ofBytes segment).ack) 0 TCP_FLG_RST []]
               else
                 [tx_call.mk f 0
                   (u32 (ntoh32 (tcp_hdr.ofBytes segment).seq
                     + TCP_DATA_LEN (tcp_hdr.ofBytes segment) segment.length))
                   (TCP_FLG_RST ||| TCP_FLG_ACK) []]))
      ∧ ((∀ j : Slot, IS_FREE_CB (w.cb_table j) = false) →
          tcp_rx env w segment src dst iface = w) := by
  have hscan := tcp_rx_scan_no_match w (tcp_hdr.ofBytes segment) src iface
    (List.finRange TCP_CB_TABLE_SIZE) { found := none, fcb := none, lcb := none } rfl rfl
    (fun j _ hj => ⟨hmatch j hj, fun hh => hlisten j hh.2 hh.1⟩)
  obtain ⟨s1, s2, s3⟩ := hscan
  have hlen' : ¬ segment.length < TCP_HDR_SIZE := Nat.not_lt.mpr hlen
  refine ⟨fun f hf hmin => ?_, fun hnone => ?_⟩
  · have hfind := find_finRange_of_first (fun j => IS_FREE_CB (w.cb_table j)) f hf hmin
    rw [hfind] at s3
    have hst : (w.cb_table f).state = 0 := by
      unfold IS_FREE_CB at hf
      simp only [Bool.and_eq_true, beq_iff_eq] at hf
      exact hf.2
    have hres : tcp_rx env w segment src dst iface
        = segment_arrives_closed env
            { (w.set f { w.cb_table f with
                iface := some iface, port := 0
                peer := { addr := src, port := (tcp_hdr.ofBytes segment).src } }) with
              tick := w.tick + 1 }
            f (tcp_hdr.ofBytes segment)
            (TCP_DATA_LEN (tcp_hdr.ofBytes segment) segment.length) now := by
      unfold tcp_rx
      simp only [hdst, ne_eq, not_true_eq_false, if_false, hlen']
      rw [← hdst]
      simp only [hsum, not_true_eq_false, if_false, s1, s2, s3]
      unfold tcp_event_segment_arrives
      simp only [World.modify, World.set_same, World.set_tick, hnow, hst]
      congr 1
      simp only [World.set, hst]
      congr 1
      funext j
      by_cases hj : j = f <;> simp [hj]
    have hcl : ∀ w0 : World, (segment_arrives_closed env w0 f (tcp_hdr.ofBytes segment)
        (TCP_DATA_LEN (tcp_hdr.ofBytes segment) segment.length) now).cb_table = w0.cb_table := by
      intro w0
      unfold segment_arrives_closed
      split
      · split
        · exact tcp_tx_unqueued _ _ _ _ _ _ _ (by decide)
        · exact tcp_tx_unqueued _ _ _ _ _ _ _ (by decide)
      · rfl
    have hfree' : IS_FREE_CB { w.cb_table f with
        iface := some iface, port := 0
        peer := { addr := src, port := (tcp_hdr.ofBytes segment).src } } = true := hf
    rw [hres, hcl]
    refine ⟨?_, ?_, ?_, ?_⟩
    · simpa using hfree'
    · simp
    · intro j hj
      exact World.set_other _ _ _ _ hj
    · unfold segment_arrives_closed
      cases hr : TCP_FLG_ISSET (tcp_hdr.ofBytes segment).flg TCP_FLG_RST
      · cases ha : TCP_FLG_ISSET (tcp_hdr.ofBytes segment).flg TCP_FLG_ACK
        · simp [tcp_tx_log]
        · simp [tcp_tx_log]
      · simp
  · have hfind : (List.finRange TCP_CB_TABLE_SIZE).find? (fun j => IS_FREE_CB (w.cb_table j))
        = none := by
      rw [List.find?_eq_none]
      intro j _
      simp [hnone j]
    rw [hfind] at s3
    unfold tcp_rx
    simp only [hdst, ne_eq, not_true_eq_false, if_false, hlen']
    rw [← hdst]
    simp only [hsum, not_true_eq_false, if_false, s1, s3]

set_option maxRecDepth 100000 in
/-- C24 at a concrete input: a SYN for port 7 on the zeroed table is answered with a
RST|ACK from slot 0. -/
theorem tcp_rx_no_connection_witness :
    tcp_checksum 167772162 167772161 segment_syn segment_syn.length = 0
      ∧ IS_FREE_CB ((tcp_rx env_ok World.zero segment_syn 167772162 167772161 netif0).cb_table 0)
        = true
      ∧ (tcp_rx env_ok World.zero segment_syn 167772162 167772161 netif0).tx_log
        = [tx_call.mk 0 0 3000 (TCP_FLG_RST ||| TCP_FLG_ACK) []] := by
  have h := (tcp_rx_no_connection env_ok World.zero segment_syn 167772162 167772161 netif0
    { tv_sec := 1000, tv_usec := 0 } rfl (by decide) (by decide) rfl
    (fun j hj => absurd (show IS_FREE_CB tcp_cb.zero = false from hj) (by decide))
    (fun j hj => absurd (show (0 : Nat) = 1 from hj) (by decide))).1 0 (by decide)
    (fun j hj => absurd hj (Nat.not_lt_zero _))
  exact ⟨by decide, h.1, h.2.2.2.trans (by decide)⟩

/-! ## The timer -/

/-- One iteration of the timer loop, in terms of the block it visits. -/
theorem tcp_timer_cb_eq (w : World) (timestamp : timeval) (i : Slot) :
    tcp_timer_cb w timestamp i
      = { (w.set i (timer_block (w.cb_table i) timestamp)) with
          tick := w.tick + (timer_calls (w.cb_table i) timestamp).length
          ip_log := w.ip_log ++ timer_calls (w.cb_table i) timestamp } := by
  unfold tcp_timer_cb timer_block timer_calls
  by_cases h1 : (w.cb_table i).state = TCP_CB_STATE_CLOSED
  · simp only [h1, if_true, List.length_nil, Nat.add_zero, List.append_nil]
    have : (w.set i (w.cb_table i)).cb_table = w.cb_table := by
      funext j
      simp only [World.set]
      split
      · rename_i hj; rw [hj]
      · rfl
    show w = { cb_table := (w.set i (w.cb_table i)).cb_table, tick := w.tick,
               tx_log := w.tx_log, ip_log := w.ip_log }
    rw [this]
  · by_cases h2 : timer_expired (w.cb_table i) timestamp
    · have h2' : ((w.cb_table i).snd.una ≠ (w.cb_table i).snd.nxt
          ∨ (w.cb_table i).state = TCP_CB_STATE_TIME_WAIT)
          ∧ (w.cb_table i).timeout < timestamp.tv_sec := h2
      simp only [h1, if_false, if_pos h2', if_pos h2, List.length_nil, Nat.add_zero,
        List.append_nil]
      rfl
    · have h2' : ¬ (((w.cb_table i).snd.una ≠ (w.cb_table i).snd.nxt
          ∨ (w.cb_table i).state = TCP_CB_STATE_TIME_WAIT)
          ∧ (w.cb_table i).timeout < timestamp.tv_sec) := h2
      simp only [h1, if_false, if_neg h2', if_neg h2]

/-- The block the iteration visits. -/
theorem tcp_timer_cb_self (w : World) (timestamp : timeval) (i : Slot) :
    (tcp_timer_cb w timestamp i).cb_table i = timer_block (w.cb_table i) timestamp := by
  rw [tcp_timer_cb_eq]
  exact World.set_same _ _ _

/-- The blocks the iteration does not visit. -/
theorem tcp_timer_cb_other (w : World) (timestamp : timeval) (i j : Slot) (h : j ≠ i) :
    (tcp_timer_cb w timestamp i).cb_table j = w.cb_table j := by
  rw [tcp_timer_cb_eq]
  exact World.set_other _ _ _ _ h

/-- The calls of `ip_tx` of one iteration. -/
theorem tcp_timer_cb_ip_log (w : World) (timestamp : timeval) (i : Slot) :
    (tcp_timer_cb w timestamp i).ip_log = w.ip_log ++ timer_calls (w.cb_table i) timestamp := by
  rw [tcp_timer_cb_eq]

/-- The `for` loop of `tcp_timer_thread` over distinct slots: every slot of the list gets
the treatment of `timer_block`, computed from the block as it was before the loop; the
calls of `ip_tx` are those of the slots in turn. -/
theorem tcp_timer_fold (timestamp : timeval) : ∀ (l : List Slot) (w : World), l.Nodup →
    (∀ j : Slot, (l.foldl (fun w i => tcp_timer_cb w timestamp i) w).cb_table j
        = if j ∈ l then timer_block (w.cb_table j) timestamp else w.cb_table j)
      ∧ (l.foldl (fun w i => tcp_timer_cb w timestamp i) w).ip_log
        = w.ip_log ++ (l.map (fun j => timer_calls (w.cb_table j) timestamp)).flatten
      ∧ (l.foldl (fun w i => tcp_timer_cb w timestamp i) w).tx_log = w.tx_log := by
  intro l
  induction l with
  | nil =>
    intro w _
    exact ⟨fun j => by simp, by simp, rfl⟩
  | cons a l ih =>
    intro w hnd
    obtain ⟨ha, hl⟩ := List.nodup_cons.mp hnd
    obtain ⟨r1, r2, r3⟩ := ih (tcp_timer_cb w timestamp a) hl
    rw [List.foldl_cons]
    refine ⟨fun j => ?_, ?_, ?_⟩
    · rw [r1 j]
      by_cases hj : j = a
      · subst hj
        simp only [ha, if_false, List.mem_cons, true_or, if_true]
        exact tcp_timer_cb_self _ _ _
      · rw [tcp_timer_cb_other _ _ _ _ hj]
        simp only [List.mem_cons, hj, false_or]
    · rw [r2, tcp_timer_cb_ip_log, List.map_cons, List.flatten_cons, List.append_assoc]
      congr 3
      apply List.map_congr_left
      intro j hj
      have hja : j ≠ a := fun h => ha (h ▸ hj)
      rw [tcp_timer_cb_other _ _ _ _ hja]
    · rw [r3, tcp_timer_cb_eq]
      rfl

/-- One pass of the timer over the table at the time `now`. -/
theorem tcp_timer_tick_eq (env : Env) (w : World) (prev now : timeval)
    (hnow : env.gettimeofday w.tick = some now) :
    (∀ j : Slot, (tcp_timer_tick env w prev).cb_table j = timer_block (w.cb_table j) now)
      ∧ (tcp_timer_tick env w prev).ip_log
        = w.ip_log
          ++ ((List.finRange TCP_CB_TABLE_SIZE).map (fun j => timer_calls (w.cb_table j) now)).flatten
      ∧ (tcp_timer_tick env w prev).tx_log = w.tx_log := by
  unfold tcp_timer_tick
  simp only [hnow]
  obtain ⟨r1, r2, r3⟩ := tcp_timer_fold now (List.finRange TCP_CB_TABLE_SIZE)
    { w with tick := w.tick + 1 } (List.nodup_finRange _)
  refine ⟨fun j => ?_, r2, r3⟩
  rw [r1 j]
  simp [List.mem_finRange]

/-! ## C29: the user timeout -/

/-- C29: one pass of the timer at the time `now`.  A CLOSED block is left as it is.  A
block that is not CLOSED is reset by `tcp_close_cb` (state CLOSED, `snd`, `rcv`, `iss`,
`irs` zero, queue empty) if `(snd.una != snd.nxt || state == TIME_WAIT) && timeout < now`,
and otherwise keeps its state, `snd`, `rcv`, `iss` and `irs`, so it is not reset. -/
theorem timer_resets_expired (env : Env) (w : World) (prev now : timeval) (i : Slot)
    (hnow : env.gettimeofday w.tick = some now) :
    ((w.cb_table i).state = TCP_CB_STATE_CLOSED →
        (tcp_timer_tick env w prev).cb_table i = w.cb_table i)
      ∧ ((w.cb_table i).state ≠ TCP_CB_STATE_CLOSED →
          ((w.cb_table i).snd.una ≠ (w.cb_table i).snd.nxt
              ∨ (w.cb_table i).state = TCP_CB_STATE_TIME_WAIT)
            ∧ (w.cb_table i).timeout < now.tv_sec →
          (tcp_timer_tick env w prev).cb_table i = tcp_close_cb (w.cb_table i)
            ∧ ((tcp_timer_tick env w prev).cb_table i).state = TCP_CB_STATE_CLOSED
            ∧ ((tcp_timer_tick env w prev).cb_table i).snd
              = { nxt := 0, una := 0, up := 0, wl1 := 0, wl2 := 0, wnd := 0 }
            ∧ ((tcp_timer_tick env w prev).cb_table i).rcv = { nxt := 0, up := 0, wnd := 0 }
            ∧ ((tcp_timer_tick env w prev).cb_table i).iss = 0
            ∧ ((tcp_timer_tick env w prev).cb_table i).irs = 0
            ∧ ((tcp_timer_tick env w prev).cb_table i).txq.entries = [])
      ∧ ((w.cb_table i).state ≠ TCP_CB_STATE_CLOSED →
          ¬ (((w.cb_table i).snd.una ≠ (w.cb_table i).snd.nxt
              ∨ (w.cb_table i).state = TCP_CB_STATE_TIME_WAIT)
            ∧ (w.cb_table i).timeout < now.tv_sec) →
          ((tcp_timer_tick env w prev).cb_table i).state = (w.cb_table i).state
            ∧ ((tcp_timer_tick env w prev).cb_table i).snd = (w.cb_table i).snd
            ∧ ((tcp_timer_tick env w prev).cb_table i).rcv = (w.cb_table i).rcv
            ∧ ((tcp_timer_tick env w prev).cb_table i).iss = (w.cb_table i).iss
            ∧ ((tcp_timer_tick env w prev).cb_table i).irs = (w.cb_table i).irs) := by
  rw [(tcp_timer_tick_eq env w prev now hnow).1 i]
  refine ⟨fun h => ?_, fun h1 h2 => ?_, fun h1 h2 => ?_⟩
  · unfold timer_block
    rw [if_pos h]
  · have h2' : timer_expired (w.cb_table i) now := h2
    have : timer_block (w.cb_table i) now = tcp_close_cb (w.cb_table i) := by
      unfold timer_block
      rw [if_neg h1, if_pos h2']
    rw [this]
    exact ⟨rfl, rfl, rfl, rfl, rfl, rfl, rfl⟩
  · have h2' : ¬ timer_expired (w.cb_table i) now := h2
    have : timer_block (w.cb_table i) now
        = { w.cb_table i with txq :=
            { entries := (tcp_timer_txq (w.cb_table i) now (w.cb_table i).txq.entries 0
                (w.cb_table i).txq.snt).1
              snt := (tcp_timer_txq (w.cb_table i) now (w.cb_table i).txq.entries 0
                (w.cb_table i).txq.snt).2.1 } } := by
      unfold timer_block
      rw [if_neg h1, if_neg h2']
    rw [this]
    exact ⟨rfl, rfl, rfl, rfl, rfl⟩

set_option maxRecDepth 100000 in
/-- C29 at a concrete input: a block in TIME_WAIT whose `timeout` has passed is reset, and
the CLOSED block next to it is untouched. -/
theorem timer_resets_expired_witness :
    ((world_in_state TCP_CB_STATE_TIME_WAIT).cb_table 0).state = TCP_CB_STATE_TIME_WAIT
      ∧ ((world_in_state TCP_CB_STATE_TIME_WAIT).cb_table 0).timeout < 1000
      ∧ ((tcp_timer_tick env_ok (world_in_state TCP_CB_STATE_TIME_WAIT)
          { tv_sec := 0, tv_usec := 0 }).cb_table 0).state = TCP_CB_STATE_CLOSED
      ∧ ((tcp_timer_tick env_ok (world_in_state TCP_CB_STATE_TIME_WAIT)
          { tv_sec := 0, tv_usec := 0 }).cb_table 0).txq.entries = []
      ∧ (tcp_timer_tick env_ok (world_in_state TCP_CB_STATE_TIME_WAIT)
          { tv_sec := 0, tv_usec := 0 }).cb_table 1
        = (world_in_state TCP_CB_STATE_TIME_WAIT).cb_table 1 :=
  ⟨by decide, by decide,
    ((timer_resets_expired env_ok (world_in_state TCP_CB_STATE_TIME_WAIT)
      { tv_sec := 0, tv_usec := 0 } { tv_sec := 1000, tv_usec := 0 } 0 rfl).2.1
      (by decide) (by decide)).2.1,
    ((timer_resets_expired env_ok (world_in_state TCP_CB_STATE_TIME_WAIT)
      { tv_sec := 0, tv_usec := 0 } { tv_sec := 1000, tv_usec := 0 } 0 rfl).2.1
      (by decide) (by decide)).2.2.2.2.2.2,
    (timer_resets_expired env_ok (world_in_state TCP_CB_STATE_TIME_WAIT)
      { tv_sec := 0, tv_usec := 0 } { tv_sec := 1000, tv_usec := 0 } 1 rfl).1 (by decide)⟩

/-! ## C28: retransmission by the timer -/

/-- The timer frees the entries in front of the queue that lie below `snd.una` without
looking at their timestamps; only `txq.snt` is touched. -/
theorem tcp_timer_txq_removed (cb : tcp_cb) (timestamp : timeval) :
    ∀ (pre rest : List tcp_txq_entry) (sum snt : Nat),
      (∀ x ∈ pre, ntoh32 x.segment.seq < cb.snd.una) →
      ∃ snt', tcp_timer_txq cb timestamp (pre ++ rest) sum snt
        = tcp_timer_txq cb timestamp rest sum snt' := by
  intro pre
  induction pre with
  | nil => intro rest sum snt _; exact ⟨snt, rfl⟩
  | cons a pre ih =>
    intro rest sum snt h
    have ha : ¬ ntoh32 a.segment.seq ≥ cb.snd.una :=
      Nat.not_le.mpr (h a (List.mem_cons_self a pre))
    obtain ⟨s', hs'⟩ := ih rest sum (sub16 (snt + TCP_HDR_LEN a.segment) a.len)
      (fun x hx => h x (List.mem_cons_of_mem a hx))
    refine ⟨s', ?_⟩
    rw [List.cons_append]
    conv => lhs; unfold tcp_timer_txq
    rw [if_neg ha]
    exact hs'

/-- The first entry the timer keeps, when the send window is open and the entry is unsent
or older than three seconds: it is rewritten and handed to IP. -/
theorem tcp_timer_txq_first (cb : tcp_cb) (timestamp : timeval) (e : tcp_txq_entry)
    (post : List tcp_txq_entry) (snt : Nat)
    (he : cb.snd.una ≤ ntoh32 e.segment.seq) (hwnd : 0 < cb.snd.wnd)
    (hts : e.timestamp.tv_sec = 0 ∨ timestamp.tv_sec - e.timestamp.tv_sec > 3) :
    tcp_timer_txq cb timestamp (e :: post) 0 snt
      = ((timer_resend cb timestamp e).1
            :: (tcp_timer_txq cb timestamp post
                (sub64 (0 + e.len) (TCP_HDR_LEN e.segment)) snt).1,
          (tcp_timer_txq cb timestamp post
            (sub64 (0 + e.len) (TCP_HDR_LEN e.segment)) snt).2.1,
          (timer_resend cb timestamp e).2
            :: (tcp_timer_txq cb timestamp post
                (sub64 (0 + e.len) (TCP_HDR_LEN e.segment)) snt).2.2) := by
  conv => lhs; unfold tcp_timer_txq
  have he' : ntoh32 e.segment.seq ≥ cb.snd.una := he
  simp only [he', if_true, hwnd]
  by_cases h0 : e.timestamp.tv_sec = 0
  · simp only [h0, if_true]
    rfl
  · have h3 : timestamp.tv_sec - e.timestamp.tv_sec > 3 := hts.resolve_left h0
    simp only [h0, if_false, h3, if_true]
    rfl

set_option maxRecDepth 100000 in
/-- The SYN of a connecting block under the timer: block 0 is in SYN_SENT, its SYN
(`seq = 7000`) was sent at time 1000 and is not acknowledged, and `snd.wnd` is still 0.  A
pass of the timer at time 1004, more than three seconds later and before the user timeout
1020, hands nothing to IP and leaves the timestamp of the SYN at 1000: the test
`sum < snd.wnd` of the timer has no exemption for SYN, unlike the window test of
`tcp_tx`. -/
theorem timer_keeps_syn_unsent :
    ((world_syn_sent.cb_table 0).state, (world_syn_sent.cb_table 0).snd.una,
        (world_syn_sent.cb_table 0).snd.nxt, (world_syn_sent.cb_table 0).snd.wnd,
        (world_syn_sent.cb_table 0).timeout)
        = (TCP_CB_STATE_SYN_SENT, 7000, 7001, 0, 1020)
      ∧ (world_syn_sent.cb_table 0).txq.entries.map
          (fun e => (e.segment.flg, ntoh32 e.segment.seq, e.timestamp.tv_sec))
        = [(TCP_FLG_SYN, 7000, 1000)]
      ∧ env_later.gettimeofday world_syn_sent.tick = some { tv_sec := 1004, tv_usec := 0 }
      ∧ (tcp_timer_tick env_later world_syn_sent { tv_sec := 0, tv_usec := 0 }).ip_log
        = world_syn_sent.ip_log
      ∧ ((tcp_timer_tick env_later world_syn_sent { tv_sec := 0, tv_usec := 0 }).cb_table 0).state
        = TCP_CB_STATE_SYN_SENT
      ∧ ((tcp_timer_tick env_later world_syn_sent { tv_sec := 0, tv_usec := 0 }).cb_table
          0).txq.entries.map (fun e => (e.segment.flg, ntoh32 e.segment.seq, e.timestamp.tv_sec))
        = [(TCP_FLG_SYN, 7000, 1000)] := by
  refine ⟨?_, ?_, ?_, ?_, ?_, ?_⟩ <;> decide

set_option maxRecDepth 100000 in
/-- C28 as stated fails while `snd.wnd = 0`: the peer of `world_established` has closed its
window and `tcp_api_send(0, buf, 3)` has queued three bytes that `tcp_tx` deferred
(`world_deferred`: ESTABLISHED, an interface, `snd.una = 100`, `snd.nxt = 103`,
`snd.wnd = 0`, `timeout = 1020`, one entry with `seq = 100` and `timestamp.tv_sec = 0`).  A
pass of the timer at time 1000 does not time the block out, hands nothing to IP and leaves
the timestamp of the entry at 0: the entry is outside the send window, `sum < snd.wnd`
being `0 < 0`. -/
theorem timer_keeps_data_at_zero_window :
    world_deferred.map (fun w =>
        ((w.cb_table 0).state, (w.cb_table 0).iface, (w.cb_table 0).snd.una,
          (w.cb_table 0).snd.nxt, (w.cb_table 0).snd.wnd, (w.cb_table 0).timeout,
          (w.cb_table 0).txq.entries.map
            (fun e => (e.segment.flg, ntoh32 e.segment.seq, e.data, e.timestamp.tv_sec)),
          env_ok.gettimeofday w.tick))
        = some (TCP_CB_STATE_ESTABLISHED, some netif0, 100, 103, 0, 1020,
            [(TCP_FLG_PSH ||| TCP_FLG_ACK, 100, [1, 2, 3], 0)],
            some { tv_sec := 1000, tv_usec := 0 })
      ∧ world_deferred.map (fun w =>
          (decide ((tcp_timer_tick env_ok w { tv_sec := 0, tv_usec := 0 }).ip_log = w.ip_log),
            ((tcp_timer_tick env_ok w { tv_sec := 0, tv_usec := 0 }).cb_table 0).state,
            ((tcp_timer_tick env_ok w { tv_sec := 0, tv_usec := 0 }).cb_table 0).txq.entries.map
              (fun e => (e.segment.flg, ntoh32 e.segment.seq, e.data, e.timestamp.tv_sec))))
        = some (true, TCP_CB_STATE_ESTABLISHED,
            [(TCP_FLG_PSH ||| TCP_FLG_ACK, 100, [1, 2, 3], 0)]) := by
  refine ⟨?_, ?_⟩ <;> rfl

/-- C28, amended: one pass of the timer at the time `now` over a block that is not CLOSED,
not timed out, has an interface (with `cb->iface == NULL` the timer dereferences a null
pointer before it scans a queue that is not empty) and has `snd.wnd > 0`.  The first queue
entry with `seq >= snd.una`, if its `timestamp.tv_sec` is 0 or more than three seconds
before `now`, heads the queue afterwards with its ack field set to `rcv.nxt`, a checksum
computed anew and the timestamp `now`, and has been handed to `ip_tx` with the interface of
the block, for the peer. -/
theorem timer_sends_first_retained (env : Env) (w : World) (prev now : timeval) (i : Slot)
    (pre post : List tcp_txq_entry) (e : tcp_txq_entry)
    (hnow : env.gettimeofday w.tick = some now)
    (hst : (w.cb_table i).state ≠ TCP_CB_STATE_CLOSED)
    (hexp : ¬ (((w.cb_table i).snd.una ≠ (w.cb_table i).snd.nxt
        ∨ (w.cb_table i).state = TCP_CB_STATE_TIME_WAIT)
      ∧ (w.cb_table i).timeout < now.tv_sec))
    (hif : (w.cb_table i).iface ≠ none)
    (hwnd : 0 < (w.cb_table i).snd.wnd)
    (hq : (w.cb_table i).txq.entries = pre ++ e :: post)
    (hpre : ∀ x ∈ pre, ntoh32 x.segment.seq < (w.cb_table i).snd.una)
    (he : (w.cb_table i).snd.una ≤ ntoh32 e.segment.seq)
    (hts : e.timestamp.tv_sec = 0 ∨ now.tv_sec - e.timestamp.tv_sec > 3) :
    (∃ rest, ((tcp_timer_tick env w prev).cb_table i).txq.entries
        = (timer_resend (w.cb_table i) now e).1 :: rest)
      ∧ (∃ l1 l2, (tcp_timer_tick env w prev).ip_log
          = w.ip_log ++ l1 ++ (timer_resend (w.cb_table i) now e).2 :: l2)
      ∧ (timer_resend (w.cb_table i) now e).1.timestamp = now
      ∧ (timer_resend (w.cb_table i) now e).1.segment.ack = hton32 (w.cb_table i).rcv.nxt
      ∧ (timer_resend (w.cb_table i) now e).1.segment.seq = e.segment.seq
      ∧ (timer_resend (w.cb_table i) now e).1.segment.sum
        = tcp_checksum (iface_unicast (w.cb_table i)) (w.cb_table i).peer.addr
            (tcp_hdr.bytes { e.segment with ack := hton32 (w.cb_table i).rcv.nxt, sum := 0 }
              ++ e.data) e.len
      ∧ (timer_resend (w.cb_table i) now e).2
        = ip_call.mk (w.cb_table i).iface
            (((timer_resend (w.cb_table i) now e).1.segment.bytes ++ e.data).take e.len)
            (w.cb_table i).peer.addr
      ∧ (timer_resend (w.cb_table i) now e).2.iface ≠ none := by
  obtain ⟨t1, t2, _⟩ := tcp_timer_tick_eq env w prev now hnow
  have hexp' : ¬ timer_expired (w.cb_table i) now := hexp
  obtain ⟨snt', hrem⟩ := tcp_timer_txq_removed (w.cb_table i) now pre (e :: post) 0
    (w.cb_table i).txq.snt hpre
  have hfirst := tcp_timer_txq_first (w.cb_table i) now e post snt' he hwnd hts
  have hscan := hrem.trans hfirst
  rw [← hq] at hscan
  refine ⟨?_, ?_, rfl, rfl, rfl, rfl, rfl, hif⟩
  · rw [t1 i]
    unfold timer_block
    rw [if_neg hst, if_neg hexp', hscan]
    exact ⟨_, rfl⟩
  · rw [t2]
    have hcalls : timer_calls (w.cb_table i) now
        = (timer_resend (w.cb_table i) now e).2
          :: (tcp_timer_txq (w.cb_table i) now post
              (sub64 (0 + e.len) (TCP_HDR_LEN e.segment)) snt').2.2 := by
      unfold timer_calls
      rw [if_neg hst, if_neg hexp', hscan]
    obtain ⟨s, t, hst'⟩ := List.append_of_mem (List.mem_finRange i)
    rw [hst', List.map_append, List.map_cons, List.flatten_append, List.flatten_cons, hcalls]
    refine ⟨(List.map (fun j => timer_calls (w.cb_table j) now) s).flatten,
      (tcp_timer_txq (w.cb_table i) now post
          (sub64 (0 + e.len) (TCP_HDR_LEN e.segment)) snt').2.2
        ++ (List.map (fun j => timer_calls (w.cb_table j) now) t).flatten, ?_⟩
    rw [List.cons_append, List.append_assoc]

set_option maxRecDepth 100000 in
/-- C28 at a concrete input: the three bytes deferred while the peer's window was closed
are sent by the first pass of the timer after the window has opened. -/
theorem timer_sends_first_retained_witness :
    ((world_window_reopened.cb_table 0).state, (world_window_reopened.cb_table 0).snd.una,
        (world_window_reopened.cb_table 0).snd.nxt, (world_window_reopened.cb_table 0).snd.wnd,
        (world_window_reopened.cb_table 0).timeout)
        = (TCP_CB_STATE_ESTABLISHED, 100, 103, 65535, 1020)
      ∧ (world_window_reopened.cb_table 0).iface = some netif0
      ∧ (world_window_reopened.cb_table 0).txq.entries = [entry_unsent]
      ∧ (∃ rest, ((tcp_timer_tick env_ok world_window_reopened
            { tv_sec := 0, tv_usec := 0 }).cb_table 0).txq.entries
          = (timer_resend (world_window_reopened.cb_table 0) { tv_sec := 1000, tv_usec := 0 }
              entry_unsent).1 :: rest)
      ∧ (∃ l1 l2, (tcp_timer_tick env_ok world_window_reopened { tv_sec := 0, tv_usec := 0 }).ip_log
          = world_window_reopened.ip_log ++ l1
            ++ (timer_resend (world_window_reopened.cb_table 0) { tv_sec := 1000, tv_usec := 0 }
                entry_unsent).2 :: l2) :=
  ⟨by decide, by decide, by decide,
    (timer_sends_first_retained env_ok world_window_reopened { tv_sec := 0, tv_usec := 0 }
      { tv_sec := 1000, tv_usec := 0 } 0 [] [] entry_unsent rfl (by decide) (by decide)
      (by decide) (by decide) (by decide) (fun x hx => absurd hx (List.not_mem_nil x)) (by decide)
      (Or.inl rfl)).1,
    (timer_sends_first_retained env_ok world_window_reopened { tv_sec := 0, tv_usec := 0 }
      { tv_sec := 1000, tv_usec := 0 } 0 [] [] entry_unsent rfl (by decide) (by decide)
      (by decide) (by decide) (by decide) (fun x hx => absurd hx (List.not_mem_nil x)) (by decide)
      (Or.inl rfl)).2.1⟩

/-! ## C26: `txq.snt` and the queue -/

set_option maxRecDepth 100000 in
/-- C26, evaluated: `txq.snt` equals the payload bytes of the entries handed to IP on a
zeroed block and on the connection of `world_established`.  Three bytes are deferred by
`tcp_tx` while the peer's window is closed (`snt = 0`, relation holds); after the window
has opened the timer hands the entry to IP and stamps it without adding to `snt`
(`snt = 0`, three bytes sent: relation broken); after the peer has acknowledged the bytes
the timer frees the entry and subtracts its length: the queue is empty and
`snt = 65533`.  Second run: three bytes sent at once (`snt = 3`, relation holds), then a
RST of the peer: `tcp_close_cb` empties the queue and leaves `snt = 3`. -/
theorem txq_snt_drifts :
    txq_snt_invariant tcp_cb.zero
      ∧ txq_snt_invariant (world_established.cb_table 0)
      ∧ world_deferred.map (fun w =>
          (decide (txq_snt_invariant (w.cb_table 0)), (w.cb_table 0).txq.snt,
            (w.cb_table 0).txq.entries.map (fun e => (e.timestamp.tv_sec, txq_payload e)),
            (w.cb_table 0).snd.wnd))
        = some (true, 0, [(0, 3)], 0)
      ∧ world_deferred_sent.map (fun w =>
          (decide (txq_snt_invariant (w.cb_table 0)), (w.cb_table 0).txq.snt,
            (w.cb_table 0).txq.entries.map (fun e => (e.timestamp.tv_sec, txq_payload e)),
            txq_sent_bytes (w.cb_table 0), w.ip_log.length))
        = some (false, 0, [(1000, 3)], 3, 1)
      ∧ world_deferred_acked.map (fun w =>
          (decide (txq_snt_invariant (w.cb_table 0)), (w.cb_table 0).txq.snt,
            (w.cb_table 0).txq.entries.length, (w.cb_table 0).snd.una, (w.cb_table 0).snd.nxt))
        = some (false, 65533, 0, 103, 103)
      ∧ world_sent3.map (fun w =>
          (decide (txq_snt_invariant (w.cb_table 0)), (w.cb_table 0).txq.snt,
            (w.cb_table 0).txq.entries.map (fun e => (e.timestamp.tv_sec, txq_payload e))))
        = some (true, 3, [(1000, 3)])
      ∧ world_sent3.map (fun w =>
          (decide (txq_snt_invariant
              ((tcp_event_segment_arrives env_ok w 0 segment_rst_est).cb_table 0)),
            ((tcp_event_segment_arrives env_ok w 0 segment_rst_est).cb_table 0).state,
            ((tcp_event_segment_arrives env_ok w 0 segment_rst_est).cb_table 0).txq.snt,
            ((tcp_event_segment_arrives env_ok w 0 segment_rst_est).cb_table 0).txq.entries.length))
        = some (false, TCP_CB_STATE_CLOSED, 3, 0) := by
  refine ⟨?_, ?_, ?_, ?_, ?_, ?_, ?_⟩ <;> decide

/-! ## C27: the queue after the scan of the timer -/

theorem txq_seg_append (node : Nat → Option txq_node) :
    ∀ (A B : List (Nat × tcp_txq_entry)) (p q : Option Nat),
      txq_seg node p q (A ++ B) ↔ ∃ r, txq_seg node p r A ∧ txq_seg node r q B := by
  intro A
  induction A with
  | nil =>
    intro B p q
    constructor
    · intro h; exact ⟨p, rfl, h⟩
    · rintro ⟨r, h1, h2⟩
      have : p = r := h1
      rw [this]; exact h2
  | cons x A ih =>
    intro B p q
    constructor
    · rintro ⟨h1, nx, h2, h3⟩
      obtain ⟨r, h4, h5⟩ := (ih B nx q).mp h3
      exact ⟨r, ⟨h1, nx, h2, h4⟩, h5⟩
    · rintro ⟨r, ⟨h1, nx, h2, h4⟩, h5⟩
      exact ⟨h1, nx, h2, (ih B nx q).mpr ⟨r, h4, h5⟩⟩

theorem txq_seg_congr (node node' : Nat → Option txq_node) :
    ∀ (L : List (Nat × tcp_txq_entry)) (p q : Option Nat),
      (∀ a ∈ L.map Prod.fst, node' a = node a) → txq_seg node p q L → txq_seg node' p q L := by
  intro L
  induction L with
  | nil => intro p q _ h; exact h
  | cons x L ih =>
    intro p q hn h
    obtain ⟨h1, nx, h2, h3⟩ := h
    refine ⟨h1, nx, ?_, ih nx q (fun a ha => hn a ?_) h3⟩
    · rw [hn x.1 (by simp)]; exact h2
    · simp only [List.map_cons, List.mem_cons]; exact Or.inr ha

theorem txq_seg_none_nil (node : Nat → Option txq_node) (q : Option Nat)
    (L : List (Nat × tcp_txq_entry)) (h : txq_seg node none q L) : L = [] := by
  cases L with
  | nil => rfl
  | cons x L => exact absurd h.1 (by simp)

theorem getLast_append_cons {α : Type} (A : List α) (x : α) (B : List α) (hB : B ≠ []) :
    (A ++ x :: B).getLast? = (A ++ B).getLast? := by
  cases B with
  | nil => exact absurd rfl hB
  | cons b B =>
    rw [show A ++ x :: b :: B = (A ++ [x]) ++ b :: B by simp]
    rw [List.getLast?_append_cons, List.getLast?_append_cons]

theorem tcp_timer_txq_keep (cb : tcp_cb) (timestamp : timeval) (e : tcp_txq_entry)
    (es : List tcp_txq_entry) (sum snt : Nat) (h : ntoh32 e.segment.seq ≥ cb.snd.una) :
    tcp_timer_txq cb timestamp (e :: es) sum snt
      = ((timer_entry cb timestamp sum e).1
            :: (tcp_timer_txq cb timestamp es
                (sub64 (sum + e.len) (TCP_HDR_LEN e.segment)) snt).1,
          (tcp_timer_txq cb timestamp es (sub64 (sum + e.len) (TCP_HDR_LEN e.segment)) snt).2.1,
          (timer_entry cb timestamp sum e).2
            ++ (tcp_timer_txq cb timestamp es
                (sub64 (sum + e.len) (TCP_HDR_LEN e.segment)) snt).2.2) := by
  conv => lhs; unfold tcp_timer_txq
  rw [if_pos h]
  rfl

theorem tcp_timer_txq_drop (cb : tcp_cb) (timestamp : timeval) (e : tcp_txq_entry)
    (es : List tcp_txq_entry) (sum snt : Nat) (h : ¬ ntoh32 e.segment.seq ≥ cb.snd.una) :
    tcp_timer_txq cb timestamp (e :: es) sum snt
      = tcp_timer_txq cb timestamp es sum (sub16 (snt + TCP_HDR_LEN e.segment) e.len) := by
  conv => lhs; unfold tcp_timer_txq
  rw [if_neg h]

theorem timer_scan_inv (cb : tcp_cb) (timestamp : timeval) :
    ∀ (fuel : Nat) (R : List (Nat × tcp_txq_entry)) (m : txq_mem) (prev cur : Option Nat)
      (K : List (Nat × tcp_txq_entry)) (sum : Nat),
      R.length ≤ fuel →
      txq_seg m.node m.head cur K →
      txq_seg m.node cur none R →
      prev = (K.map Prod.fst).getLast? →
      m.tail = ((K ++ R).map Prod.fst).getLast? →
      ((K ++ R).map Prod.fst).Nodup →
      ∃ m' R', timer_scan cb timestamp fuel m prev cur sum
            = some (m', (tcp_timer_txq cb timestamp (R.map Prod.snd) sum m.snt).2.2)
        ∧ txq_seg m'.node m'.head none (K ++ R')
        ∧ m'.tail = ((K ++ R').map Prod.fst).getLast?
        ∧ R'.map Prod.snd = (tcp_timer_txq cb timestamp (R.map Prod.snd) sum m.snt).1
        ∧ m'.snt = (tcp_timer_txq cb timestamp (R.map Prod.snd) sum m.snt).2.1
        ∧ R'.map Prod.fst = (R.filter (fun x => txq_kept cb x.2)).map Prod.fst
        ∧ (∀ x ∈ R, txq_kept cb x.2 = false → m'.node x.1 = none)
        ∧ (∀ z, z ∉ (K ++ R).map Prod.fst → m'.node z = m.node z) := by
  intro fuel
  induction fuel with
  | zero =>
    intro R m prev cur K sum hlen hK hR hprev htail hnd
    have hR0 : R = [] := List.length_eq_zero.mp (Nat.le_zero.mp hlen)
    subst hR0
    have hc : cur = none := hR
    subst hc
    refine ⟨m, [], ?_, ?_, ?_, rfl, rfl, rfl, ?_, fun _ _ => rfl⟩
    · rfl
    · simpa using hK
    · simpa using htail
    · intro x hx; exact absurd hx (List.not_mem_nil x)
  | succ f ih =>
    intro R m prev cur K sum hlen hK hR hprev htail hnd
    cases R with
    | nil =>
      have hc : cur = none := hR
      subst hc
      refine ⟨m, [], ?_, ?_, ?_, rfl, rfl, rfl, ?_, fun _ _ => rfl⟩
      · rfl
      · simpa using hK
      · simpa using htail
      · intro x hx; exact absurd hx (List.not_mem_nil x)
    | cons x R1 =>
      obtain ⟨hcur, nx, hnode, hR1⟩ := hR
      subst hcur
      have hlen1 : R1.length ≤ f := by
        simp only [List.length_cons] at hlen
        omega
      -- the addresses are distinct
      have hnd' : (K.map Prod.fst ++ x.1 :: R1.map Prod.fst).Nodup := by
        simpa [List.map_append] using hnd
      have hndK : (K.map Prod.fst).Nodup := (List.nodup_append.mp hnd').1
      have hndxR : (x.1 :: R1.map Prod.fst).Nodup := (List.nodup_append.mp hnd').2.1
      have hdisj := (List.nodup_append.mp hnd').2.2
      have haK : x.1 ∉ K.map Prod.fst := fun h => hdisj h (List.mem_cons_self _ _)
      have haR : x.1 ∉ R1.map Prod.fst := (List.nodup_cons.mp hndxR).1
      have hKR : ∀ z ∈ K.map Prod.fst, z ∉ R1.map Prod.fst :=
        fun z hz hz' => hdisj hz (List.mem_cons_of_mem _ hz')
      have hndKR : ((K ++ R1).map Prod.fst).Nodup := by
        rw [List.map_append]
        exact List.nodup_append.mpr ⟨hndK, (List.nodup_cons.mp hndxR).2, fun z hz hz' => hKR z hz hz'⟩
      by_cases hk : ntoh32 x.2.segment.seq ≥ cb.snd.una
      · -- the entry is kept
        have hscan : timer_scan cb timestamp (f + 1) m prev (some x.1) sum
            = (match timer_scan cb timestamp f
                { m with node := fun z =>
                    if z = x.1 then
                      some { entry := (timer_entry cb timestamp sum x.2).1, next := nx }
                    else m.node z }
                (some x.1) nx (sub64 (sum + x.2.len) (TCP_HDR_LEN x.2.segment)) with
              | none => none
              | some res => some (res.1, (timer_entry cb timestamp sum x.2).2 ++ res.2)) := by
          conv => lhs; unfold timer_scan
          simp only [hnode, hk, if_true]
        obtain ⟨m', R1', e1, e2, e3, e4, e5, e6, e7, e8⟩ := ih R1
          { m with node := fun z =>
              if z = x.1 then some { entry := (timer_entry cb timestamp sum x.2).1, next := nx }
              else m.node z }
          (some x.1) nx (K ++ [(x.1, (timer_entry cb timestamp sum x.2).1)])
          (sub64 (sum + x.2.len) (TCP_HDR_LEN x.2.segment)) hlen1
          ((txq_seg_append _ _ _ _ _).mpr ⟨some x.1,
            txq_seg_congr m.node _ K _ _ (fun z hz => by
              have : z ≠ x.1 := fun h => haK (h ▸ hz)
              simp [this]) hK,
            ⟨rfl, nx, by simp, rfl⟩⟩)
          (txq_seg_congr m.node _ R1 _ _ (fun z hz => by
              have : z ≠ x.1 := fun h => haR (h ▸ hz)
              simp [this]) hR1)
          (by simp)
          (by
            show m.tail = _
            rw [htail]
            simp [List.map_append])
          (by simpa [List.map_append] using hnd)
        refine ⟨m', (x.1, (timer_entry cb timestamp sum x.2).1) :: R1', ?_, ?_, ?_, ?_, ?_, ?_,
          ?_, ?_⟩
        · rw [hscan, e1, List.map_cons, tcp_timer_txq_keep _ _ _ _ _ _ hk]
        · simpa using e2
        · simpa using e3
        · rw [List.map_cons, List.map_cons, tcp_timer_txq_keep _ _ _ _ _ _ hk, e4]
        · rw [List.map_cons, tcp_timer_txq_keep _ _ _ _ _ _ hk, e5]
        · have hkx : txq_kept cb x.2 = true := by simpa [txq_kept] using hk
          rw [List.filter_cons, if_pos hkx, List.map_cons, List.map_cons, e6]
        · intro y hy hny
          rcases List.mem_cons.mp hy with h | h
          · subst h
            have hkx : txq_kept cb y.2 = true := by simpa [txq_kept] using hk
            rw [hkx] at hny
            exact absurd hny (by simp)
          · exact e7 y h hny
        · intro z hz
          have hz1 : z ∉ List.map Prod.fst
              (K ++ [(x.1, (timer_entry cb timestamp sum x.2).1)] ++ R1) := by
            simpa [List.map_append] using hz
          rw [e8 z hz1]
          have : z ≠ x.1 := by
            intro h
            apply hz
            rw [h]
            simp
          simp [this]
      · -- the entry is removed
        have hkx : txq_kept cb x.2 = false := by simpa [txq_kept] using hk
        have hnx : nx = none → R1 = [] := fun h => txq_seg_none_nil m.node none R1 (h ▸ hR1)
        have hnx' : nx ≠ none → R1.map Prod.fst ≠ [] := by
          intro h hR
          have : R1 = [] := List.map_eq_nil_iff.mp hR
          subst this
          exact h hR1
        rcases List.eq_nil_or_concat K with hK0 | ⟨K0, y, hK0⟩
        · -- no entry has been kept so far: `prev == NULL`
          subst hK0
          have hp : prev = none := by simpa using hprev
          subst hp
          have hscan : timer_scan cb timestamp (f + 1) m none (some x.1) sum
              = timer_scan cb timestamp f
                  { node := fun z => if z = x.1 then none else m.node z
                    head := nx
                    tail := if nx.isNone then none else m.tail
                    snt := sub16 (m.snt + TCP_HDR_LEN x.2.segment) x.2.len }
                  none nx sum := by
            conv => lhs; unfold timer_scan
            simp only [hnode, hk, if_false]
            cases nx <;> rfl
          obtain ⟨m', R1', e1, e2, e3, e4, e5, e6, e7, e8⟩ := ih R1
            { node := fun z => if z = x.1 then none else m.node z
              head := nx
              tail := if nx.isNone then none else m.tail
              snt := sub16 (m.snt + TCP_HDR_LEN x.2.segment) x.2.len }
            none nx [] sum hlen1 rfl
            (txq_seg_congr m.node _ R1 _ _ (fun z hz => by
              have : z ≠ x.1 := fun h => haR (h ▸ hz)
              simp [this]) hR1)
            (by simp)
            (by
              show (if nx.isNone then none else m.tail) = _
              cases hn : nx with
              | none =>
                have := hnx hn
                subst this
                simp
              | some b =>
                have hne := hnx' (by rw [hn]; simp)
                simp only [Option.isNone_some, Bool.false_eq_true, if_false, htail,
                  List.nil_append, List.map_cons]
                exact getLast_append_cons [] x.1 _ hne)
            (by simpa using (List.nodup_cons.mp hndxR).2)
          refine ⟨m', R1', ?_, e2, e3, ?_, ?_, ?_, ?_, ?_⟩
          · rw [hscan, e1, List.map_cons, tcp_timer_txq_drop _ _ _ _ _ _ hk]
          · rw [List.map_cons, tcp_timer_txq_drop _ _ _ _ _ _ hk, e4]
          · rw [List.map_cons, tcp_timer_txq_drop _ _ _ _ _ _ hk, e5]
          · rw [List.filter_cons, if_neg (by simp [hkx]), e6]
          · intro y hy hny
            rcases List.mem_cons.mp hy with h | h
            · subst h
              rw [e8 y.1 (by simpa using haR)]
              simp
            · exact e7 y h hny
          · intro z hz
            have hz1 : z ∉ List.map Prod.fst ([] ++ R1) := by
              intro h
              apply hz
              simp only [List.nil_append, List.map_cons, List.mem_cons]
              exact Or.inr (by simpa using h)
            rw [e8 z hz1]
            have : z ≠ x.1 := by
              intro h
              apply hz
              rw [h]
              simp
            simp [this]
        · -- `prev` is the last entry kept
          rw [List.concat_eq_append] at hK0
          subst hK0
          have hp : prev = some y.1 := by simpa using hprev
          subst hp
          obtain ⟨r, hK0seg, hr, nxp, hynode, hnxp⟩ := (txq_seg_append _ _ _ _ _).mp hK
          have hnxp' : nxp = some x.1 := hnxp
          subst hnxp'
          have hyK : y.1 ∈ (K0 ++ [y]).map Prod.fst := by simp
          have hyx : y.1 ≠ x.1 := fun h => haK (h ▸ hyK)
          have hyR : y.1 ∉ R1.map Prod.fst := hKR y.1 hyK
          have hndK' : (K0.map Prod.fst ++ [y.1]).Nodup := by
            simpa [List.map_append] using hndK
          have hyK0 : y.1 ∉ K0.map Prod.fst :=
            fun h => (List.nodup_append.mp hndK').2.2 h (List.mem_singleton_self _)
          have hscan : timer_scan cb timestamp (f + 1) m (some y.1) (some x.1) sum
              = timer_scan cb timestamp f
                  { node := fun z =>
                      if z = x.1 then none
                      else if z = y.1 then some { entry := y.2, next := nx }
                      else m.node z
                    head := m.head
                    tail := if nx.isNone then some y.1 else m.tail
                    snt := sub16 (m.snt + TCP_HDR_LEN x.2.segment) x.2.len }
                  (some y.1) nx sum := by
            conv => lhs; unfold timer_scan
            simp only [hnode, hk, if_false]
            cases nx <;> simp [hynode]
          obtain ⟨m', R1', e1, e2, e3, e4, e5, e6, e7, e8⟩ := ih R1
            { node := fun z =>
                if z = x.1 then none
                else if z = y.1 then some { entry := y.2, next := nx }
                else m.node z
              head := m.head
              tail := if nx.isNone then some y.1 else m.tail
              snt := sub16 (m.snt + TCP_HDR_LEN x.2.segment) x.2.len }
            (some y.1) nx (K0 ++ [y]) sum hlen1
            ((txq_seg_append _ _ _ _ _).mpr ⟨r,
              txq_seg_congr m.node _ K0 _ _ (fun z hz => by
                have h1 : z ≠ x.1 := fun h => haK (by
                  rw [← h, List.map_append]
                  exact List.mem_append_left _ hz)
                have h2 : z ≠ y.1 := fun h => hyK0 (h ▸ hz)
                simp [h1, h2]) hK0seg,
              ⟨hr, nx, by simp [hyx], rfl⟩⟩)
            (txq_seg_congr m.node _ R1 _ _ (fun z hz => by
              have h1 : z ≠ x.1 := fun h => haR (h ▸ hz)
              have h2 : z ≠ y.1 := fun h => hyR (h ▸ hz)
              simp [h1, h2]) hR1)
            (by simp)
            (by
              show (if nx.isNone then some y.1 else m.tail) = _
              cases hn : nx with
              | none =>
                have := hnx hn
                subst this
                simp
              | some b =>
                have hne := hnx' (by rw [hn]; simp)
                simp only [Option.isNone_some, Bool.false_eq_true, if_false, htail,
                  List.map_append, List.map_cons]
                exact getLast_append_cons _ x.1 _ hne)
            hndKR
          refine ⟨m', R1', ?_, e2, e3, ?_, ?_, ?_, ?_, ?_⟩
          · rw [hscan, e1, List.map_cons, tcp_timer_txq_drop _ _ _ _ _ _ hk]
          · rw [List.map_cons, tcp_timer_txq_drop _ _ _ _ _ _ hk, e4]
          · rw [List.map_cons, tcp_timer_txq_drop _ _ _ _ _ _ hk, e5]
          · rw [List.filter_cons, if_neg (by simp [hkx]), e6]
          · intro v hv hnv
            rcases List.mem_cons.mp hv with h | h
            · subst h
              rw [e8 v.1 (by
                rw [List.map_append]
                intro h
                rcases List.mem_append.mp h with h | h
                · exact haK h
                · exact haR h)]
              simp
            · exact e7 v h hnv
          · intro z hz
            have hzK : z ∉ (K0 ++ [y]).map Prod.fst := by
              intro h
              apply hz
              rw [List.map_append]
              exact List.mem_append_left _ h
            have hz1 : z ∉ List.map Prod.fst (K0 ++ [y] ++ R1) := by
              intro h
              rw [List.map_append] at h
              rcases List.mem_append.mp h with h | h
              · exact hzK h
              · apply hz
                rw [List.map_append]
                exact List.mem_append_right _ (List.mem_cons_of_mem _ h)
            rw [e8 z hz1]
            have h1 : z ≠ x.1 := by
              intro h
              apply hz
              rw [h]
              simp
            have h2 : z ≠ y.1 := fun h => hzK (h ▸ hyK)
            simp [h1, h2]

/-- The entry the timer keeps is the entry it found, or that entry rewritten for sending:
sequence number, payload and length are the same. -/
theorem timer_entry_same (cb : tcp_cb) (timestamp : timeval) (sum : Nat) (e : tcp_txq_entry) :
    (timer_entry cb timestamp sum e).1.segment.seq = e.segment.seq
      ∧ (timer_entry cb timestamp sum e).1.data = e.data
      ∧ (timer_entry cb timestamp sum e).1.len = e.len := by
  unfold timer_entry
  split
  · split
    · exact ⟨rfl, rfl, rfl⟩
    · split
      · exact ⟨rfl, rfl, rfl⟩
      · exact ⟨rfl, rfl, rfl⟩
  · exact ⟨rfl, rfl, rfl⟩

/-- The entries the scan keeps are the entries with `seq >= snd.una`, in their order. -/
theorem tcp_timer_txq_kept (cb : tcp_cb) (timestamp : timeval) :
    ∀ (l : List tcp_txq_entry) (sum snt : Nat),
      List.Forall₂
        (fun e e' => e'.segment.seq = e.segment.seq ∧ e'.data = e.data ∧ e'.len = e.len)
        (l.filter (txq_kept cb)) (tcp_timer_txq cb timestamp l sum snt).1 := by
  intro l
  induction l with
  | nil => intro sum snt; exact List.Forall₂.nil
  | cons e l ih =>
    intro sum snt
    by_cases hk : ntoh32 e.segment.seq ≥ cb.snd.una
    · have hkx : txq_kept cb e = true := by simpa [txq_kept] using hk
      rw [tcp_timer_txq_keep _ _ _ _ _ _ hk, List.filter_cons, if_pos hkx]
      exact List.Forall₂.cons (timer_entry_same cb timestamp sum e) (ih _ _)
    · have hkx : txq_kept cb e = false := by simpa [txq_kept] using hk
      rw [tcp_timer_txq_drop _ _ _ _ _ _ hk, List.filter_cons, if_neg (by simp [hkx])]
      exact ih _ _

/-- The count `txq.snt` after the scan: the payload lengths of the removed entries have
been subtracted in 16-bit arithmetic. -/
theorem tcp_timer_txq_snt (cb : tcp_cb) (timestamp : timeval) :
    ∀ (l : List tcp_txq_entry) (sum snt : Nat), snt < 65536 →
      (tcp_timer_txq cb timestamp l sum snt).2.1 < 65536
        ∧ (((tcp_timer_txq cb timestamp l sum snt).2.1 : Nat) : Int)
          = ((snt : Int)
              - ((l.filter (fun e => !txq_kept cb e)).map
                  (fun e => (e.len : Int) - (TCP_HDR_LEN e.segment : Int))).sum) % 65536 := by
  intro l
  induction l with
  | nil =>
    intro sum snt h
    refine ⟨h, ?_⟩
    show (snt : Int) = ((snt : Int) - 0) % 65536
    omega
  | cons e l ih =>
    intro sum snt h
    by_cases hk : ntoh32 e.segment.seq ≥ cb.snd.una
    · have hkx : txq_kept cb e = true := by simpa [txq_kept] using hk
      rw [tcp_timer_txq_keep _ _ _ _ _ _ hk, List.filter_cons, if_neg (by simp [hkx])]
      exact ih _ _ h
    · have hkx : txq_kept cb e = false := by simpa [txq_kept] using hk
      rw [tcp_timer_txq_drop _ _ _ _ _ _ hk, List.filter_cons, if_pos (by simp [hkx]),
        List.map_cons, List.sum_cons]
      have h1 : sub16 (snt + TCP_HDR_LEN e.segment) e.len < 65536 := by
        unfold sub16
        exact Nat.mod_lt _ (by decide)
      obtain ⟨r1, r2⟩ := ih sum (sub16 (snt + TCP_HDR_LEN e.segment) e.len) h1
      refine ⟨r1, ?_⟩
      rw [r2]
      generalize ((l.filter (fun e => !txq_kept cb e)).map
        (fun e => (e.len : Int) - (TCP_HDR_LEN e.segment : Int))).sum = S
      have h2 : ((sub16 (snt + TCP_HDR_LEN e.segment) e.len : Nat) : Int)
          = ((snt : Int) + (TCP_HDR_LEN e.segment : Int) - (e.len : Int)) % 65536 := by
        unfold sub16
        generalize TCP_HDR_LEN e.segment = hl
        generalize e.len = ln
        omega
      rw [h2]
      generalize (TCP_HDR_LEN e.segment : Int) = hl
      generalize (e.len : Int) = ln
      omega

/-- Linked entries start at the pointer that leads to them. -/
theorem txq_seg_head (node : Nat → Option txq_node) (p q : Option Nat)
    (L : List (Nat × tcp_txq_entry)) (h : txq_seg node p q L) (hq : q = none) :
    p = (L.map Prod.fst).head? := by
  cases L with
  | nil => rw [hq] at h; exact h
  | cons x L => exact h.1

/-- The last of the entries linked up to `NULL` has `next == NULL`. -/
theorem txq_seg_last (node : Nat → Option txq_node) :
    ∀ (L : List (Nat × tcp_txq_entry)) (p : Option Nat), txq_seg node p none L →
      ∀ x, L.getLast? = some x → node x.1 = some { entry := x.2, next := none } := by
  intro L
  induction L with
  | nil => intro p _ x hx; simp at hx
  | cons y L ih =>
    intro p h x hx
    obtain ⟨_, nx, h2, h3⟩ := h
    cases L with
    | nil =>
      have h4 : nx = none := h3
      simp only [List.getLast?_singleton, Option.some.injEq] at hx
      rw [← hx, h2, h4]
    | cons z L =>
      rw [List.getLast?_cons_cons] at hx
      exact ih nx h3 x hx

/-- C27: the scan of the timer over the queue of a block it did not time out, on the linked
entries in memory.  The block is not CLOSED and the timeout test of the timer fails for
it, so that the timer reaches the loop; it has an interface when the queue is not empty
(with `cb->iface == NULL` the timer dereferences a null pointer before the loop); `L` and
`m.snt` are the queue and the count `txq.snt` of the block.  For a well-formed queue (the
entries `L` linked from `head` to `NULL` at distinct addresses, `tail` the address of the
last) and a loop bound of at least the length, the loop ends and leaves linked from `head`
to `NULL` exactly the prior entries with `ntoh32(seq) >= snd.una`, at their addresses and
in their order, each with its sequence number, payload and length (an entry the scan sent has a new `ack`, checksum and
timestamp); `head` is the address of the first of them and `tail` of the last, both `NULL`
when none is left; the `next` of the last is `NULL`; the removed entries are freed and no
other address is touched; and `snt` is the prior `snt` minus the payload lengths
`len - TCP_HDR_LEN` of the removed entries, modulo 2^16.  The entries, `snt` and the calls
of `ip_tx` are those of the scan on the list of entries, `tcp_timer_txq`, and the block
the iteration of the timer leaves, `timer_block`, is the prior block with these entries and
this `snt`. -/
theorem timer_scan_vacuum (cb : tcp_cb) (timestamp : timeval) (fuel : Nat) (m : txq_mem)
    (L : List (Nat × tcp_txq_entry))
    (hst : cb.state ≠ TCP_CB_STATE_CLOSED)
    (hexp : ¬ timer_expired cb timestamp)
    (hif : L ≠ [] → cb.iface ≠ none)
    (hq : cb.txq.entries = L.map Prod.snd)
    (hs : cb.txq.snt = m.snt)
    (hseg : txq_seg m.node m.head none L)
    (htail : m.tail = (L.map Prod.fst).getLast?)
    (hnd : (L.map Prod.fst).Nodup)
    (hsnt : m.snt < 65536)
    (hfuel : L.length ≤ fuel) :
    ∃ m' L',
      timer_scan cb timestamp fuel m none m.head 0
          = some (m', (tcp_timer_txq cb timestamp (L.map Prod.snd) 0 m.snt).2.2)
        ∧ L'.map Prod.fst = (L.filter (fun x => txq_kept cb x.2)).map Prod.fst
        ∧ List.Forall₂
            (fun e e' => e'.segment.seq = e.segment.seq ∧ e'.data = e.data ∧ e'.len = e.len)
            ((L.map Prod.snd).filter (txq_kept cb)) (L'.map Prod.snd)
        ∧ txq_seg m'.node m'.head none L'
        ∧ m'.head = (L'.map Prod.fst).head?
        ∧ m'.tail = (L'.map Prod.fst).getLast?
        ∧ (∀ x, L'.getLast? = some x → m'.node x.1 = some { entry := x.2, next := none })
        ∧ (∀ x ∈ L, txq_kept cb x.2 = false → m'.node x.1 = none)
        ∧ (∀ z, z ∉ L.map Prod.fst → m'.node z = m.node z)
        ∧ m'.snt < 65536
        ∧ ((m'.snt : Nat) : Int)
            = ((m.snt : Int)
                - (((L.map Prod.snd).filter (fun e => !txq_kept cb e)).map
                    (fun e => (e.len : Int) - (TCP_HDR_LEN e.segment : Int))).sum) % 65536
        ∧ (L'.map Prod.snd, m'.snt, (tcp_timer_txq cb timestamp (L.map Prod.snd) 0 m.snt).2.2)
            = tcp_timer_txq cb timestamp (L.map Prod.snd) 0 m.snt
        ∧ timer_block cb timestamp
            = { cb with txq := { entries := L'.map Prod.snd, snt := m'.snt } } := by
  obtain ⟨m', L', h1, h2, h3, h4, h5, h6, h7, h8⟩ :=
    timer_scan_inv cb timestamp fuel L m none m.head [] 0 hfuel rfl hseg rfl
      (by simpa using htail) (by simpa using hnd)
  have h2' : txq_seg m'.node m'.head none L' := by simpa using h2
  have h3' : m'.tail = (L'.map Prod.fst).getLast? := by simpa using h3
  have hs' := tcp_timer_txq_snt cb timestamp (L.map Prod.snd) 0 m.snt hsnt
  refine ⟨m', L', h1, h6, ?_, h2', txq_seg_head _ _ _ _ h2' rfl, h3',
    txq_seg_last _ _ _ h2', h7, ?_, ?_, ?_, ?_, ?_⟩
  · rw [h4]; exact tcp_timer_txq_kept cb timestamp (L.map Prod.snd) 0 m.snt
  · intro z hz; exact h8 z (by simpa using hz)
  · rw [h5]; exact hs'.1
  · rw [h5]; exact hs'.2
  · rw [h4, h5]
  · unfold timer_block
    rw [if_neg hst, if_neg hexp, hq, hs, h4, h5]

set_option maxRecDepth 100000 in
/-- C27 at a concrete input: `cb_acked_103` is the block of a connection after two sends and
the ACK of the peer for the first; at second 1002 the timer does not time it out
(`timeout` is 1020).  The scan over its queue at `txq_mem_two` frees the entry at address 10
and leaves the entry at 20 as head and tail, `snt` goes from 6 to 3, and nothing is sent. -/
theorem timer_scan_vacuum_witness :
    (cb_acked_103.state, cb_acked_103.iface, cb_acked_103.timeout, cb_acked_103.snd.una,
        cb_acked_103.snd.nxt, cb_acked_103.txq.snt)
      = (TCP_CB_STATE_ESTABLISHED, some netif0, 1020, 103, 106, 6)
      ∧ ¬ timer_expired cb_acked_103 ⟨1002, 0⟩
      ∧ cb_acked_103.txq.entries = txq_two_entries.map Prod.snd
      ∧ txq_two_entries.map (fun x => (x.1, ntoh32 x.2.segment.seq, x.2.data, x.2.timestamp.tv_sec))
          = [(10, 100, [1, 2, 3], 1000), (20, 103, [4, 5, 6], 1000)]
      ∧ txq_seg txq_mem_two.node txq_mem_two.head none txq_two_entries
      ∧ txq_mem_two.tail = (txq_two_entries.map Prod.fst).getLast?
      ∧ (txq_two_entries.map Prod.fst).Nodup
      ∧ (timer_scan cb_acked_103 ⟨1002, 0⟩ 2 txq_mem_two none txq_mem_two.head 0).map
          (fun r => (r.1.head, r.1.tail, r.1.snt, (r.1.node 10).isNone,
            (r.1.node 20).map (fun n => n.next), r.2.length))
          = some (some 20, some 20, 3, true, some none, 0)
      ∧ ((timer_block cb_acked_103 ⟨1002, 0⟩).txq.snt,
          (timer_block cb_acked_103 ⟨1002, 0⟩).txq.entries.map
            (fun e => (ntoh32 e.segment.seq, e.data)))
          = (3, [(103, [4, 5, 6])])
      ∧ ∃ m' L',
        timer_scan cb_acked_103 ⟨1002, 0⟩ 2 txq_mem_two none txq_mem_two.head 0
            = some (m', (tcp_timer_txq cb_acked_103 ⟨1002, 0⟩
                (txq_two_entries.map Prod.snd) 0 txq_mem_two.snt).2.2)
          ∧ L'.map Prod.fst
              = (txq_two_entries.filter (fun x => txq_kept cb_acked_103 x.2)).map Prod.fst
          ∧ List.Forall₂
              (fun e e' => e'.segment.seq = e.segment.seq ∧ e'.data = e.data ∧ e'.len = e.len)
              ((txq_two_entries.map Prod.snd).filter (txq_kept cb_acked_103))
              (L'.map Prod.snd)
          ∧ txq_seg m'.node m'.head none L'
          ∧ m'.head = (L'.map Prod.fst).head?
          ∧ m'.tail = (L'.map Prod.fst).getLast?
          ∧ (∀ x, L'.getLast? = some x → m'.node x.1 = some { entry := x.2, next := none })
          ∧ (∀ x ∈ txq_two_entries, txq_kept cb_acked_103 x.2 = false → m'.node x.1 = none)
          ∧ (∀ z, z ∉ txq_two_entries.map Prod.fst → m'.node z = txq_mem_two.node z)
          ∧ m'.snt < 65536
          ∧ ((m'.snt : Nat) : Int)
              = ((txq_mem_two.snt : Int)
                  - (((txq_two_entries.map Prod.snd).filter
                        (fun e => !txq_kept cb_acked_103 e)).map
                      (fun e => (e.len : Int) - (TCP_HDR_LEN e.segment : Int))).sum) % 65536
          ∧ (L'.map Prod.snd, m'.snt,
              (tcp_timer_txq cb_acked_103 ⟨1002, 0⟩
                (txq_two_entries.map Prod.snd) 0 txq_mem_two.snt).2.2)
              = tcp_timer_txq cb_acked_103 ⟨1002, 0⟩
                  (txq_two_entries.map Prod.snd) 0 txq_mem_two.snt
          ∧ timer_block cb_acked_103 ⟨1002, 0⟩
              = { cb_acked_103 with txq := { entries := L'.map Prod.snd, snt := m'.snt } } :=
  ⟨rfl, by decide, rfl, rfl, ⟨rfl, some 20, rfl, rfl, none, rfl, rfl⟩, rfl, by decide, rfl, rfl,
    timer_scan_vacuum cb_acked_103 ⟨1002, 0⟩ 2 txq_mem_two txq_two_entries
      (by decide) (by decide) (fun _ => by decide) rfl rfl
      ⟨rfl, some 20, rfl, rfl, none, rfl, rfl⟩ rfl (by decide) (by decide) (by decide)⟩

/-! ## C21: the push onto the backlog of the parent -/

theorem backlog_set (w : World) (i : Slot) (cb : tcp_cb) (j : Slot) :
    ((w.set i cb).cb_table j).backlog
      = if j = i then cb.backlog else (w.cb_table j).backlog := by
  simp only [World.set]
  split <;> rfl

theorem backlog_modify (w : World) (i : Slot) (f : tcp_cb → tcp_cb) (j : Slot) :
    ((w.modify i f).cb_table j).backlog
      = if j = i then (f (w.cb_table i)).backlog else (w.cb_table j).backlog :=
  backlog_set w i _ j

theorem backlog_ite_self (w : World) (i j : Slot) :
    (if j = i then (w.cb_table i).backlog else (w.cb_table j).backlog)
      = (w.cb_table j).backlog := by
  split
  · rename_i h; rw [h]
  · rfl

theorem tcp_close_cb_backlog (cb : tcp_cb) : (tcp_close_cb cb).backlog = cb.backlog := rfl

/-- From `CHECK_URG` on no backlog is written. -/
theorem segment_check_urg_backlog (env : Env) (w : World) (i : Slot) (hdr : tcp_hdr)
    (segment : List Nat) (plen : Nat) (now : timeval) (j : Slot) :
    ((segment_check_urg env w i hdr segment plen now).cb_table j).backlog
      = (w.cb_table j).backlog := by
  unfold segment_check_urg
  simp only []
  repeat' split
  all_goals
    simp only [backlog_modify, backlog_set, tcp_tx_backlog, backlog_ite_self, World.set_same,
      if_true,
      ite_self, if_true, if_false, eq_self_iff_true]

theorem World.modify_cb (w : World) (i : Slot) (f : tcp_cb → tcp_cb) (j : Slot) :
    (w.modify i f).cb_table j = if j = i then f (w.cb_table i) else w.cb_table j := rfl

theorem segment_arrives_closed_backlog (env : Env) (w : World) (i : Slot) (hdr : tcp_hdr)
    (plen : Nat) (now : timeval) (j : Slot) :
    ((segment_arrives_closed env w i hdr plen now).cb_table j).backlog
      = (w.cb_table j).backlog := by
  unfold segment_arrives_closed
  repeat' split
  all_goals
    simp only [tcp_tx_backlog,
      ite_self, if_true, if_false, eq_self_iff_true]

theorem error_rx_listen_backlog (w : World) (i j : Slot) :
    ((error_rx_listen w i).cb_table j).backlog = (w.cb_table j).backlog := by
  unfold error_rx_listen
  rw [backlog_modify]
  exact backlog_ite_self w i j

theorem segment_arrives_listen_backlog (env : Env) (w : World) (i : Slot) (hdr : tcp_hdr)
    (segment : List Nat) (plen : Nat) (now : timeval) (j : Slot) :
    ((segment_arrives_listen env w i hdr segment plen now).cb_table j).backlog
      = (w.cb_table j).backlog := by
  unfold segment_arrives_listen
  simp only []
  repeat' split
  all_goals
    simp only [segment_check_urg_backlog, error_rx_listen_backlog, backlog_modify, backlog_set,
      tcp_tx_backlog, backlog_ite_self,
      ite_self, if_true, if_false, eq_self_iff_true]

theorem segment_arrives_syn_sent_rest_backlog (env : Env) (w : World) (i : Slot)
    (hdr : tcp_hdr) (segment : List Nat) (plen : Nat) (now : timeval) (acceptable : Bool)
    (j : Slot) :
    ((segment_arrives_syn_sent_rest env w i hdr segment plen now acceptable).cb_table j).backlog
      = (w.cb_table j).backlog := by
  unfold segment_arrives_syn_sent_rest
  simp only []
  repeat' split
  all_goals
    simp only [segment_check_urg_backlog, backlog_modify, backlog_set, tcp_tx_backlog,
      backlog_ite_self, tcp_close_cb_backlog,
      ite_self, if_true, if_false, eq_self_iff_true]

theorem segment_arrives_syn_sent_backlog (env : Env) (w : World) (i : Slot) (hdr : tcp_hdr)
    (segment : List Nat) (plen : Nat) (now : timeval) (j : Slot) :
    ((segment_arrives_syn_sent env w i hdr segment plen now).cb_table j).backlog
      = (w.cb_table j).backlog := by
  unfold segment_arrives_syn_sent
  simp only []
  repeat' split
  all_goals
    simp only [segment_arrives_syn_sent_rest_backlog, tcp_tx_backlog,
      ite_self, if_true, if_false, eq_self_iff_true]

theorem segment_ack_established_backlog (env : Env) (w : World) (i : Slot) (hdr : tcp_hdr)
    (now : timeval) (j : Slot) :
    ((segment_ack_established env w i hdr now).1.cb_table j).backlog
      = (w.cb_table j).backlog := by
  unfold segment_ack_established
  simp only []
  repeat' split
  all_goals
    simp only [backlog_modify, backlog_set, tcp_tx_backlog, backlog_ite_self, World.set_same,
      ite_self, if_true, if_false, eq_self_iff_true]

/-- The ACK step writes one backlog at most: that of the parent of a block in SYN_RCVD
whose `snd.una <= seg.ack <= snd.nxt`, to which the block is appended. -/
theorem segment_ack_backlog (env : Env) (w : World) (i : Slot) (hdr : tcp_hdr)
    (now : timeval) (j : Slot) :
    ((segment_ack env w i hdr now).1.cb_table j).backlog
      = if (w.cb_table i).state = TCP_CB_STATE_SYN_RCVD
            ∧ ((w.cb_table i).snd.una ≤ ntoh32 hdr.ack ∧ ntoh32 hdr.ack ≤ (w.cb_table i).snd.nxt)
            ∧ (w.cb_table i).parent = some j
        then (w.cb_table j).backlog ++ [i] else (w.cb_table j).backlog := by
  unfold segment_ack
  simp only []
  by_cases hst3 : (w.cb_table i).state = TCP_CB_STATE_SYN_RCVD
  · have hst : (w.cb_table i).state = 3 := hst3
    simp only [hst, true_and]
    by_cases hr : (w.cb_table i).snd.una ≤ ntoh32 hdr.ack
        ∧ ntoh32 hdr.ack ≤ (w.cb_table i).snd.nxt
    · rw [if_neg (not_not.mpr hr), segment_ack_established_backlog]
      cases hp : (w.cb_table i).parent with
      | none =>
        simp only [hr, backlog_set, backlog_ite_self, and_false, if_false,
          reduceCtorEq]
      | some p =>
        simp only [hr, backlog_modify, backlog_set, backlog_ite_self, World.set_same,
          true_and, Option.some.injEq, queue_push, and_self]
        by_cases hj : j = p
        · subst hj
          simp only [if_true, World.set]
        · have hj2 : ¬ p = j := fun h => hj h.symm
          simp only [hj, hj2, if_false]
    · have hn : ¬ (((w.cb_table i).snd.una ≤ ntoh32 hdr.ack
              ∧ ntoh32 hdr.ack ≤ (w.cb_table i).snd.nxt)
            ∧ (w.cb_table i).parent = some j) := fun h => hr h.1
      rw [if_pos hr, tcp_tx_backlog, if_neg hn]
  · have hn : ¬ ((w.cb_table i).state = TCP_CB_STATE_SYN_RCVD
          ∧ ((w.cb_table i).snd.una ≤ ntoh32 hdr.ack
            ∧ ntoh32 hdr.ack ≤ (w.cb_table i).snd.nxt)
          ∧ (w.cb_table i).parent = some j) := fun h => hst3 h.1
    rw [if_neg hn]
    split
    · rename_i h; exact absurd h hst3
    · exact segment_ack_established_backlog env w i hdr now j
    · exact segment_ack_established_backlog env w i hdr now j
    · exact segment_ack_established_backlog env w i hdr now j
    · exact segment_ack_established_backlog env w i hdr now j
    · exact segment_ack_established_backlog env w i hdr now j
    · split
      · simp only [backlog_modify, backlog_ite_self, tcp_close_cb_backlog]
      · rfl
    · rfl

/-- The part of `tcp_event_segment_arrives` for the synchronized states appends the block
to the backlog of its parent under the condition `syn_rcvd_acked`, and writes no backlog
otherwise. -/
theorem segment_arrives_synchronized_backlog (env : Env) (w : World) (i : Slot)
    (hdr : tcp_hdr) (segment : List Nat) (plen : Nat) (now : timeval) (j : Slot) :
    ((segment_arrives_synchronized env w i hdr segment plen now).cb_table j).backlog
      = if syn_rcvd_acked (w.cb_table i) hdr plen ∧ (w.cb_table i).parent = some j
        then (w.cb_table j).backlog ++ [i] else (w.cb_table j).backlog := by
  unfold segment_arrives_synchronized
  simp only []
  cases hacc : segment_acceptable (w.cb_table i) hdr plen
  · have hn : ¬ (syn_rcvd_acked (w.cb_table i) hdr plen ∧ (w.cb_table i).parent = some j) := by
      intro h
      have h2 := h.1.2.1
      rw [hacc] at h2
      exact absurd h2 (by decide)
    rw [if_neg hn]
    simp only [Bool.not_false, if_true]
    split
    · exact tcp_tx_backlog _ _ _ _ _ _ _ _ _
    · rfl
  · simp only [Bool.not_true, Bool.false_eq_true, if_false]
    cases hrst : TCP_FLG_ISSET hdr.flg TCP_FLG_RST
    · simp only [Bool.false_eq_true, if_false]
      cases hsyn : TCP_FLG_ISSET hdr.flg TCP_FLG_SYN
      · simp only [Bool.false_eq_true, if_false]
        cases hack : TCP_FLG_ISSET hdr.flg TCP_FLG_ACK
        · have hn : ¬ (syn_rcvd_acked (w.cb_table i) hdr plen
              ∧ (w.cb_table i).parent = some j) := by
            intro h
            have h2 := h.1.2.2.2.2.1
            rw [hack] at h2
            exact absurd h2 (by decide)
          rw [if_neg hn]
          simp only [Bool.false_eq_true, if_false, if_true]
          exact segment_check_urg_backlog _ _ _ _ _ _ _ _
        · simp only [if_true]
          have hb := segment_ack_backlog env w i hdr now j
          have hcond : (syn_rcvd_acked (w.cb_table i) hdr plen ∧ (w.cb_table i).parent = some j)
              ↔ ((w.cb_table i).state = TCP_CB_STATE_SYN_RCVD
                ∧ ((w.cb_table i).snd.una ≤ ntoh32 hdr.ack
                  ∧ ntoh32 hdr.ack ≤ (w.cb_table i).snd.nxt)
                ∧ (w.cb_table i).parent = some j) := by
            unfold syn_rcvd_acked
            constructor
            · intro h; exact ⟨h.1.1, ⟨h.1.2.2.2.2.2.1, h.1.2.2.2.2.2.2⟩, h.2⟩
            · intro h; exact ⟨⟨h.1, hacc, hrst, hsyn, hack, h.2.1.1, h.2.1.2⟩, h.2.2⟩
          rw [if_congr hcond rfl rfl, ← hb]
          split
          · exact segment_check_urg_backlog _ _ _ _ _ _ _ _
          · rfl
      · have hn : ¬ (syn_rcvd_acked (w.cb_table i) hdr plen
            ∧ (w.cb_table i).parent = some j) := by
          intro h
          have h2 := h.1.2.2.2.1
          rw [hsyn] at h2
          exact absurd h2 (by decide)
        rw [if_neg hn]
        simp only [if_true, backlog_modify, tcp_close_cb_backlog, tcp_tx_backlog,
          backlog_ite_self]
    · have hn : ¬ (syn_rcvd_acked (w.cb_table i) hdr plen
          ∧ (w.cb_table i).parent = some j) := by
        intro h
        have h2 := h.1.2.2.1
        rw [hrst] at h2
        exact absurd h2 (by decide)
      rw [if_neg hn]
      simp only [if_true, backlog_modify, tcp_close_cb_backlog, backlog_ite_self]

/-- The function `tcp_event_segment_arrives` appends the block to the backlog of its parent
when the clock is readable and `syn_rcvd_acked` holds, and writes no backlog otherwise. -/
theorem tcp_event_segment_arrives_backlog (env : Env) (w : World) (i : Slot)
    (segment : List Nat) (j : Slot) :
    ((tcp_event_segment_arrives env w i segment).cb_table j).backlog
      = if (env.gettimeofday w.tick).isSome
            ∧ syn_rcvd_acked (w.cb_table i) (tcp_hdr.ofBytes segment)
                (TCP_DATA_LEN (tcp_hdr.ofBytes segment) segment.length)
            ∧ (w.cb_table i).parent = some j
        then (w.cb_table j).backlog ++ [i] else (w.cb_table j).backlog := by
  unfold tcp_event_segment_arrives
  simp only []
  cases hnow : env.gettimeofday w.tick with
  | none =>
    simp only [Option.isSome_none, Bool.false_eq_true, false_and, if_false]
  | some now =>
    simp only [Option.isSome_some, true_and]
    have hsync := segment_arrives_synchronized_backlog env { w with tick := w.tick + 1 } i
      (tcp_hdr.ofBytes segment) segment (TCP_DATA_LEN (tcp_hdr.ofBytes segment) segment.length)
      now j
    have hno : ∀ n : Nat, (w.cb_table i).state = n → n ≠ 3 →
        ¬ (syn_rcvd_acked (w.cb_table i) (tcp_hdr.ofBytes segment)
            (TCP_DATA_LEN (tcp_hdr.ofBytes segment) segment.length)
          ∧ (w.cb_table i).parent = some j) := by
      intro n h1 h2 h3
      have h4 : (w.cb_table i).state = 3 := h3.1.1
      exact h2 (h1.symm.trans h4)
    split
    · rename_i h
      rw [if_neg (hno 0 h (by decide))]
      exact segment_arrives_closed_backlog _ _ _ _ _ _ _
    · rename_i h
      rw [if_neg (hno 1 h (by decide))]
      exact segment_arrives_listen_backlog _ _ _ _ _ _ _ _
    · rename_i h
      rw [if_neg (hno 2 h (by decide))]
      exact segment_arrives_syn_sent_backlog _ _ _ _ _ _ _ _
    · exact hsync
    · exact hsync
    · exact hsync
    · exact hsync
    · exact hsync
    · exact hsync
    · exact hsync
    · exact hsync
    · rename_i h0 h1 h2 h3 h4 h5 h6 h7 h8 h9 h10
      have hn : ¬ (syn_rcvd_acked (w.cb_table i) (tcp_hdr.ofBytes segment)
            (TCP_DATA_LEN (tcp_hdr.ofBytes segment) segment.length)
          ∧ (w.cb_table i).parent = some j) := fun h => h3 h.1.1
      rw [if_neg hn]

/-- The scan of `tcp_rx` keeps as `fcb` a free block and as `lcb` a block in LISTEN. -/
theorem tcp_rx_scan_kinds (w : World) (hdr : tcp_hdr) (src : Nat) (iface : netif) :
    ∀ (l : List Slot) (s : rx_scan),
      (∀ f, s.fcb = some f → IS_FREE_CB (w.cb_table f) = true) →
      (∀ c, s.lcb = some c → (w.cb_table c).state = TCP_CB_STATE_LISTEN) →
      (∀ f, (l.foldl (tcp_rx_step w hdr src iface) s).fcb = some f →
          IS_FREE_CB (w.cb_table f) = true)
        ∧ (∀ c, (l.foldl (tcp_rx_step w hdr src iface) s).lcb = some c →
          (w.cb_table c).state = TCP_CB_STATE_LISTEN) := by
  intro l
  induction l with
  | nil => intro s h1 h2; exact ⟨h1, h2⟩
  | cons a l ih =>
    intro s h1 h2
    rw [List.foldl_cons]
    apply ih
    · intro f hf
      unfold tcp_rx_step at hf
      split at hf
      · exact h1 f hf
      · simp only [] at hf
        split at hf
        · rename_i hfree
          split at hf
          · simp only [Option.some.injEq] at hf
            rw [← hf]; exact hfree
          · exact h1 f hf
        · split at hf
          · split at hf
            · exact h1 f hf
            · split at hf
              · exact h1 f hf
              · exact h1 f hf
          · exact h1 f hf
    · intro c hc
      unfold tcp_rx_step at hc
      split at hc
      · exact h2 c hc
      · simp only [] at hc
        split at hc
        · split at hc
          · exact h2 c hc
          · exact h2 c hc
        · split at hc
          · split at hc
            · exact h2 c hc
            · split at hc
              · rename_i hl
                simp only [Option.some.injEq] at hc
                rw [← hc]
                simp only [Bool.and_eq_true, beq_iff_eq] at hl
                exact hl.1
              · exact h2 c hc
          · exact h2 c hc

theorem IS_FREE_CB_state (cb : tcp_cb) (h : IS_FREE_CB cb = true) :
    cb.state = TCP_CB_STATE_CLOSED := by
  unfold IS_FREE_CB at h
  simp only [Bool.and_eq_true, beq_iff_eq] at h
  exact h.2

set_option maxRecDepth 100000 in
/-- A segment delivered to `tcp_rx` changes a backlog only by the push of the ACK step: to
the backlog of slot `j` it appends a block `c` that was in SYN_RCVD with parent `j`, under
the condition `syn_rcvd_acked`. -/
theorem tcp_rx_backlog (env : Env) (w : World) (segment : List Nat) (src dst : Nat)
    (iface : netif) (j : Slot) :
    ((tcp_rx env w segment src dst iface).cb_table j).backlog = (w.cb_table j).backlog
      ∨ ∃ c : Slot,
          syn_rcvd_acked (w.cb_table c) (tcp_hdr.ofBytes segment)
              (TCP_DATA_LEN (tcp_hdr.ofBytes segment) segment.length)
            ∧ (w.cb_table c).parent = some j
            ∧ ((tcp_rx env w segment src dst iface).cb_table j).backlog
              = (w.cb_table j).backlog ++ [c] := by
  unfold tcp_rx
  simp only []
  split
  · exact Or.inl rfl
  · split
    · exact Or.inl rfl
    · split
      · exact Or.inl rfl
      · obtain ⟨hf, hl⟩ := tcp_rx_scan_kinds w (tcp_hdr.ofBytes segment) src iface
          (List.finRange TCP_CB_TABLE_SIZE) { found := none, fcb := none, lcb := none }
          (fun f h => by simp at h) (fun c h => by simp at h)
        split
        · rename_i c hc
          rw [tcp_event_segment_arrives_backlog]
          split
          · rename_i h
            exact Or.inr ⟨c, h.2.1, h.2.2, rfl⟩
          · exact Or.inl rfl
        · split
          · exact Or.inl rfl
          · rename_i f hfcb
            have hfree := IS_FREE_CB_state _ (hf f hfcb)
            left
            rw [tcp_event_segment_arrives_backlog]
            split
            · rename_i h
              exfalso
              have h3 := h.2.1.1
              revert h3
              split
              · rename_i c hlcb
                have hlis := hl c hlcb
                simp only [World.modify_cb, World.set_same, if_true]
                by_cases hcf : c = f
                · subst hcf
                  simp only [if_true]
                  rw [hfree]; decide
                · simp only [hcf, if_false]
                  rw [hlis]; decide
              · simp only [World.modify_cb, World.set_same, if_true]
                rw [hfree]; decide
            · split
              · simp only [backlog_modify, backlog_ite_self, ite_self, if_true, eq_self_iff_true]
              · simp only [backlog_modify, backlog_ite_self, ite_self, if_true, eq_self_iff_true]

theorem backlog_suffix_set (w : World) (i : Slot) (cb : tcp_cb)
    (h : cb.backlog <:+ (w.cb_table i).backlog) (j : Slot) :
    ((w.set i cb).cb_table j).backlog <:+ (w.cb_table j).backlog := by
  rw [backlog_set]
  split
  · rename_i hj; rw [hj]; exact h
  · exact List.suffix_refl _

theorem tcp_close_switch_backlog (env : Env) (cc : World → Option World) (w : World)
    (i : Slot) (now : timeval)
    (hcc : ∀ w', cc w = some w' → ∀ j, (w'.cb_table j).backlog <:+ (w.cb_table j).backlog)
    (r : Int × World) (hr : tcp_close_switch env cc w i now = some r) (j : Slot) :
    (r.2.cb_table j).backlog <:+ (w.cb_table j).backlog := by
  unfold tcp_close_switch at hr
  simp only [] at hr
  split at hr
  · simp only [Option.some.injEq] at hr
    rw [← hr]
  · split at hr
    · simp at hr
    · rename_i w3 h3
      simp only [Option.some.injEq] at hr
      rw [← hr]
      simp only [backlog_modify, tcp_close_cb_backlog, backlog_ite_self]
      exact hcc w3 h3 j
  all_goals
    simp only [Option.some.injEq] at hr
    subst hr
    first
    | exact List.suffix_refl _
    | simp only [backlog_modify, tcp_close_cb_backlog, backlog_ite_self, tcp_tx_backlog,
        ite_self, List.suffix_refl]

/-- The function `tcp_close` and its loop over the children only take entries from the
front of backlogs. -/
theorem tcp_close_backlog_aux (env : Env) : ∀ fuel : Nat,
    (∀ (w : World) (i : Slot) (r : Int × World), tcp_close env fuel w i = some r →
      ∀ j, (r.2.cb_table j).backlog <:+ (w.cb_table j).backlog)
    ∧ (∀ (w : World) (i : Slot) (w' : World), tcp_close_backlog env fuel w i = some w' →
      ∀ j, (w'.cb_table j).backlog <:+ (w.cb_table j).backlog) := by
  have hentered : ∀ (w : World) (i j : Slot),
      ((close_entered w i).cb_table j).backlog = (w.cb_table j).backlog := by
    intro w i j
    show ((w.set i { w.cb_table i with used := false }).cb_table j).backlog = _
    rw [backlog_set]
    exact backlog_ite_self w i j
  have hclose : ∀ fuel : Nat,
      (∀ f, fuel = f + 1 → ∀ (w : World) (i : Slot) (w' : World),
        tcp_close_backlog env f w i = some w' →
        ∀ j, (w'.cb_table j).backlog <:+ (w.cb_table j).backlog) →
      ∀ (w : World) (i : Slot) (r : Int × World), tcp_close env fuel w i = some r →
        ∀ j, (r.2.cb_table j).backlog <:+ (w.cb_table j).backlog := by
    intro fuel hb w i r hr j
    rw [tcp_close_eq] at hr
    split at hr
    · simp only [Option.some.injEq] at hr
      rw [← hr]
    · split at hr
      · simp only [Option.some.injEq] at hr
        rw [← hr, hentered]
      · rename_i now hnow
        have h := tcp_close_switch_backlog env (close_children env fuel i) (close_entered w i)
          i now (by
            intro w' hw'
            cases fuel with
            | zero => exact absurd hw' (by simp [close_children])
            | succ f => exact hb f rfl _ i w' hw') r hr j
        rw [hentered] at h
        exact h
  intro fuel
  induction fuel with
  | zero =>
    refine ⟨hclose 0 (fun f hf => by omega), ?_⟩
    intro w i w' hw' j
    unfold tcp_close_backlog at hw'
    split at hw'
    · simp only [Option.some.injEq] at hw'
      rw [← hw']
    · simp at hw'
  | succ f ih =>
    refine ⟨hclose (f + 1) (fun f' hf' => by
      have : f' = f := by omega
      subst this
      exact ih.2), ?_⟩
    intro w i w' hw' j
    unfold tcp_close_backlog at hw'
    split at hw'
    · simp only [Option.some.injEq] at hw'
      rw [← hw']
    · rename_i c rest hq
      simp only [] at hw'
      split at hw'
      · simp at hw'
      · rename_i r hr
        have h1 := ih.1 _ c r hr j
        have h2 := ih.2 r.2 i w' hw' j
        have h3 : ((w.modify i (fun cb => { cb with backlog := rest })).cb_table j).backlog
            <:+ (w.cb_table j).backlog := by
          apply backlog_suffix_set
          rw [queue_pop_some hq]
          exact List.suffix_cons c rest
        exact h2.trans (h1.trans h3)

theorem tcp_api_open_backlog (w : World) (j : Slot) :
    ((tcp_api_open w).2.cb_table j).backlog = (w.cb_table j).backlog := by
  unfold tcp_api_open
  split
  · simp only [backlog_modify, backlog_ite_self]
  · rfl

theorem tcp_api_bind_backlog (w : World) (soc : Int) (port : Nat) (j : Slot) :
    ((tcp_api_bind w soc port).2.cb_table j).backlog = (w.cb_table j).backlog := by
  unfold tcp_api_bind
  simp only []
  repeat' split
  all_goals
    first
    | rfl
    | simp only [backlog_set, backlog_ite_self]

theorem tcp_api_listen_backlog (w : World) (soc : Int) (j : Slot) :
    ((tcp_api_listen w soc).2.cb_table j).backlog = (w.cb_table j).backlog := by
  unfold tcp_api_listen
  simp only []
  repeat' split
  all_goals
    first
    | rfl
    | simp only [backlog_set, backlog_ite_self]

theorem tcp_api_recv_backlog (w : World) (soc : Int) (size : Nat) (j : Slot) :
    ((tcp_api_recv w soc size).2.2.cb_table j).backlog = (w.cb_table j).backlog := by
  unfold tcp_api_recv
  simp only []
  repeat' split
  all_goals
    first
    | rfl
    | simp only [backlog_set, backlog_ite_self]

theorem tcp_api_connect_backlog (env : Env) (w : World) (soc : Int) (addr port : Nat)
    (j : Slot) :
    ((tcp_api_connect env w soc addr port).2.cb_table j).backlog = (w.cb_table j).backlog := by
  unfold tcp_api_connect
  simp only []
  repeat' split
  all_goals
    first
    | rfl
    | simp only [backlog_modify, backlog_set, backlog_ite_self, tcp_tx_backlog, ite_self,
        if_true, eq_self_iff_true]

/-- The function `tcp_api_accept` writes one backlog at most, that of the listener, from
which it takes the front. -/
theorem tcp_api_accept_backlog (w : World) (soc : Int) (j : Slot) :
    ((tcp_api_accept w soc).2.cb_table j).backlog <:+ (w.cb_table j).backlog := by
  unfold tcp_api_accept
  simp only []
  split
  · exact List.suffix_refl _
  · split
    · exact List.suffix_refl _
    · split
      · exact List.suffix_refl _
      · rename_i i c rest hq
        simp only [backlog_modify, backlog_ite_self]
        apply backlog_suffix_set
        rw [queue_pop_some hq]
        exact List.suffix_cons c rest

set_option maxHeartbeats 4000000 in
theorem tcp_api_send_next_backlog (env : Env) :
    ∀ (fuel : Nat) (w : World) (i : Slot) (buf : List Nat) (snt : Nat)
      (r : api_result × World), tcp_api_send_next env fuel w i buf snt = some r →
      ∀ j, (r.2.cb_table j).backlog = (w.cb_table j).backlog := by
  intro fuel
  induction fuel with
  | zero =>
    intro w i buf snt r hr j
    unfold tcp_api_send_next at hr
    simp only [] at hr
    repeat' split at hr
    all_goals
      first
      | (simp only [Option.some.injEq] at hr
         subst hr
         first
         | rfl
         | simp only [backlog_modify, backlog_set, backlog_ite_self, tcp_tx_backlog, ite_self])
      | simp at hr
  | succ f ih =>
    intro w i buf snt r hr j
    unfold tcp_api_send_next at hr
    simp only [] at hr
    repeat' split at hr
    all_goals
      first
      | (simp only [Option.some.injEq] at hr
         subst hr
         first
         | rfl
         | simp only [backlog_modify, backlog_set, backlog_ite_self, tcp_tx_backlog, ite_self])
      | (rw [ih _ _ _ _ _ hr j]
         simp only [backlog_modify, backlog_set, backlog_ite_self, tcp_tx_backlog, ite_self])

theorem tcp_api_send_backlog (env : Env) (w : World) (soc : Int) (buf : List Nat)
    (r : api_result × World) (hr : tcp_api_send env w soc buf = some r) (j : Slot) :
    (r.2.cb_table j).backlog = (w.cb_table j).backlog := by
  unfold tcp_api_send at hr
  split at hr
  · simp only [Option.some.injEq] at hr
    subst hr; rfl
  · split at hr
    · simp only [Option.some.injEq] at hr
      subst hr; rfl
    · exact tcp_api_send_next_backlog env _ _ _ _ _ r hr j

theorem timer_block_backlog (cb : tcp_cb) (timestamp : timeval) :
    (timer_block cb timestamp).backlog = cb.backlog := by
  unfold timer_block
  repeat' split
  all_goals rfl

theorem tcp_timer_tick_backlog (env : Env) (w : World) (prev : timeval) (j : Slot) :
    ((tcp_timer_tick env w prev).cb_table j).backlog = (w.cb_table j).backlog := by
  unfold tcp_timer_tick
  cases hnow : env.gettimeofday w.tick with
  | none =>
    simp only []
    obtain ⟨r1, _, _⟩ := tcp_timer_fold prev (List.finRange TCP_CB_TABLE_SIZE)
      { w with tick := w.tick + 1 } (List.nodup_finRange _)
    rw [r1 j]
    simp only [List.mem_finRange, if_true]
    exact timer_block_backlog _ _
  | some now =>
    simp only []
    obtain ⟨r1, _, _⟩ := tcp_timer_fold now (List.finRange TCP_CB_TABLE_SIZE)
      { w with tick := w.tick + 1 } (List.nodup_finRange _)
    rw [r1 j]
    simp only [List.mem_finRange, if_true]
    exact timer_block_backlog _ _

theorem state_set (w : World) (i : Slot) (cb : tcp_cb) (j : Slot) :
    ((w.set i cb).cb_table j).state = if j = i then cb.state else (w.cb_table j).state := by
  simp only [World.set]
  split <;> rfl

theorem state_modify (w : World) (i : Slot) (f : tcp_cb → tcp_cb) (j : Slot) :
    ((w.modify i f).cb_table j).state
      = if j = i then (f (w.cb_table i)).state else (w.cb_table j).state :=
  state_set w i _ j

/-- From `CHECK_URG` on, a block in SYN_RCVD or ESTABLISHED keeps its state unless the FIN
bit is set, in which case it goes to CLOSE_WAIT. -/
theorem segment_check_urg_state (env : Env) (w : World) (i : Slot) (hdr : tcp_hdr)
    (segment : List Nat) (plen : Nat) (now : timeval)
    (hst : (w.cb_table i).state = TCP_CB_STATE_SYN_RCVD
      ∨ (w.cb_table i).state = TCP_CB_STATE_ESTABLISHED) :
    ((segment_check_urg env w i hdr segment plen now).cb_table i).state
      = if TCP_FLG_ISSET hdr.flg TCP_FLG_FIN = true then TCP_CB_STATE_CLOSE_WAIT
        else (w.cb_table i).state := by
  have hite : ∀ (c : Prop) [Decidable c] (a b : World),
      ((if c then a else b).cb_table i).state
        = if c then (a.cb_table i).state else (b.cb_table i).state := by
    intro c _ a b
    split <;> rfl
  unfold segment_check_urg
  rcases hst with h | h
  all_goals
    have h' := h
    simp only [TCP_CB_STATE_SYN_RCVD, TCP_CB_STATE_ESTABLISHED] at h'
    cases hfin : TCP_FLG_ISSET hdr.flg TCP_FLG_FIN
    all_goals
      cases hurg : TCP_FLG_ISSET hdr.flg TCP_FLG_URG
      all_goals
        simp only [h', hite, state_modify, state_set, tcp_tx_state, if_true, if_false,
          Bool.false_eq_true, World.set_same, ite_self]

/-- The calls of `ip_tx` on record only grow in `tcp_tx`. -/
theorem tcp_tx_ip_log_ext (env : Env) (w : World) (i : Slot) (seq ack flg : Nat)
    (now : timeval) (buf : List Nat) :
    ∃ rest, (tcp_tx env w i seq ack flg now buf).2.ip_log = w.ip_log ++ rest := by
  unfold tcp_tx tcp_tx_send
  simp only []
  repeat' split
  all_goals
    first
    | exact ⟨[], (List.append_nil _).symm⟩
    | exact ⟨_, rfl⟩

/-- A segment without payload, SYN or FIN goes from `tcp_tx` to `ip_tx` at once, if the
buffer for it can be allocated. -/
theorem tcp_tx_unqueued_ip (env : Env) (w : World) (i : Slot) (seq ack flg : Nat)
    (now : timeval) (h : flg &&& (TCP_FLG_SYN ||| TCP_FLG_FIN) = 0)
    (hm : env.malloc w.tick = true) :
    ∃ h1 : tcp_hdr,
      (tcp_tx env w i seq ack flg now []).2.ip_log
          = w.ip_log ++ [ip_call.mk (w.cb_table i).iface h1.bytes (w.cb_table i).peer.addr]
        ∧ h1.seq = hton32 seq ∧ h1.ack = hton32 ack ∧ h1.flg = flg := by
  unfold tcp_tx tcp_tx_send
  simp only [List.length_nil, gt_iff_lt, Nat.lt_irrefl, h, ne_eq, not_true_eq_false, or_self,
    if_false, Bool.false_eq_true, hm, Bool.not_true, List.append_nil]
  split
  · exact ⟨_, rfl, rfl, rfl, rfl⟩
  · exact ⟨_, rfl, rfl, rfl, rfl⟩

/-- From `CHECK_URG` on for a block in SYN_RCVD: nothing happens unless the FIN bit is set,
in which case `rcv.nxt` is set, an ACK is sent and the block goes to CLOSE_WAIT. -/
theorem segment_check_urg_syn_rcvd (env : Env) (w : World) (i : Slot) (hdr : tcp_hdr)
    (segment : List Nat) (plen : Nat) (now : timeval)
    (hst : (w.cb_table i).state = TCP_CB_STATE_SYN_RCVD) :
    segment_check_urg env w i hdr segment plen now
      = if TCP_FLG_ISSET hdr.flg TCP_FLG_FIN = true then
          (tcp_tx env
              (w.modify i (fun cb =>
                { cb with rcv := { cb.rcv with nxt := u32 (ntoh32 hdr.seq + 1) } }))
              i (w.cb_table i).snd.nxt (u32 (ntoh32 hdr.seq + 1)) TCP_FLG_ACK now []).2.modify i
            (fun cb => { cb with state := TCP_CB_STATE_CLOSE_WAIT })
        else w := by
  have h' : (w.cb_table i).state = 3 := hst
  unfold segment_check_urg
  cases hfin : TCP_FLG_ISSET hdr.flg TCP_FLG_FIN
  all_goals
    cases hurg : TCP_FLG_ISSET hdr.flg TCP_FLG_URG
    all_goals
      simp only [h', state_modify, state_set, tcp_tx_state, if_true, if_false,
        Bool.false_eq_true, World.set_same, ite_self, World.modify]

/-- The ACK step for a block in SYN_RCVD and an acknowledgement inside
`[snd.una, snd.nxt]`: the block is ESTABLISHED afterwards and processing goes on. -/
theorem segment_ack_syn_rcvd_ok (env : Env) (w : World) (i : Slot) (hdr : tcp_hdr)
    (now : timeval)
    (hst : (w.cb_table i).state = TCP_CB_STATE_SYN_RCVD)
    (hr : (w.cb_table i).snd.una ≤ ntoh32 hdr.ack ∧ ntoh32 hdr.ack ≤ (w.cb_table i).snd.nxt) :
    (segment_ack env w i hdr now).2 = true
      ∧ ((segment_ack env w i hdr now).1.cb_table i).state = TCP_CB_STATE_ESTABLISHED := by
  have h' : (w.cb_table i).state = 3 := hst
  unfold segment_ack
  simp only [h', hr, and_self, not_true_eq_false, if_false]
  have key : ∀ w2 : World, (w2.cb_table i).state = TCP_CB_STATE_ESTABLISHED →
      (w2.cb_table i).snd = (w.cb_table i).snd →
      (segment_ack_established env w2 i hdr now).2 = true
        ∧ ((segment_ack_established env w2 i hdr now).1.cb_table i).state
          = TCP_CB_STATE_ESTABLISHED := by
    intro w2 h2 h3
    obtain ⟨s, t, he, _, _⟩ := segment_ack_established_ok env w2 i hdr now h2 (by rw [h3]; exact hr)
    rw [he]
    refine ⟨rfl, ?_⟩
    simp only [World.set_same]
    exact h2
  apply key
  · split
    · rename_i p _
      simp only [state_modify, state_set, if_true]
      by_cases hip : i = p
      · simp only [hip, if_true]
      · simp only [hip, if_false]
    · simp only [World.set_same]
  · split
    · rename_i p _
      simp only [World.modify, World.set]
      by_cases hip : i = p
      · simp only [hip, if_true]
      · simp only [hip, if_false, if_true]
    · simp only [World.set_same]

/-- C21: a block in SYN_RCVD with parent `p` receives an acceptable segment with ACK set
and RST and SYN clear (the clock being readable).  The block has an interface and the text
of the segment stays inside `window`, as for every block `tcp_rx` has created for a
listener (`iface` is the receiving interface and `rcv.wnd` is 65535); with
`cb->iface == NULL` the call of `tcp_tx` dereferences a null pointer, and a longer text is
stored past the end of `window`.  If `snd.una <= seg.ack <= snd.nxt`, the
ACK step leaves the block ESTABLISHED and `i` appended once at the tail of the backlog of
`p`; at the end of `tcp_event_segment_arrives` that backlog is still the old one followed
by `i`, no other backlog has changed, and the block is ESTABLISHED, or in CLOSE_WAIT if
the segment carried a FIN as well.  If `seg.ack` is outside the range, the first call of
`tcp_tx` is a RST with `seq = seg.ack` and `ack = rcv.nxt` (followed by the ACK of a FIN,
if the segment has one), the RST is the next segment handed to `ip_tx` if its buffer can
be allocated, and no backlog has changed.  No other path pushes: every entry point of the
module, on a table where it dereferences no null interface and stores no text past the
end of `window` (`tcp_op_defined`), leaves of each backlog a suffix of what it was (entries
are only taken from the front), unless it is `tcp_rx` with a segment for which the push
above takes place. -/
theorem syn_rcvd_ack_push (env : Env) (w : World) (i p : Slot) (segment : List Nat)
    (now : timeval)
    (hnow : env.gettimeofday w.tick = some now)
    (hst : (w.cb_table i).state = TCP_CB_STATE_SYN_RCVD)
    (hpar : (w.cb_table i).parent = some p)
    (hif : (w.cb_table i).iface ≠ none)
    (hfit : text_in_window (w.cb_table i)
      (TCP_DATA_LEN (tcp_hdr.ofBytes segment) segment.length))
    (hacc : segment_acceptable (w.cb_table i) (tcp_hdr.ofBytes segment)
      (TCP_DATA_LEN (tcp_hdr.ofBytes segment) segment.length) = true)
    (hack : TCP_FLG_ISSET (tcp_hdr.ofBytes segment).flg TCP_FLG_ACK = true)
    (hrst : TCP_FLG_ISSET (tcp_hdr.ofBytes segment).flg TCP_FLG_RST = false)
    (hsyn : TCP_FLG_ISSET (tcp_hdr.ofBytes segment).flg TCP_FLG_SYN = false) :
    (((w.cb_table i).snd.una ≤ ntoh32 (tcp_hdr.ofBytes segment).ack
          ∧ ntoh32 (tcp_hdr.ofBytes segment).ack ≤ (w.cb_table i).snd.nxt) →
        ((segment_ack env { w with tick := w.tick + 1 } i (tcp_hdr.ofBytes segment)
            now).1.cb_table i).state = TCP_CB_STATE_ESTABLISHED
          ∧ ((segment_ack env { w with tick := w.tick + 1 } i (tcp_hdr.ofBytes segment)
              now).1.cb_table p).backlog = (w.cb_table p).backlog ++ [i]
          ∧ ((tcp_event_segment_arrives env w i segment).cb_table i).state
            = (if TCP_FLG_ISSET (tcp_hdr.ofBytes segment).flg TCP_FLG_FIN = true
                then TCP_CB_STATE_CLOSE_WAIT else TCP_CB_STATE_ESTABLISHED)
          ∧ ((tcp_event_segment_arrives env w i segment).cb_table p).backlog
            = (w.cb_table p).backlog ++ [i]
          ∧ ∀ j, j ≠ p →
              ((tcp_event_segment_arrives env w i segment).cb_table j).backlog
                = (w.cb_table j).backlog)
      ∧ (¬ ((w.cb_table i).snd.una ≤ ntoh32 (tcp_hdr.ofBytes segment).ack
            ∧ ntoh32 (tcp_hdr.ofBytes segment).ack ≤ (w.cb_table i).snd.nxt) →
          (tcp_event_segment_arrives env w i segment).tx_log
              = w.tx_log
                ++ tx_call.mk i (ntoh32 (tcp_hdr.ofBytes segment).ack) (w.cb_table i).rcv.nxt
                    TCP_FLG_RST []
                  :: (if TCP_FLG_ISSET (tcp_hdr.ofBytes segment).flg TCP_FLG_FIN = true
                      then [tx_call.mk i (w.cb_table i).snd.nxt
                              (u32 (ntoh32 (tcp_hdr.ofBytes segment).seq + 1)) TCP_FLG_ACK []]
                      else [])
            ∧ (env.malloc (w.tick + 1) = true →
                ∃ (h1 : tcp_hdr) (rest : List ip_call),
                  (tcp_event_segment_arrives env w i segment).ip_log
                      = w.ip_log
                        ++ ip_call.mk (w.cb_table i).iface h1.bytes (w.cb_table i).peer.addr
                          :: rest
                    ∧ h1.seq = hton32 (ntoh32 (tcp_hdr.ofBytes segment).ack)
                    ∧ h1.ack = hton32 (w.cb_table i).rcv.nxt
                    ∧ h1.flg = TCP_FLG_RST)
            ∧ (∀ j, ((tcp_event_segment_arrives env w i segment).cb_table j).backlog
                = (w.cb_table j).backlog)
            ∧ ((tcp_event_segment_arrives env w i segment).cb_table i).state
              = (if TCP_FLG_ISSET (tcp_hdr.ofBytes segment).flg TCP_FLG_FIN = true
                  then TCP_CB_STATE_CLOSE_WAIT else TCP_CB_STATE_SYN_RCVD))
      ∧ (∀ (env2 : Env) (w2 w3 : World) (op : tcp_op), tcp_op_defined w2 op →
          tcp_run env2 w2 op = some w3 →
          ∀ j : Slot,
            (w3.cb_table j).backlog <:+ (w2.cb_table j).backlog
              ∨ ∃ (c : Slot) (seg : List Nat) (src dst : Nat) (iface : netif),
                  op = tcp_op.rx seg src dst iface
                    ∧ syn_rcvd_acked (w2.cb_table c) (tcp_hdr.ofBytes seg)
                        (TCP_DATA_LEN (tcp_hdr.ofBytes seg) seg.length)
                    ∧ (w2.cb_table c).parent = some j
                    ∧ (w3.cb_table j).backlog = (w2.cb_table j).backlog ++ [c]) := by
  have h3 : (w.cb_table i).state = 3 := hst
  have hsync : tcp_event_segment_arrives env w i segment
      = if (segment_ack env { w with tick := w.tick + 1 } i (tcp_hdr.ofBytes segment) now).2
          = true then
          segment_check_urg env
            (segment_ack env { w with tick := w.tick + 1 } i (tcp_hdr.ofBytes segment) now).1 i
            (tcp_hdr.ofBytes segment) segment
            (TCP_DATA_LEN (tcp_hdr.ofBytes segment) segment.length) now
        else (segment_ack env { w with tick := w.tick + 1 } i (tcp_hdr.ofBytes segment) now).1 := by
    have hacc' : segment_acceptable (World.cb_table { w with tick := w.tick + 1 } i)
        (tcp_hdr.ofBytes segment) (TCP_DATA_LEN (tcp_hdr.ofBytes segment) segment.length)
        = true := hacc
    unfold tcp_event_segment_arrives
    simp only [hnow, h3]
    unfold segment_arrives_synchronized
    simp only [hacc', hrst, hsyn, hack, Bool.not_true, Bool.false_eq_true, if_false, if_true]
  refine ⟨?_, ?_, ?_⟩
  · intro hr
    obtain ⟨a1, a2⟩ := segment_ack_syn_rcvd_ok env { w with tick := w.tick + 1 } i
      (tcp_hdr.ofBytes segment) now hst hr
    have hcond : (env.gettimeofday w.tick).isSome
        ∧ syn_rcvd_acked (w.cb_table i) (tcp_hdr.ofBytes segment)
            (TCP_DATA_LEN (tcp_hdr.ofBytes segment) segment.length) :=
      ⟨by rw [hnow]; rfl, hst, hacc, hrst, hsyn, hack, hr.1, hr.2⟩
    refine ⟨a2, ?_, ?_, ?_, ?_⟩
    · rw [segment_ack_backlog]
      exact if_pos ⟨hst, hr, hpar⟩
    · rw [hsync, if_pos a1, segment_check_urg_state _ _ _ _ _ _ _ (Or.inr a2), a2]
    · rw [tcp_event_segment_arrives_backlog]
      exact if_pos ⟨hcond.1, hcond.2, hpar⟩
    · intro j hj
      rw [tcp_event_segment_arrives_backlog]
      apply if_neg
      intro h
      rw [hpar] at h
      exact hj (Option.some.inj h.2.2).symm
  · intro hr
    have hseg : segment_ack env { w with tick := w.tick + 1 } i (tcp_hdr.ofBytes segment) now
        = ((tcp_tx env { w with tick := w.tick + 1 } i (ntoh32 (tcp_hdr.ofBytes segment).ack)
            (w.cb_table i).rcv.nxt TCP_FLG_RST now []).2, true) := by
      have h3' : (World.cb_table { w with tick := w.tick + 1 } i).state = 3 := hst
      have hr' : ¬ ((World.cb_table { w with tick := w.tick + 1 } i).snd.una
            ≤ ntoh32 (tcp_hdr.ofBytes segment).ack
          ∧ ntoh32 (tcp_hdr.ofBytes segment).ack
            ≤ (World.cb_table { w with tick := w.tick + 1 } i).snd.nxt) := hr
      unfold segment_ack
      simp only [h3', hr', not_false_eq_true, if_true]
      simp only [h3]
    have hcb : (tcp_tx env { w with tick := w.tick + 1 } i
        (ntoh32 (tcp_hdr.ofBytes segment).ack) (w.cb_table i).rcv.nxt TCP_FLG_RST now
        []).2.cb_table = w.cb_table :=
      tcp_tx_unqueued _ _ _ _ _ _ _ (by decide)
    have hst2 : ((tcp_tx env { w with tick := w.tick + 1 } i
        (ntoh32 (tcp_hdr.ofBytes segment).ack) (w.cb_table i).rcv.nxt TCP_FLG_RST now
        []).2.cb_table i).state = TCP_CB_STATE_SYN_RCVD := by
      rw [hcb]; exact hst
    have hev : tcp_event_segment_arrives env w i segment
        = segment_check_urg env
            (tcp_tx env { w with tick := w.tick + 1 } i (ntoh32 (tcp_hdr.ofBytes segment).ack)
              (w.cb_table i).rcv.nxt TCP_FLG_RST now []).2 i
            (tcp_hdr.ofBytes segment) segment
            (TCP_DATA_LEN (tcp_hdr.ofBytes segment) segment.length) now := by
      rw [hsync, hseg]
      simp only [if_true]
    refine ⟨?_, ?_, ?_, ?_⟩
    · rw [hev, segment_check_urg_syn_rcvd _ _ _ _ _ _ _ hst2]
      split
      · simp only [World.modify, World.set_tx_log, tcp_tx_log, hcb, List.append_assoc,
          List.singleton_append]
      · simp only [tcp_tx_log, List.singleton_append]
    · intro hm
      obtain ⟨h1, e1, e2, e3, e4⟩ := tcp_tx_unqueued_ip env { w with tick := w.tick + 1 } i
        (ntoh32 (tcp_hdr.ofBytes segment).ack) (w.cb_table i).rcv.nxt TCP_FLG_RST now
        (by decide) hm
      rw [hev, segment_check_urg_syn_rcvd _ _ _ _ _ _ _ hst2]
      split
      · obtain ⟨rest, hrest⟩ := tcp_tx_ip_log_ext env
          ((tcp_tx env { w with tick := w.tick + 1 } i (ntoh32 (tcp_hdr.ofBytes segment).ack)
              (w.cb_table i).rcv.nxt TCP_FLG_RST now []).2.modify i (fun cb =>
            { cb with rcv := { cb.rcv with nxt := u32 (ntoh32 (tcp_hdr.ofBytes segment).seq + 1) } }))
          i ((tcp_tx env { w with tick := w.tick + 1 } i (ntoh32 (tcp_hdr.ofBytes segment).ack)
              (w.cb_table i).rcv.nxt TCP_FLG_RST now []).2.cb_table i).snd.nxt
          (u32 (ntoh32 (tcp_hdr.ofBytes segment).seq + 1)) TCP_FLG_ACK now []
        refine ⟨h1, rest, ?_, e2, e3, e4⟩
        simp only [World.modify, World.set_ip_log] at hrest ⊢
        rw [hrest, e1, List.append_assoc, List.singleton_append]
      · exact ⟨h1, [], e1, e2, e3, e4⟩
    · intro j
      rw [tcp_event_segment_arrives_backlog]
      apply if_neg
      intro h
      exact hr ⟨h.2.1.2.2.2.2.2.1, h.2.1.2.2.2.2.2.2⟩
    · rw [hev, segment_check_urg_state _ _ _ _ _ _ _ (Or.inl hst2), hst2]
  · intro env2 w2 w3 op _ hop j
    cases op with
    | api_open =>
      simp only [tcp_run, Option.some.injEq] at hop
      subst hop
      left; rw [tcp_api_open_backlog]
    | api_close soc fuel =>
      left
      simp only [tcp_run, Option.map_eq_some'] at hop
      obtain ⟨r, hr, hw⟩ := hop
      subst hw
      unfold tcp_api_close at hr
      split at hr
      · simp only [Option.some.injEq] at hr
        subst hr
        exact List.suffix_refl _
      · exact (tcp_close_backlog_aux env2 fuel).1 _ _ r hr j
    | api_bind soc port =>
      simp only [tcp_run, Option.some.injEq] at hop
      subst hop
      left; rw [tcp_api_bind_backlog]
    | api_listen soc =>
      simp only [tcp_run, Option.some.injEq] at hop
      subst hop
      left; rw [tcp_api_listen_backlog]
    | api_accept soc =>
      simp only [tcp_run, Option.some.injEq] at hop
      subst hop
      left; exact tcp_api_accept_backlog _ _ _
    | api_recv soc size =>
      simp only [tcp_run, Option.some.injEq] at hop
      subst hop
      left; rw [tcp_api_recv_backlog]
    | api_send soc buf =>
      left
      simp only [tcp_run, Option.map_eq_some'] at hop
      obtain ⟨r, hr, hw⟩ := hop
      subst hw
      rw [tcp_api_send_backlog env2 w2 soc buf r hr j]
    | api_connect soc addr port =>
      simp only [tcp_run, Option.some.injEq] at hop
      subst hop
      left; rw [tcp_api_connect_backlog]
    | rx seg src dst iface =>
      simp only [tcp_run, Option.some.injEq] at hop
      subst hop
      rcases tcp_rx_backlog env2 w2 seg src dst iface j with h | ⟨c, h1, h2, h3⟩
      · left; rw [h]
      · right; exact ⟨c, seg, src, dst, iface, rfl, h1, h2, h3⟩
    | timer prev =>
      simp only [tcp_run, Option.some.injEq] at hop
      subst hop
      left; rw [tcp_timer_tick_backlog]

set_option maxRecDepth 100000 in
/-- C21 at a concrete input: the child in slot 1 of `world_syn_received` is in SYN_RCVD with
parent 0, the interface of the SYN and `rcv.wnd = 65535`, `snd.una = 7000`,
`snd.nxt = 7001`, and the backlog of slot 0 is empty.  The ACK of `segment_handshake_ack`
(`ack = 7001`, no text) makes it ESTABLISHED and the backlog of slot 0 `[1]`; the ACK of
`segment_ack_ahead` (`ack = 7002`) is answered with a RST with `seq = 7002`, and the
backlog stays empty.  The delivery of `segment_handshake_ack` by `tcp_rx` is the push for
slot 0, and `tcp_api_accept(0)` on `world_child_pending`, where the backlog of slot 0 is
`[1]`, leaves a suffix of each backlog. -/
theorem syn_rcvd_ack_push_witness :
    ((world_syn_received.cb_table 1).state, (world_syn_received.cb_table 1).parent,
        (world_syn_received.cb_table 1).iface, (world_syn_received.cb_table 1).rcv.wnd,
        (world_syn_received.cb_table 0).backlog, (world_syn_received.cb_table 1).snd.una,
        (world_syn_received.cb_table 1).snd.nxt)
        = (TCP_CB_STATE_SYN_RCVD, some 0, some netif0, 65535, [], 7000, 7001)
      ∧ (((tcp_event_segment_arrives env_ok world_syn_received 1
              segment_handshake_ack).cb_table 1).state,
          ((tcp_event_segment_arrives env_ok world_syn_received 1
              segment_handshake_ack).cb_table 0).backlog)
        = (TCP_CB_STATE_ESTABLISHED, [1])
      ∧ ((tcp_event_segment_arrives env_ok world_syn_received 1
            segment_handshake_ack).cb_table 0).backlog
        = (world_syn_received.cb_table 0).backlog ++ [1]
      ∧ ((tcp_event_segment_arrives env_ok world_syn_received 1 segment_ack_ahead).tx_log.drop
            world_syn_received.tx_log.length,
          ((tcp_event_segment_arrives env_ok world_syn_received 1
              segment_ack_ahead).cb_table 0).backlog,
          ((tcp_event_segment_arrives env_ok world_syn_received 1
              segment_ack_ahead).cb_table 1).state)
        = ([tx_call.mk 1 7002 3001 TCP_FLG_RST []], [], TCP_CB_STATE_SYN_RCVD)
      ∧ (∀ j, ((tcp_event_segment_arrives env_ok world_syn_received 1
            segment_ack_ahead).cb_table j).backlog = (world_syn_received.cb_table j).backlog)
      ∧ tcp_op_defined world_syn_received
          (tcp_op.rx segment_handshake_ack 167772162 167772161 netif0)
      ∧ ((tcp_rx env_ok world_syn_received segment_handshake_ack 167772162 167772161
              netif0).cb_table 0).backlog = [1]
      ∧ tcp_op_defined world_child_pending (tcp_op.api_accept 0)
      ∧ (world_child_pending.cb_table 0).backlog = [1]
      ∧ (∀ j, ((tcp_api_accept world_child_pending 0).2.cb_table j).backlog
            <:+ (world_child_pending.cb_table j).backlog
          ∨ ∃ (c : Slot) (seg : List Nat) (src dst : Nat) (iface : netif),
              tcp_op.api_accept 0 = tcp_op.rx seg src dst iface
                ∧ syn_rcvd_acked (world_child_pending.cb_table c) (tcp_hdr.ofBytes seg)
                    (TCP_DATA_LEN (tcp_hdr.ofBytes seg) seg.length)
                ∧ (world_child_pending.cb_table c).parent = some j
                ∧ ((tcp_api_accept world_child_pending 0).2.cb_table j).backlog
                    = (world_child_pending.cb_table j).backlog ++ [c]) :=
  ⟨by decide, by decide,
    ((syn_rcvd_ack_push env_ok world_syn_received 1 0 segment_handshake_ack
        { tv_sec := 1000, tv_usec := 0 } rfl (by decide) (by decide) (by decide) (by decide)
        (by decide) (by decide) (by decide) (by decide)).1 (by decide)).2.2.2.1,
    by decide,
    ((syn_rcvd_ack_push env_ok world_syn_received 1 0 segment_ack_ahead
        { tv_sec := 1000, tv_usec := 0 } rfl (by decide) (by decide) (by decide) (by decide)
        (by decide) (by decide) (by decide) (by decide)).2.1 (by decide)).2.2.1,
    by decide, by decide, by decide, by decide,
    (syn_rcvd_ack_push env_ok world_syn_received 1 0 segment_handshake_ack
        { tv_sec := 1000, tv_usec := 0 } rfl (by decide) (by decide) (by decide) (by decide)
        (by decide) (by decide) (by decide) (by decide)).2.2 env_ok world_child_pending
        (tcp_api_accept world_child_pending 0).2 (tcp_op.api_accept 0) (by decide) rfl⟩

/-! ## C31: the state LAST_ACK -/

theorem tcp_close_cb_state (cb : tcp_cb) : (tcp_close_cb cb).state = TCP_CB_STATE_CLOSED := rfl

theorem tcp_close_cb_no_last_ack (cb : tcp_cb) :
    (tcp_close_cb cb).state ≠ TCP_CB_STATE_LAST_ACK := by
  rw [tcp_close_cb_state]
  decide

theorem no_last_ack_tcp_tx (env : Env) (w : World) (i : Slot) (seq ack flg : Nat)
    (now : timeval) (buf : List Nat) (h : no_last_ack w.cb_table) :
    no_last_ack (tcp_tx env w i seq ack flg now buf).2.cb_table := by
  intro j
  rw [tcp_tx_state]
  exact h j

/-- From `CHECK_URG` on no block enters LAST_ACK. -/
theorem segment_check_urg_no_last_ack (env : Env) (w : World) (i : Slot) (hdr : tcp_hdr)
    (segment : List Nat) (plen : Nat) (now : timeval) (h : no_last_ack w.cb_table) :
    no_last_ack (segment_check_urg env w i hdr segment plen now).cb_table := by
  intro j
  unfold segment_check_urg
  simp only []
  repeat' split
  all_goals
    try simp only [state_modify, state_set, tcp_tx_state, tcp_close_cb_state, World.set_same,
      ite_self, if_true]
    repeat' split
    all_goals
      first
      | exact h _
      | decide

theorem segment_arrives_closed_no_last_ack (env : Env) (w : World) (i : Slot) (hdr : tcp_hdr)
    (plen : Nat) (now : timeval) (h : no_last_ack w.cb_table) :
    no_last_ack (segment_arrives_closed env w i hdr plen now).cb_table := by
  intro j
  unfold segment_arrives_closed
  repeat' split
  all_goals
    try simp only [state_modify, state_set, tcp_tx_state, tcp_close_cb_state, World.set_same,
      ite_self, if_true]
    exact h _

theorem error_rx_listen_no_last_ack (w : World) (i : Slot) (h : no_last_ack w.cb_table) :
    no_last_ack (error_rx_listen w i).cb_table := by
  intro j
  unfold error_rx_listen
  rw [state_modify]
  split
  · exact tcp_close_cb_no_last_ack (w.cb_table i)
  · exact h j

theorem segment_arrives_listen_no_last_ack (env : Env) (w : World) (i : Slot) (hdr : tcp_hdr)
    (segment : List Nat) (plen : Nat) (now : timeval) (h : no_last_ack w.cb_table) :
    no_last_ack (segment_arrives_listen env w i hdr segment plen now).cb_table := by
  unfold segment_arrives_listen
  simp only []
  split
  · exact error_rx_listen_no_last_ack _ _ h
  · split
    · exact error_rx_listen_no_last_ack _ _ (no_last_ack_tcp_tx _ _ _ _ _ _ _ _ h)
    · split
      · apply segment_check_urg_no_last_ack
        intro k
        simp only [state_modify, state_set, tcp_tx_state, World.set_same, ite_self, if_true]
        repeat' split
        all_goals
          first
          | exact h _
          | decide
      · exact error_rx_listen_no_last_ack _ _ h

theorem segment_arrives_syn_sent_rest_no_last_ack (env : Env) (w : World) (i : Slot)
    (hdr : tcp_hdr) (segment : List Nat) (plen : Nat) (now : timeval) (acceptable : Bool)
    (h : no_last_ack w.cb_table) :
    no_last_ack
      (segment_arrives_syn_sent_rest env w i hdr segment plen now acceptable).cb_table := by
  have hfin : ∀ (W : World), (∀ k, (W.cb_table k).state ≠ TCP_CB_STATE_LAST_ACK) →
      ∀ k, ((segment_check_urg env W i hdr segment plen now).cb_table k).state
        ≠ TCP_CB_STATE_LAST_ACK :=
    fun W hW => segment_check_urg_no_last_ack env W i hdr segment plen now hW
  intro j
  unfold segment_arrives_syn_sent_rest
  simp only []
  repeat' split
  all_goals
    first
    | (apply hfin
       intro k)
    | skip
    try simp only [state_modify, state_set, tcp_tx_state, tcp_close_cb_state, World.set_same,
      ite_self, if_true]
    repeat' split
    all_goals
      first
      | exact h _
      | decide

theorem segment_arrives_syn_sent_no_last_ack (env : Env) (w : World) (i : Slot) (hdr : tcp_hdr)
    (segment : List Nat) (plen : Nat) (now : timeval) (h : no_last_ack w.cb_table) :
    no_last_ack (segment_arrives_syn_sent env w i hdr segment plen now).cb_table := by
  unfold segment_arrives_syn_sent
  simp only []
  repeat' split
  all_goals
    first
    | exact no_last_ack_tcp_tx _ _ _ _ _ _ _ _ h
    | exact segment_arrives_syn_sent_rest_no_last_ack _ _ _ _ _ _ _ _ h
    | exact h

theorem segment_ack_established_no_last_ack (env : Env) (w : World) (i : Slot) (hdr : tcp_hdr)
    (now : timeval) (h : no_last_ack w.cb_table) :
    no_last_ack (segment_ack_established env w i hdr now).1.cb_table := by
  intro j
  unfold segment_ack_established
  simp only []
  repeat' split
  all_goals
    try simp only [state_modify, state_set, tcp_tx_state, tcp_close_cb_state, World.set_same,
      ite_self, if_true]
    repeat' split
    all_goals
      first
      | exact h _
      | decide

/-- The ACK step leads no block into LAST_ACK. -/
theorem segment_ack_no_last_ack (env : Env) (w : World) (i : Slot) (hdr : tcp_hdr)
    (now : timeval) (h : no_last_ack w.cb_table) :
    no_last_ack (segment_ack env w i hdr now).1.cb_table := by
  unfold segment_ack
  simp only []
  split
  · split
    · exact no_last_ack_tcp_tx _ _ _ _ _ _ _ _ h
    · apply segment_ack_established_no_last_ack
      intro k
      split
      all_goals
        simp only [state_modify, state_set, World.set_same, ite_self, if_true]
        repeat' split
        all_goals
          first
          | exact h _
          | decide
  · exact segment_ack_established_no_last_ack _ _ _ _ _ h
  · exact segment_ack_established_no_last_ack _ _ _ _ _ h
  · exact segment_ack_established_no_last_ack _ _ _ _ _ h
  · exact segment_ack_established_no_last_ack _ _ _ _ _ h
  · exact segment_ack_established_no_last_ack _ _ _ _ _ h
  · split
    · intro j
      simp only [state_modify]
      split
      · exact tcp_close_cb_no_last_ack _
      · exact h j
    · exact h
  · exact h

theorem segment_arrives_synchronized_no_last_ack (env : Env) (w : World) (i : Slot)
    (hdr : tcp_hdr) (segment : List Nat) (plen : Nat) (now : timeval)
    (h : no_last_ack w.cb_table) :
    no_last_ack (segment_arrives_synchronized env w i hdr segment plen now).cb_table := by
  unfold segment_arrives_synchronized
  simp only []
  split
  · split
    · exact no_last_ack_tcp_tx _ _ _ _ _ _ _ _ h
    · exact h
  · split
    · intro j
      simp only [state_modify]
      split
      · exact tcp_close_cb_no_last_ack _
      · exact h j
    · split
      · intro j
        simp only [state_modify, tcp_tx_state]
        split
        · exact tcp_close_cb_no_last_ack _
        · exact h j
      · split
        · split
          · exact segment_check_urg_no_last_ack _ _ _ _ _ _ _
              (segment_ack_no_last_ack _ _ _ _ _ h)
          · exact segment_ack_no_last_ack _ _ _ _ _ h
        · simp only [if_true]
          exact segment_check_urg_no_last_ack _ _ _ _ _ _ _ h

/-- The function `tcp_event_segment_arrives` leads no block into LAST_ACK. -/
theorem tcp_event_segment_arrives_no_last_ack (env : Env) (w : World) (i : Slot)
    (segment : List Nat) (h : no_last_ack w.cb_table) :
    no_last_ack (tcp_event_segment_arrives env w i segment).cb_table := by
  unfold tcp_event_segment_arrives
  simp only []
  split
  · exact h
  · split
    · exact segment_arrives_closed_no_last_ack _ _ _ _ _ _ h
    · exact segment_arrives_listen_no_last_ack _ _ _ _ _ _ _ h
    · exact segment_arrives_syn_sent_no_last_ack _ _ _ _ _ _ _ h
    · exact segment_arrives_synchronized_no_last_ack _ _ _ _ _ _ _ h
    · exact segment_arrives_synchronized_no_last_ack _ _ _ _ _ _ _ h
    · exact segment_arrives_synchronized_no_last_ack _ _ _ _ _ _ _ h
    · exact segment_arrives_synchronized_no_last_ack _ _ _ _ _ _ _ h
    · exact segment_arrives_synchronized_no_last_ack _ _ _ _ _ _ _ h
    · exact segment_arrives_synchronized_no_last_ack _ _ _ _ _ _ _ h
    · exact segment_arrives_synchronized_no_last_ack _ _ _ _ _ _ _ h
    · exact segment_arrives_synchronized_no_last_ack _ _ _ _ _ _ _ h
    · exact h

set_option maxRecDepth 100000 in
/-- The function `tcp_rx` leads no block into LAST_ACK: the state it copies to a new block
is that of another block of the table. -/
theorem tcp_rx_no_last_ack (env : Env) (w : World) (segment : List Nat) (src dst : Nat)
    (iface : netif) (h : no_last_ack w.cb_table) :
    no_last_ack (tcp_rx env w segment src dst iface).cb_table := by
  unfold tcp_rx
  simp only []
  split
  · exact h
  · split
    · exact h
    · split
      · exact h
      · split
        · exact tcp_event_segment_arrives_no_last_ack _ _ _ _ h
        · split
          · exact h
          · apply tcp_event_segment_arrives_no_last_ack
            intro k
            split
            all_goals
              simp only [state_modify, state_set, World.set_same, ite_self, if_true]
              repeat' split
              all_goals exact h _

theorem tcp_api_open_no_last_ack (w : World) (h : no_last_ack w.cb_table) :
    no_last_ack (tcp_api_open w).2.cb_table := by
  intro j
  unfold tcp_api_open
  split
  · simp only [state_modify]
    split
    · exact h _
    · exact h _
  · exact h j

theorem tcp_api_bind_no_last_ack (w : World) (soc : Int) (port : Nat)
    (h : no_last_ack w.cb_table) : no_last_ack (tcp_api_bind w soc port).2.cb_table := by
  intro j
  unfold tcp_api_bind
  simp only []
  repeat' split
  all_goals
    try simp only [state_set]
    repeat' split
    all_goals exact h _

theorem tcp_api_listen_no_last_ack (w : World) (soc : Int) (h : no_last_ack w.cb_table) :
    no_last_ack (tcp_api_listen w soc).2.cb_table := by
  intro j
  unfold tcp_api_listen
  simp only []
  repeat' split
  all_goals
    try simp only [state_set]
    repeat' split
    all_goals
      first
      | exact h _
      | decide

theorem tcp_api_accept_wake_no_last_ack (w : World) (i : Slot) (h : no_last_ack w.cb_table) :
    no_last_ack (tcp_api_accept_wake w i).2.cb_table := by
  intro j
  unfold tcp_api_accept_wake
  simp only []
  repeat' split
  all_goals
    try simp only [state_modify, state_set, World.set_same, ite_self, if_true]
    repeat' split
    all_goals exact h _

theorem tcp_api_accept_no_last_ack (w : World) (soc : Int) (h : no_last_ack w.cb_table) :
    no_last_ack (tcp_api_accept w soc).2.cb_table := by
  intro j
  unfold tcp_api_accept
  simp only []
  repeat' split
  all_goals
    try simp only [state_modify, state_set, World.set_same, ite_self, if_true]
    repeat' split
    all_goals exact h _

theorem tcp_api_recv_retry_no_last_ack (w : World) (i : Slot) (size : Nat)
    (h : no_last_ack w.cb_table) : no_last_ack (tcp_api_recv_retry w i size).2.2.cb_table := by
  intro j
  unfold tcp_api_recv_retry
  simp only []
  repeat' split
  all_goals
    try simp only [state_set]
    repeat' split
    all_goals exact h _

theorem tcp_api_recv_no_last_ack (w : World) (soc : Int) (size : Nat)
    (h : no_last_ack w.cb_table) : no_last_ack (tcp_api_recv w soc size).2.2.cb_table := by
  intro j
  unfold tcp_api_recv
  simp only []
  repeat' split
  all_goals
    try simp only [state_set]
    repeat' split
    all_goals exact h _

theorem tcp_api_connect_no_last_ack (env : Env) (w : World) (soc : Int) (addr port : Nat)
    (h : no_last_ack w.cb_table) :
    no_last_ack (tcp_api_connect env w soc addr port).2.cb_table := by
  intro j
  unfold tcp_api_connect
  simp only []
  repeat' split
  all_goals
    try simp only [state_modify, state_set, tcp_tx_state, World.set_same, ite_self, if_true]
    repeat' split
    all_goals
      first
      | exact h _
      | decide

set_option maxHeartbeats 4000000 in
/-- The sending loop of `tcp_api_send` leads no block into LAST_ACK, at whichever turn it
is entered. -/
theorem tcp_api_send_next_no_last_ack (env : Env) :
    ∀ (fuel : Nat) (w : World) (i : Slot) (buf : List Nat) (snt : Nat)
      (r : api_result × World), no_last_ack w.cb_table →
      tcp_api_send_next env fuel w i buf snt = some r → no_last_ack r.2.cb_table := by
  intro fuel
  induction fuel with
  | zero =>
    intro w i buf snt r h hr j
    unfold tcp_api_send_next at hr
    simp only [] at hr
    repeat' split at hr
    all_goals
      first
      | (simp only [Option.some.injEq] at hr
         subst hr
         try simp only [state_modify, state_set, tcp_tx_state, World.set_same, ite_self, if_true]
         repeat' split
         all_goals exact h _)
      | simp at hr
  | succ f ih =>
    intro w i buf snt r h hr j
    unfold tcp_api_send_next at hr
    simp only [] at hr
    repeat' split at hr
    all_goals
      first
      | (simp only [Option.some.injEq] at hr
         subst hr
         try simp only [state_modify, state_set, tcp_tx_state, World.set_same, ite_self, if_true]
         repeat' split
         all_goals exact h _)
      | (refine ih _ _ _ _ _ ?_ hr j
         intro k
         simp only [state_modify, state_set, tcp_tx_state, World.set_same, ite_self, if_true]
         repeat' split
         all_goals exact h _)

theorem tcp_api_send_no_last_ack (env : Env) (w : World) (soc : Int) (buf : List Nat)
    (r : api_result × World) (h : no_last_ack w.cb_table)
    (hr : tcp_api_send env w soc buf = some r) : no_last_ack r.2.cb_table := by
  unfold tcp_api_send at hr
  split at hr
  · simp only [Option.some.injEq] at hr
    subst hr; exact h
  · split at hr
    · simp only [Option.some.injEq] at hr
      subst hr; exact h
    · exact tcp_api_send_next_no_last_ack env _ _ _ _ _ r h hr

theorem tcp_close_switch_no_last_ack (env : Env) (cc : World → Option World) (w : World)
    (i : Slot) (now : timeval) (h : no_last_ack w.cb_table)
    (hcc : ∀ w', cc w = some w' → no_last_ack w'.cb_table)
    (r : Int × World) (hr : tcp_close_switch env cc w i now = some r) :
    no_last_ack r.2.cb_table := by
  intro j
  unfold tcp_close_switch at hr
  simp only [] at hr
  split at hr
  · simp only [Option.some.injEq] at hr
    subst hr; exact h j
  · split at hr
    · simp at hr
    · rename_i w3 h3
      simp only [Option.some.injEq] at hr
      subst hr
      simp only [state_modify]
      split
      · exact tcp_close_cb_no_last_ack _
      · exact hcc w3 h3 j
  all_goals
    simp only [Option.some.injEq] at hr
    subst hr
    try simp only [state_modify, state_set, tcp_tx_state, tcp_close_cb_state, World.set_same,
      ite_self, if_true]
    repeat' split
    all_goals
      first
      | exact h _
      | decide

/-- The function `tcp_close` and its loop over the children lead no block into LAST_ACK,
whatever the nesting: from CLOSE_WAIT it goes to CLOSING. -/
theorem tcp_close_no_last_ack_aux (env : Env) : ∀ fuel : Nat,
    (∀ (w : World) (i : Slot) (r : Int × World), no_last_ack w.cb_table →
      tcp_close env fuel w i = some r → no_last_ack r.2.cb_table)
    ∧ (∀ (w : World) (i : Slot) (w' : World), no_last_ack w.cb_table →
      tcp_close_backlog env fuel w i = some w' → no_last_ack w'.cb_table) := by
  have hentered : ∀ (w : World) (i : Slot), no_last_ack w.cb_table →
      no_last_ack (close_entered w i).cb_table := by
    intro w i h j
    show ((w.set i { w.cb_table i with used := false }).cb_table j).state ≠ _
    rw [state_set]
    split
    · exact h i
    · exact h j
  have hclose : ∀ fuel : Nat,
      (∀ f, fuel = f + 1 → ∀ (w : World) (i : Slot) (w' : World), no_last_ack w.cb_table →
        tcp_close_backlog env f w i = some w' → no_last_ack w'.cb_table) →
      ∀ (w : World) (i : Slot) (r : Int × World), no_last_ack w.cb_table →
        tcp_close env fuel w i = some r → no_last_ack r.2.cb_table := by
    intro fuel hb w i r h hr
    rw [tcp_close_eq] at hr
    split at hr
    · simp only [Option.some.injEq] at hr
      subst hr; exact h
    · split at hr
      · simp only [Option.some.injEq] at hr
        subst hr; exact hentered w i h
      · rename_i now hnow
        exact tcp_close_switch_no_last_ack env (close_children env fuel i) (close_entered w i)
          i now (hentered w i h) (by
            intro w' hw'
            cases fuel with
            | zero => exact absurd hw' (by simp [close_children])
            | succ f => exact hb f rfl _ i w' (hentered w i h) hw') r hr
  intro fuel
  induction fuel with
  | zero =>
    refine ⟨hclose 0 (fun f hf => by omega), ?_⟩
    intro w i w' h hw'
    unfold tcp_close_backlog at hw'
    split at hw'
    · simp only [Option.some.injEq] at hw'
      subst hw'; exact h
    · simp at hw'
  | succ f ih =>
    refine ⟨hclose (f + 1) (fun f' hf' => by
      have : f' = f := by omega
      subst this
      exact ih.2), ?_⟩
    intro w i w' h hw'
    unfold tcp_close_backlog at hw'
    split at hw'
    · simp only [Option.some.injEq] at hw'
      subst hw'; exact h
    · rename_i c rest hq
      simp only [] at hw'
      split at hw'
      · simp at hw'
      · rename_i r hr
        have h1 : no_last_ack (w.modify i (fun cb => { cb with backlog := rest })).cb_table := by
          intro k
          rw [state_modify]
          split
          · exact h i
          · exact h k
        exact ih.2 r.2 i w' (ih.1 _ c r h1 hr) hw'

theorem timer_block_no_last_ack (cb : tcp_cb) (timestamp : timeval)
    (h : cb.state ≠ TCP_CB_STATE_LAST_ACK) :
    (timer_block cb timestamp).state ≠ TCP_CB_STATE_LAST_ACK := by
  unfold timer_block
  split
  · exact h
  · split
    · exact tcp_close_cb_no_last_ack cb
    · exact h

theorem tcp_timer_tick_no_last_ack (env : Env) (w : World) (prev : timeval)
    (h : no_last_ack w.cb_table) : no_last_ack (tcp_timer_tick env w prev).cb_table := by
  intro j
  unfold tcp_timer_tick
  cases hnow : env.gettimeofday w.tick with
  | none =>
    simp only []
    obtain ⟨r1, _, _⟩ := tcp_timer_fold prev (List.finRange TCP_CB_TABLE_SIZE)
      { w with tick := w.tick + 1 } (List.nodup_finRange _)
    rw [r1 j]
    simp only [List.mem_finRange, if_true]
    exact timer_block_no_last_ack _ _ (h j)
  | some now =>
    simp only []
    obtain ⟨r1, _, _⟩ := tcp_timer_fold now (List.finRange TCP_CB_TABLE_SIZE)
      { w with tick := w.tick + 1 } (List.nodup_finRange _)
    rw [r1 j]
    simp only [List.mem_finRange, if_true]
    exact timer_block_no_last_ack _ _ (h j)

theorem no_last_ack_zero : no_last_ack World.zero.cb_table :=
  fun _ => (by decide : (0 : Nat) ≠ 10)

theorem tcp_run_no_last_ack (env : Env) (w w' : World) (op : tcp_op)
    (h : no_last_ack w.cb_table) (hop : tcp_run env w op = some w') :
    no_last_ack w'.cb_table := by
  cases op with
  | api_open =>
    simp only [tcp_run, Option.some.injEq] at hop
    subst hop
    exact tcp_api_open_no_last_ack _ h
  | api_close soc fuel =>
    simp only [tcp_run, Option.map_eq_some'] at hop
    obtain ⟨r, hr, hw⟩ := hop
    subst hw
    unfold tcp_api_close at hr
    split at hr
    · simp only [Option.some.injEq] at hr
      subst hr
      exact h
    · exact (tcp_close_no_last_ack_aux env fuel).1 _ _ r h hr
  | api_bind soc port =>
    simp only [tcp_run, Option.some.injEq] at hop
    subst hop
    exact tcp_api_bind_no_last_ack _ _ _ h
  | api_listen soc =>
    simp only [tcp_run, Option.some.injEq] at hop
    subst hop
    exact tcp_api_listen_no_last_ack _ _ h
  | api_accept soc =>
    simp only [tcp_run, Option.some.injEq] at hop
    subst hop
    exact tcp_api_accept_no_last_ack _ _ h
  | api_recv soc size =>
    simp only [tcp_run, Option.some.injEq] at hop
    subst hop
    exact tcp_api_recv_no_last_ack _ _ _ h
  | api_send soc buf =>
    simp only [tcp_run, Option.map_eq_some'] at hop
    obtain ⟨r, hr, hw⟩ := hop
    subst hw
    exact tcp_api_send_no_last_ack env w soc buf r h hr
  | api_connect soc addr port =>
    simp only [tcp_run, Option.some.injEq] at hop
    subst hop
    exact tcp_api_connect_no_last_ack _ _ _ _ _ h
  | rx seg src dst iface =>
    simp only [tcp_run, Option.some.injEq] at hop
    subst hop
    exact tcp_rx_no_last_ack _ _ _ _ _ _ h
  | timer prev =>
    simp only [tcp_run, Option.some.injEq] at hop
    subst hop
    exact tcp_timer_tick_no_last_ack _ _ _ h

theorem tcp_resume_no_last_ack (env : Env) (w w' : World) (k : tcp_wake)
    (h : no_last_ack w.cb_table) (hk : tcp_resume env w k = some w') :
    no_last_ack w'.cb_table := by
  cases k with
  | accept i =>
    simp only [tcp_resume, Option.some.injEq] at hk
    subst hk
    exact tcp_api_accept_wake_no_last_ack _ _ h
  | recv i size =>
    simp only [tcp_resume, Option.some.injEq] at hk
    subst hk
    exact tcp_api_recv_retry_no_last_ack _ _ _ h
  | send i buf snt =>
    simp only [tcp_resume, Option.map_eq_some'] at hk
    obtain ⟨r, hr, hw⟩ := hk
    subst hw
    exact tcp_api_send_next_no_last_ack env _ _ _ _ _ r h hr
  | connect i =>
    simp only [tcp_resume, Option.some.injEq] at hk
    subst hk
    exact h

theorem tcp_steps_no_last_ack (env : Env) :
    ∀ (evs : List tcp_event) (w w' : World), no_last_ack w.cb_table →
      tcp_steps env w evs = some w' → no_last_ack w'.cb_table := by
  intro evs
  induction evs with
  | nil =>
    intro w w' h hrun
    simp only [tcp_steps, Option.some.injEq] at hrun
    subst hrun
    exact h
  | cons e es ih =>
    intro w w' h hrun
    unfold tcp_steps at hrun
    split at hrun
    · simp at hrun
    · rename_i w1 h1
      refine ih w1 w' ?_ hrun
      cases e with
      | call op => exact tcp_run_no_last_ack env w w1 op h h1
      | wake k => exact tcp_resume_no_last_ack env w w1 k h h1

theorem option_eq_some_getD {α : Type} (o : Option α) (d : α) (h : o.isSome = true) :
    o = some (o.getD d) := by
  cases o with
  | none => simp at h
  | some a => rfl

/-- Within defined behaviour LAST_ACK is not reached.  From a table in which no block is in
LAST_ACK, a sequence of events (calls of the application interface, segments delivered to
`tcp_rx`, passes of the timer, and woken calls going on) in which no entry point
dereferences a null interface or stores text past the end of `window`
(`tcp_steps_defined`), and that ends in the table `w'`, leaves no block in LAST_ACK; the
zeroed table is such a start.  The same holds inside the events, for every function with a
LAST_ACK case applied to a block of such a table: `tcp_event_segment_arrives` with its ACK
step and its steps from `CHECK_URG` on (for a block with an interface and a text that
stays inside `window`), `tcp_close` at every nesting, the sending loop of `tcp_api_send`
at every turn and `tcp_api_recv` from its retry label.  No statement of the module assigns
LAST_ACK. -/
theorem no_last_ack_while_defined (env : Env) (w w' : World) (evs : List tcp_event)
    (h0 : no_last_ack w.cb_table)
    (hdef : tcp_steps_defined env w evs)
    (hrun : tcp_steps env w evs = some w') :
    no_last_ack w'.cb_table
      ∧ no_last_ack World.zero.cb_table
      ∧ (∀ (e : Env) (v : World) (i : Slot), no_last_ack v.cb_table →
          (∀ c : Slot, tcb_iface_present (v.cb_table c)) →
          (∀ segment, (v.cb_table i).iface ≠ none →
              text_in_window (v.cb_table i)
                (TCP_DATA_LEN (tcp_hdr.ofBytes segment) segment.length) →
              no_last_ack (tcp_event_segment_arrives e v i segment).cb_table)
            ∧ (∀ hdr now, no_last_ack (segment_ack e v i hdr now).1.cb_table)
            ∧ (∀ hdr segment plen now, (v.cb_table i).iface ≠ none →
                text_in_window (v.cb_table i) plen →
                no_last_ack (segment_check_urg e v i hdr segment plen now).cb_table)
            ∧ (∀ fuel r, tcp_close e fuel v i = some r → no_last_ack r.2.cb_table)
            ∧ (∀ fuel buf snt r, tcp_api_send_next e fuel v i buf snt = some r →
                no_last_ack r.2.cb_table)
            ∧ (∀ size, no_last_ack (tcp_api_recv_retry v i size).2.2.cb_table)) :=
  ⟨tcp_steps_no_last_ack env evs w w' h0 hrun, no_last_ack_zero,
    fun e v i hv _ =>
      ⟨fun segment _ _ => tcp_event_segment_arrives_no_last_ack e v i segment hv,
        fun hdr now => segment_ack_no_last_ack e v i hdr now hv,
        fun hdr segment plen now _ _ =>
          segment_check_urg_no_last_ack e v i hdr segment plen now hv,
        fun fuel r hr => (tcp_close_no_last_ack_aux e fuel).1 v i r hv hr,
        fun fuel buf snt r hr => tcp_api_send_next_no_last_ack e fuel v i buf snt r hv hr,
        fun size => tcp_api_recv_retry_no_last_ack v i size hv⟩⟩

set_option maxRecDepth 100000 in
/-- The passive close `events_passive_close` from the zeroed table stays within defined
behaviour and runs to its end; after `tcp_close` in CLOSE_WAIT the connection in slot 1 is
in CLOSING, where it still is at the end, and no block is in LAST_ACK. -/
theorem no_last_ack_while_defined_witness :
    no_last_ack World.zero.cb_table
      ∧ tcp_steps_defined env_ok World.zero events_passive_close
      ∧ (tcp_steps env_ok World.zero (events_passive_close.take 7)).map
          (fun v => (v.cb_table 1).state) = some TCP_CB_STATE_CLOSE_WAIT
      ∧ (tcp_steps env_ok World.zero (events_passive_close.take 8)).map
          (fun v => (v.cb_table 1).state) = some TCP_CB_STATE_CLOSING
      ∧ (tcp_steps env_ok World.zero events_passive_close).map
          (fun v => ((v.cb_table 0).state, (v.cb_table 1).state))
        = some (TCP_CB_STATE_LISTEN, TCP_CB_STATE_CLOSING)
      ∧ no_last_ack
          ((tcp_steps env_ok World.zero events_passive_close).getD World.zero).cb_table :=
  ⟨no_last_ack_zero, by decide, by decide, by decide, by decide,
    (no_last_ack_while_defined env_ok World.zero
      ((tcp_steps env_ok World.zero events_passive_close).getD World.zero)
      events_passive_close no_last_ack_zero (by decide)
      (option_eq_some_getD _ _ (by decide))).1⟩

end TcpStack
